import Mathlib

/-!
Participant–event lifecycle and certificate issuance.

A shallow embedding of the participants controller
(`Backend/src/features/participants/controllers/dashboard.js`): the handlers
`registerEvent` and `giveFeedback`, the internal `generateCertificate`, and the
read handlers `getCertificates`, `getCertificatePreview`,
`getCertificateImagePreview` and `verifyCertificate`, over an explicit store of
the Mongoose collections they touch.  The handlers `registerEvent` and
`giveFeedback` of the legacy controller
(`Backend/controllers/participant/dashboard.js`) are embedded next to them.

Conventions of the embedding.

* A JavaScript number is the rational value of a binary64 number.  Sums and
  quotients are rounded to binary64 (`roundDouble`: round to nearest, ties to
  even, with the subnormal range); `NaN` and the infinities are not values of
  the embedding, and a computation that would produce them is marked as such.
* Every awaited store or library call may throw.  Which calls throw during one
  execution is an input (`Env.fails`), as are the clock readings and the
  random draws used for certificate ids.
* `mongoose.Types.ObjectId.isValid`, the cast of a request value to an ObjectId,
  base64 encoding and the configured front-end URL are library facts, collected
  in `Lib`.
-/

namespace EventsApp

/-! ## JavaScript values -/

/-- Scalar JavaScript values as they arrive in a JSON request body
(`undefined` stands for a missing key; `num q` is the number whose binary64
value is `q`). -/
inductive Scalar where
  | undefined
  | null
  | bool (b : Bool)
  | num (q : ℚ)
  | str (s : String)
  deriving DecidableEq

/-- A value stored under a key of an object: a scalar, or a nested object or
array whose contents the controller never inspects. -/
inductive Leaf where
  | scalar (v : Scalar)
  | nested
  deriving DecidableEq

/-- A request value: a scalar, or an object (an array is the object of its
indices) with its own enumerable entries in order. -/
inductive JsVal where
  | scalar (v : Scalar)
  | obj (entries : List (String × Leaf))
  deriving DecidableEq

/-- JavaScript truthiness of a scalar. -/
def Scalar.truthy : Scalar → Bool
  | .undefined => false
  | .null => false
  | .bool b => b
  | .num q => decide (q ≠ 0)
  | .str s => decide (s ≠ "")

/-- JavaScript truthiness of a request value; every object is truthy. -/
def JsVal.truthy : JsVal → Bool
  | .scalar v => v.truthy
  | .obj _ => true

/-- The test `typeof v === 'object'`. -/
def JsVal.typeofObject : JsVal → Bool
  | .scalar .null => true
  | .scalar _ => false
  | .obj _ => true

/-- The entries `Object.entries(v)` of a value (none for a scalar). -/
def JsVal.entries : JsVal → List (String × Leaf)
  | .scalar _ => []
  | .obj es => es

/-- The values `Object.values(v)`. -/
def JsVal.values (v : JsVal) : List Leaf :=
  v.entries.map Prod.snd

/-- A request value seen as a value stored under a key. -/
def JsVal.toLeaf : JsVal → Leaf
  | .scalar v => .scalar v
  | .obj _ => .nested

/-- The function `Math.round`: nearest integer, halves towards plus infinity. -/
def jsRound (x : ℚ) : Int :=
  Int.floor (x + 1 / 2)

/-! ## Binary64 arithmetic -/

/-- The power `2 ^ e` of an integer exponent. -/
def pow2 (e : Int) : ℚ :=
  if 0 ≤ e then ((2 ^ e.toNat : Nat) : ℚ) else 1 / ((2 ^ (-e).toNat : Nat) : ℚ)

/-- The number of binary digits of `n`, by repeated halving (`fuel` bounds the
number of halvings; `n` itself is always enough). -/
def bitLength : Nat → Nat → Nat
  | 0, _ => 0
  | fuel + 1, n => if n = 0 then 0 else bitLength fuel (n / 2) + 1

/-- The binary exponent of a non-zero rational: the integer `e` with
`2 ^ e ≤ |x| < 2 ^ (e + 1)`. -/
def binaryExponent (x : ℚ) : Int :=
  if pow2 ((bitLength x.num.natAbs x.num.natAbs : Int) - (bitLength x.den x.den : Int)) ≤ |x| then
    (bitLength x.num.natAbs x.num.natAbs : Int) - (bitLength x.den x.den : Int)
  else (bitLength x.num.natAbs x.num.natAbs : Int) - (bitLength x.den x.den : Int) - 1

/-- Rounding to the nearest integer, ties to the even one. -/
def roundHalfEven (y : ℚ) : Int :=
  if y - Int.floor y < 1 / 2 then Int.floor y
  else if 1 / 2 < y - Int.floor y then Int.floor y + 1
  else if Int.floor y % 2 = 0 then Int.floor y else Int.floor y + 1

/-- The spacing of the binary64 numbers around a non-zero `x`: 53 significant
bits, and the fixed spacing `2 ^ (-1074)` in the subnormal range. -/
def ulp (x : ℚ) : ℚ :=
  pow2 (max (binaryExponent x) (-1022) - 52)

/-- IEEE 754 rounding of a real number to binary64 (round to nearest, ties to
even), as long as the result is finite. -/
def roundDouble (x : ℚ) : ℚ :=
  if x = 0 then 0 else roundHalfEven (x / ulp x) * ulp x

/-- The expression `a || b` on optional strings (absent and empty are falsy). -/
def orElse (a : Option String) (b : String) : String :=
  match a with
  | some s => if s = "" then b else s
  | none => b

/-! ## Documents and the store -/

/-- Text of an ObjectId. -/
abbrev Id := String

/-- Document of the `ParticipantEvent` collection (the enrollment record). -/
structure ParticipantEvent where
  participantId : Id
  eventId : Id
  attended : Bool
  feedbackGiven : Bool
  feedbackDate : Option Nat
  certificateGenerated : Bool
  certificateGeneratedDate : Option Nat
  certificateId : Option String
  deriving DecidableEq

/-- The nine fixed answers `q7` .. `q15` of the legacy feedback form. -/
structure LegacyAnswers where
  q7 : JsVal
  q8 : JsVal
  q9 : JsVal
  q10 : JsVal
  q11 : JsVal
  q12 : JsVal
  q13 : JsVal
  q14 : JsVal
  q15 : JsVal
  deriving DecidableEq

/-- The value of `overallRating` in the data handed to `Feedback.create`: absent,
an integer, or `other` for a JavaScript number that the embedding does not
compute (an infinite result, or the result of `+` on operands that are neither
all numbers nor made of integers and short digit strings). -/
inductive Rating where
  | absent
  | value (n : Int)
  | other
  deriving DecidableEq

/-- Document of the `Feedback` collection. -/
structure Feedback where
  participantId : Id
  eventId : Id
  email : JsVal
  name : JsVal
  designation : JsVal
  institute : JsVal
  contact : JsVal
  submissionSource : String
  ipAddress : Option String
  userAgent : Option String
  responses : List (String × Leaf)
  legacy : Option LegacyAnswers
  overallRating : Rating
  deriving DecidableEq

/-- The stored image of a certificate (`certificateData`). -/
structure CertificateData where
  imageBuffer : List Nat
  contentType : String
  fileName : String
  fileSize : Nat
  deriving DecidableEq

/-- One entry of a certificate's audit log. -/
structure AuditEntry where
  action : String
  performedBy : Id
  details : String
  ipAddress : String
  timestamp : Nat
  deriving DecidableEq

/-- Document of the `Certificate` collection (the constant `template` and
`metadata` sub-documents are left out). -/
structure Certificate where
  certificateId : String
  participantId : Id
  eventId : Id
  participantName : String
  eventTitle : String
  eventDuration : String
  startDate : Nat
  endDate : Nat
  venue : String
  mode : String
  issuedBy : Id
  issuedDate : Nat
  verificationUrl : String
  digitalSignature : String
  verified : Option Bool
  certificateData : Option CertificateData
  status : String
  skills : Option (List String)
  auditLog : List AuditEntry
  deriving DecidableEq

/-- Document of the `Event` collection, restricted to the fields read here. -/
structure Event where
  id : Id
  title : String
  duration : Option String
  startDate : Nat
  endDate : Nat
  venue : String
  mode : String
  skills : Option (List String)
  deriving DecidableEq

/-- Document of the `User` collection, restricted to the fields read here. -/
structure User where
  id : Id
  name : String
  email : String
  role : String
  isActive : Bool
  deriving DecidableEq

/-- The persistent store: the five collections the controller uses. -/
structure Store where
  participantEvents : List ParticipantEvent
  feedbacks : List Feedback
  certificates : List Certificate
  events : List Event
  users : List User
  deriving DecidableEq

/-! ## Environment of one execution -/

/-- The awaited calls that can throw. -/
inductive Op where
  | readUser
  | enrollmentFind
  | enrollmentCreate
  | feedbackCreate
  | enrollmentMarkFeedback
  | eventFind
  | userFind
  | certificateFind
  | loadModules
  | signerFind
  | render
  | certificateSave
  | enrollmentMarkCertificate
  | enrollmentMarkFallback
  | certificateById
  | callerFind
  | enrollmentByCertificate
  | certificateList
  deriving DecidableEq

/-- What one execution of a handler takes from outside the program: two clock
readings and two random draws (the second pair is read in the catch block of
`generateCertificate`), the calls that throw, and the bytes the image pipeline
yields when it does not throw.  A random draw is given as the text of
`Math.random().toString(36)`. -/
structure Env where
  now : Nat
  random : String
  fallbackNow : Nat
  fallbackRandom : String
  fails : Op → Bool
  image : List Nat

/-- Library and configuration facts: `ObjectId.isValid`, the cast of a request
value to an ObjectId (`none` is a `CastError`), base64 encoding of a byte
buffer and `process.env.FRONTEND_URL || 'http://localhost:3000'`. -/
structure Lib where
  isValid : JsVal → Bool
  castId : JsVal → Option Id
  base64 : List Nat → String
  frontendUrl : String

/-- The bytes of `Buffer.from(text)` (UTF-8). -/
def utf8Bytes (text : String) : List Nat :=
  text.toUTF8.toList.map UInt8.toNat

/-! ## Responses -/

/-- The public summary of a certificate returned by `generateCertificate`
(`participantId` and `eventId` are present on the fallback object only). -/
structure CertificateSummary where
  certificateId : String
  participantName : JsVal
  eventTitle : String
  issuedDate : Nat
  verified : Bool
  skills : List String
  description : String
  participantId : Option JsVal
  eventId : Option JsVal
  deriving DecidableEq

/-- JSON body of a response. -/
inductive Body where
  | message (text : String)
  | refused (text : String)
  | thrown (op : Op)
  | registration (record : ParticipantEvent)
  | submitted (feedback : Feedback) (certificate : CertificateSummary) (text : String)
  deriving DecidableEq

/-- An HTTP response.  An exception that escapes a handler wrapped in
`asyncHandler` is shown as status 500 with body `thrown`. -/
structure Response where
  status : Nat
  body : Body
  deriving DecidableEq

/-! ## Store primitives -/

/-- The filter `{ participantId, eventId }` on enrollment records. -/
def ParticipantEvent.matches (p e : Id) (r : ParticipantEvent) : Bool :=
  decide (r.participantId = p) && decide (r.eventId = e)

/-- The query `ParticipantEvent.findOne({ participantId, eventId })`. -/
def findEnrollment (p e : Id) (rs : List ParticipantEvent) : Option ParticipantEvent :=
  rs.find? (ParticipantEvent.matches p e)

/-- The update `ParticipantEvent.findOneAndUpdate({ participantId, eventId }, u)`:
the first matching record is updated, and nothing happens without a match. -/
def updateEnrollment (p e : Id) (u : ParticipantEvent → ParticipantEvent) :
    List ParticipantEvent → List ParticipantEvent
  | [] => []
  | r :: rs =>
    if r.matches p e then u r :: rs else r :: updateEnrollment p e u rs

/-- The query `Certificate.findOne({ participantId, eventId })`. -/
def findCertificate (p e : Id) (cs : List Certificate) : Option Certificate :=
  cs.find? (fun c => decide (c.participantId = p) && decide (c.eventId = e))

/-- The query `Event.findById`. -/
def findEvent (e : Id) (es : List Event) : Option Event :=
  es.find? (fun ev => decide (ev.id = e))

/-- The query `User.findById`. -/
def findUser (p : Id) (us : List User) : Option User :=
  us.find? (fun u => decide (u.id = p))

/-! ## Registration and attendance -/

/-- The authenticated caller `req.user` (its role and the text of its id). -/
structure AuthUser where
  role : String
  id : String
  deriving DecidableEq

/-- Modelled from the spec: the `ParticipantEvent` schema is not among the
sources.  A record is created at registration with all flags false; the
controller passes `attended: false, feedbackGiven: false` and the remaining
fields take their defaults. -/
def newEnrollment (p e : Id) : ParticipantEvent :=
  { participantId := p, eventId := e, attended := false, feedbackGiven := false,
    feedbackDate := none, certificateGenerated := false,
    certificateGeneratedDate := none, certificateId := none }

/-- The handler `registerEvent`.  `user` is `req.user` (reading its role throws
when it is absent). -/
def registerEvent (lib : Lib) (env : Env) (s : Store) (user : Option AuthUser)
    (participantId eventId : JsVal) : Store × Response :=
  match user with
  | none => (s, ⟨500, .thrown .readUser⟩)
  | some u =>
    if u.role = "participant" ∧ participantId ≠ .scalar (.str u.id) then
      (s, ⟨403, .refused "You can only register yourself for events"⟩)
    else if env.fails .enrollmentFind then
      (s, ⟨500, .thrown .enrollmentFind⟩)
    else
      match lib.castId participantId, lib.castId eventId with
      | some p, some e =>
        match findEnrollment p e s.participantEvents with
        | some _ => (s, ⟨400, .message "Already registered"⟩)
        | none =>
          if env.fails .enrollmentCreate then
            (s, ⟨500, .thrown .enrollmentCreate⟩)
          else
            ({ s with participantEvents := s.participantEvents ++ [newEnrollment p e] },
              ⟨201, .registration (newEnrollment p e)⟩)
      | _, _ => (s, ⟨500, .thrown .enrollmentFind⟩)

/-- Modelled from the spec: attendance marking is done outside the sources; it
sets `attended` of the record of the pair to true and changes nothing else. -/
def markAttended (s : Store) (p e : Id) : Store :=
  { s with participantEvents :=
      updateEnrollment p e (fun r => { r with attended := true }) s.participantEvents }

/-! ## Certificate issuance -/

/-- The id built as `CERT-` timestamp `-` suffix, the suffix being
`random.substr(2, 9).toUpperCase()`. -/
def certificateIdOf (now : Nat) (random : String) : String :=
  "CERT-" ++ toString now ++ "-" ++
    String.mk (((random.data.drop 2).take 9).map Char.toUpper)

/-- The inner `generateCertificateImage`: template, QR code and compositing are
library calls; it yields the image bytes or throws. -/
def generateCertificateImage (env : Env) : Except Op (List Nat) :=
  if env.fails .render then .error .render else .ok env.image

/-- Why the try block of `generateCertificate` was left by an exception. -/
inductive Failure where
  | thrown (op : Op)
  | eventNotFound
  | participantNotFound
  deriving DecidableEq

/-- The summary returned for a certificate that already exists. -/
def existingSummary (c : Certificate) : CertificateSummary :=
  { certificateId := c.certificateId
    participantName := .scalar (.str c.participantName)
    eventTitle := c.eventTitle
    issuedDate := c.issuedDate
    verified := true
    skills := c.skills.getD []
    description := "Certificate of completion for " ++ c.eventTitle
    participantId := none
    eventId := none }

/-- The document built by `new Certificate(...)` together with its first audit
log entry. -/
def newCertificate (lib : Lib) (env : Env) (p e : Id) (event : Event)
    (participant : User) (certificateBuffer : Option (List Nat)) : Certificate :=
  { certificateId := certificateIdOf env.now env.random
    participantId := p
    eventId := e
    participantName := participant.name
    eventTitle := event.title
    eventDuration := orElse event.duration "1 Day"
    startDate := event.startDate
    endDate := event.endDate
    venue := event.venue
    mode := event.mode
    issuedBy := p
    issuedDate := env.now
    verificationUrl :=
      lib.frontendUrl ++ "/verify-certificate/" ++ certificateIdOf env.now env.random
    digitalSignature := lib.base64 (utf8Bytes (certificateIdOf env.now env.random))
    verified := some true
    certificateData := certificateBuffer.map fun b =>
      { imageBuffer := b
        contentType := "image/png"
        fileName := "certificate-" ++ certificateIdOf env.now env.random ++ ".png"
        fileSize := b.length }
    status := "generated"
    skills := some (event.skills.getD [])
    auditLog :=
      [{ action := "created", performedBy := p,
         details := "Certificate generated after feedback submission",
         ipAddress := "127.0.0.1", timestamp := env.now }] }

/-- The summary returned after a certificate was created. -/
def createdSummary (env : Env) (event : Event) (participant : User) : CertificateSummary :=
  { certificateId := certificateIdOf env.now env.random
    participantName := .scalar (.str participant.name)
    eventTitle := event.title
    issuedDate := env.now
    verified := true
    skills := event.skills.getD []
    description := "Certificate of completion for " ++ event.title
    participantId := none
    eventId := none }

/-- The update that records an issued certificate on the enrollment record. -/
def markCertificate (date : Nat) (certificateId : String) (r : ParticipantEvent) :
    ParticipantEvent :=
  { r with certificateGenerated := true, certificateGeneratedDate := some date,
           certificateId := some certificateId }

/-- The try block of `generateCertificate`: the store it leaves and either the
summary it returns or the reason it was left. -/
def generateCertificateTry (lib : Lib) (env : Env) (s : Store)
    (participantId eventId : JsVal) : Store × Except Failure CertificateSummary :=
  if env.fails .eventFind then (s, .error (.thrown .eventFind)) else
  match lib.castId eventId with
  | none => (s, .error (.thrown .eventFind))
  | some e =>
  match findEvent e s.events with
  | none => (s, .error .eventNotFound)
  | some event =>
  if env.fails .userFind then (s, .error (.thrown .userFind)) else
  match lib.castId participantId with
  | none => (s, .error (.thrown .userFind))
  | some p =>
  match findUser p s.users with
  | none => (s, .error .participantNotFound)
  | some participant =>
  if env.fails .certificateFind then (s, .error (.thrown .certificateFind)) else
  match findCertificate p e s.certificates with
  | some existingCertificate => (s, .ok (existingSummary existingCertificate))
  | none =>
  if env.fails .loadModules then (s, .error (.thrown .loadModules)) else
  if env.fails .signerFind then (s, .error (.thrown .signerFind)) else
  let certificateBuffer : Option (List Nat) :=
    match generateCertificateImage env with
    | .ok b => some b
    | .error _ => none
  if env.fails .certificateSave then (s, .error (.thrown .certificateSave)) else
  let s1 : Store :=
    { s with certificates :=
        s.certificates ++ [newCertificate lib env p e event participant certificateBuffer] }
  if env.fails .enrollmentMarkCertificate then
    (s1, .error (.thrown .enrollmentMarkCertificate))
  else
    ({ s1 with
        participantEvents :=
          updateEnrollment p e (markCertificate env.now (certificateIdOf env.now env.random))
            s1.participantEvents },
      .ok (createdSummary env event participant))

/-- The object `fallbackCertificate` of the catch block.  The `event` of the try
block is not in scope there, so the title and skills are the defaults. -/
def fallbackCertificate (env : Env) (participantId eventId participantName : JsVal) :
    CertificateSummary :=
  { certificateId := certificateIdOf env.fallbackNow env.fallbackRandom
    participantName := participantName
    eventTitle := "Unknown Event"
    issuedDate := env.fallbackNow
    verified := true
    skills := []
    description := "Certificate of completion for Unknown Event"
    participantId := some participantId
    eventId := some eventId }

/-- The catch block of `generateCertificate`: the enrollment record is marked
with the id of the fallback object, which is returned; the update may throw. -/
def generateCertificateCatch (lib : Lib) (env : Env) (s : Store)
    (participantId eventId participantName : JsVal) : Store × Except Op CertificateSummary :=
  if env.fails .enrollmentMarkFallback then (s, .error .enrollmentMarkFallback) else
  match lib.castId participantId, lib.castId eventId with
  | some p, some e =>
    ({ s with
        participantEvents :=
          updateEnrollment p e
            (markCertificate env.fallbackNow (certificateIdOf env.fallbackNow env.fallbackRandom))
            s.participantEvents },
      .ok (fallbackCertificate env participantId eventId participantName))
  | _, _ => (s, .error .enrollmentMarkFallback)

/-- The function `generateCertificate (participantId, eventId, participantName)`. -/
def generateCertificate (lib : Lib) (env : Env) (s : Store)
    (participantId eventId participantName : JsVal) : Store × Except Op CertificateSummary :=
  match generateCertificateTry lib env s participantId eventId with
  | (s1, .ok summary) => (s1, .ok summary)
  | (s1, .error _) => generateCertificateCatch lib env s1 participantId eventId participantName

/-! ## Feedback intake -/

/-- The body of a feedback request together with `req.ip` and the
`User-Agent` header. -/
structure FeedbackRequest where
  participantId : JsVal
  eventId : JsVal
  email : JsVal
  name : JsVal
  designation : JsVal
  institute : JsVal
  contact : JsVal
  responses : JsVal
  q7 : JsVal
  q8 : JsVal
  q9 : JsVal
  q10 : JsVal
  q11 : JsVal
  q12 : JsVal
  q13 : JsVal
  q14 : JsVal
  q15 : JsVal
  ip : Option String
  userAgent : Option String
  deriving DecidableEq

/-- The filter `typeof val === 'number' && val >= 1 && val <= 5` over the values
of `responses`, keeping the numbers. -/
def ratingResponses (values : List Leaf) : List ℚ :=
  values.filterMap fun v =>
    match v with
    | .scalar (.num q) => if 1 ≤ q ∧ q ≤ 5 then some q else none
    | _ => none

/-- The sum `values.reduce((sum, val) => sum + val, 0)`: every addition is
rounded to binary64.  (The running sum of numbers up to 5 stays far from the
overflow threshold.) -/
def doubleSum (values : List ℚ) : ℚ :=
  values.foldl (fun sum val => roundDouble (sum + val)) 0

/-- The `overallRating` of the structured path: set only when some rating
response exists, to `Math.round` of the quotient of the sum by the count. -/
def structuredRating (responses : JsVal) : Option Int :=
  if (ratingResponses responses.values).length > 0 then
    some (jsRound (roundDouble (doubleSum (ratingResponses responses.values)
      / (ratingResponses responses.values).length)))
  else none

/-- The rating as a value of `overallRating`. -/
def Rating.ofOption : Option Int → Rating
  | some n => .value n
  | none => .absent

/-- A primitive value met while `q7 + q8 + q9 + q10 + q11 + q13` is evaluated: a
finite number, a string, or `other` for any value that the embedding does not
compute. -/
inductive Operand where
  | num (q : ℚ)
  | str (s : String)
  | other
  deriving DecidableEq

/-- A request value as an operand of `+`.  Numbers and strings are computed;
booleans, `null`, `undefined`, objects and arrays are not. -/
def JsVal.operand : JsVal → Operand
  | .scalar (.num q) => .num q
  | .scalar (.str s) => .str s
  | _ => .other

/-- The text `String(q)` of a number that is an integer below `2 ^ 53` in
absolute value: its decimal digits. -/
def integerText (q : ℚ) : Option String :=
  if q.den = 1 ∧ |q| < 9007199254740992 then some (toString q.num) else none

/-- The JavaScript operator `+`: binary64 addition of two numbers (`other` when
the sum is infinite), concatenation when an operand is a string. -/
def Operand.plus : Operand → Operand → Operand
  | .num a, .num b =>
    if |roundDouble (a + b)| < pow2 1024 then .num (roundDouble (a + b)) else .other
  | .str a, .str b => .str (a ++ b)
  | .num a, .str b =>
    match integerText a with
    | some t => .str (t ++ b)
    | none => .other
  | .str a, .num b =>
    match integerText b with
    | some t => .str (a ++ t)
    | none => .other
  | _, _ => .other

/-- The number denoted by a string of one to fifteen decimal digits. -/
def digitsValue (s : String) : Option Nat :=
  if s.data ≠ [] ∧ s.data.length ≤ 15 ∧ s.data.all Char.isDigit = true then
    some (s.data.foldl (fun n c => 10 * n + (c.toNat - 48)) 0)
  else none

/-- The conversion `ToNumber` applied to the dividend of `/ 6`. -/
def Operand.toNumber : Operand → Option ℚ
  | .num q => some q
  | .str s => (digitsValue s).map fun n => (n : ℚ)
  | .other => none

/-- The `overallRating` of the legacy path,
`Math.round((q7 + q8 + q9 + q10 + q11 + q13) / 6)`: the additions from left to
right, the division rounded to binary64, and `Math.round`. -/
def legacyRating (q7 q8 q9 q10 q11 q13 : JsVal) : Rating :=
  match (((((q7.operand.plus q8.operand).plus q9.operand).plus q10.operand).plus
      q11.operand).plus q13.operand).toNumber with
  | some x => .value (jsRound (roundDouble (x / 6)))
  | none => .other

/-- The condition that sends a request down the structured path:
`responses && typeof responses === 'object'`. -/
def FeedbackRequest.structured (req : FeedbackRequest) : Bool :=
  req.responses.truthy && req.responses.typeofObject

/-- The check that all nine legacy answers are truthy. -/
def FeedbackRequest.legacyAnswered (req : FeedbackRequest) : Bool :=
  req.q7.truthy && req.q8.truthy && req.q9.truthy && req.q10.truthy && req.q11.truthy
    && req.q12.truthy && req.q13.truthy && req.q14.truthy && req.q15.truthy

/-- The `feedbackData` handed to `Feedback.create`, or `none` when the legacy
answers are incomplete. -/
def feedbackData (p e : Id) (req : FeedbackRequest) : Option Feedback :=
  if req.structured then
    some { participantId := p, eventId := e, email := req.email, name := req.name,
           designation := req.designation, institute := req.institute,
           contact := req.contact, submissionSource := "web", ipAddress := req.ip,
           userAgent := req.userAgent, responses := req.responses.entries,
           legacy := none, overallRating := Rating.ofOption (structuredRating req.responses) }
  else if !req.legacyAnswered then none
  else
    some { participantId := p, eventId := e, email := req.email, name := req.name,
           designation := req.designation, institute := req.institute,
           contact := req.contact, submissionSource := "web", ipAddress := req.ip,
           userAgent := req.userAgent,
           responses :=
             [("q7", req.q7.toLeaf), ("q8", req.q8.toLeaf), ("q9", req.q9.toLeaf),
              ("q10", req.q10.toLeaf), ("q11", req.q11.toLeaf), ("q12", req.q12.toLeaf),
              ("q13", req.q13.toLeaf), ("q14", req.q14.toLeaf), ("q15", req.q15.toLeaf)],
           legacy := some ⟨req.q7, req.q8, req.q9, req.q10, req.q11, req.q12, req.q13,
             req.q14, req.q15⟩,
           overallRating := legacyRating req.q7 req.q8 req.q9 req.q10 req.q11 req.q13 }

/-- The first check of `giveFeedback`: both ids and the five personal fields
are truthy. -/
def FeedbackRequest.personalInfoPresent (req : FeedbackRequest) : Bool :=
  req.participantId.truthy && req.eventId.truthy && req.email.truthy && req.name.truthy
    && req.designation.truthy && req.institute.truthy && req.contact.truthy

/-- The update `{ feedbackGiven: true, feedbackDate: new Date() }`. -/
def markFeedback (date : Nat) (r : ParticipantEvent) : ParticipantEvent :=
  { r with feedbackGiven := true, feedbackDate := some date }

/-- The store after `Feedback.create(feedbackData)`. -/
def Store.addFeedback (s : Store) (feedback : Feedback) : Store :=
  { s with feedbacks := s.feedbacks ++ [feedback] }

/-- The store after the update that marks feedback as given for the pair. -/
def Store.markFeedbackGiven (s : Store) (p e : Id) (date : Nat) : Store :=
  { s with participantEvents := updateEnrollment p e (markFeedback date) s.participantEvents }

/-- The handler `giveFeedback`. -/
def giveFeedback (lib : Lib) (env : Env) (s : Store) (req : FeedbackRequest) :
    Store × Response :=
  if !req.personalInfoPresent then
    (s, ⟨400, .message "All personal information fields are required"⟩)
  else if !lib.isValid req.participantId || !lib.isValid req.eventId then
    (s, ⟨400, .message "Invalid participantId or eventId"⟩)
  else if env.fails .enrollmentFind then (s, ⟨400, .thrown .enrollmentFind⟩)
  else
    match lib.castId req.participantId, lib.castId req.eventId with
    | some p, some e =>
      match findEnrollment p e s.participantEvents with
      | none => (s, ⟨404, .message "Participant not registered for this event"⟩)
      | some participantEvent =>
        if !participantEvent.attended then
          (s, ⟨400, .message "Cannot submit feedback for events you haven't attended"⟩)
        else if participantEvent.feedbackGiven then
          (s, ⟨400, .message "Feedback already submitted for this event"⟩)
        else
          match feedbackData p e req with
          | none => (s, ⟨400, .message "All feedback questions must be answered"⟩)
          | some feedback =>
            if env.fails .feedbackCreate then (s, ⟨400, .thrown .feedbackCreate⟩)
            else if env.fails .enrollmentMarkFeedback then
              (s.addFeedback feedback, ⟨400, .thrown .enrollmentMarkFeedback⟩)
            else
              match generateCertificate lib env
                ((s.addFeedback feedback).markFeedbackGiven p e env.now)
                req.participantId req.eventId req.name with
              | (s3, .error op) => (s3, ⟨400, .thrown op⟩)
              | (s3, .ok certificate) =>
                (s3, ⟨201, .submitted feedback certificate
                  "Feedback submitted successfully! Your certificate has been generated."⟩)
    | _, _ => (s, ⟨400, .thrown .enrollmentFind⟩)

/-! ## Executions -/

/-- One call made to the controller, with the environment of its execution. -/
inductive Call where
  | register (env : Env) (user : Option AuthUser) (participantId eventId : JsVal)
  | attend (p e : Id)
  | feedback (env : Env) (req : FeedbackRequest)
  | issue (env : Env) (participantId eventId participantName : JsVal)

/-- The store left by one call. -/
def step (lib : Lib) (s : Store) : Call → Store
  | .register env user participantId eventId =>
    (registerEvent lib env s user participantId eventId).1
  | .attend p e => markAttended s p e
  | .feedback env req => (giveFeedback lib env s req).1
  | .issue env participantId eventId participantName =>
    (generateCertificate lib env s participantId eventId participantName).1

/-- The store left by a sequence of calls executed one after the other. -/
def run (lib : Lib) (s : Store) (calls : List Call) : Store :=
  calls.foldl (step lib) s

/-- The empty store over given event and user collections. -/
def emptyStore (events : List Event) (users : List User) : Store :=
  { participantEvents := [], feedbacks := [], certificates := [],
    events := events, users := users }

/-! ## Properties of interest -/

/-- A call of the public surface of the controller: everything but a direct
invocation of the internal `generateCertificate`. -/
def Call.external : Call → Bool
  | .issue _ _ _ _ => false
  | _ => true

/-- The lifecycle invariant on one enrollment record. -/
def RecordOk (r : ParticipantEvent) : Prop :=
  (r.feedbackGiven = true → r.attended = true) ∧
  (r.certificateGenerated = true → r.feedbackGiven = true)

/-- What an execution of `generateCertificate` for the given ids may do to a
store `s`, leaving `t`: at most one update of the enrollment record of the pair
by `markCertificate`, and at most one certificate appended for the pair, the
latter only if the store held none for it. -/
def IssueEffect (lib : Lib) (participantId eventId : JsVal) (s t : Store) : Prop :=
  t.feedbacks = s.feedbacks ∧ t.events = s.events ∧ t.users = s.users ∧
  (t.participantEvents = s.participantEvents ∨
    ∃ p e d c, lib.castId participantId = some p ∧ lib.castId eventId = some e ∧
      t.participantEvents = updateEnrollment p e (markCertificate d c) s.participantEvents) ∧
  (t.certificates = s.certificates ∨
    ∃ p e c, lib.castId participantId = some p ∧ lib.castId eventId = some e ∧
      findCertificate p e s.certificates = none ∧ c.participantId = p ∧ c.eventId = e ∧
      t.certificates = s.certificates ++ [c])

/-- The response of `giveFeedback` once the feedback flag is written, by the
outcome of `generateCertificate`. -/
def feedbackReply (feedback : Feedback) : Except Op CertificateSummary → Response
  | .error op => ⟨400, .thrown op⟩
  | .ok certificate =>
    ⟨201, .submitted feedback certificate
      "Feedback submitted successfully! Your certificate has been generated."⟩

/-! ## A concrete scenario

One participant, one event, a library in which the valid ids are the strings of
24 hexadecimal digits, and an environment in which no call throws. -/

/-- Standard base64 alphabet lookup. -/
def base64Digit (n : Nat) : Char :=
  "ABCDEFGHIJKLMNOPQRSTUVWXYZabcdefghijklmnopqrstuvwxyz0123456789+/".data.getD n '='

/-- Standard base64 encoding of a byte list. -/
def base64Chars : List Nat → List Char
  | a :: b :: c :: rest =>
    base64Digit (a / 4) :: base64Digit (a % 4 * 16 + b / 16) ::
      base64Digit (b % 16 * 4 + c / 64) :: base64Digit (c % 64) :: base64Chars rest
  | [a, b] => [base64Digit (a / 4), base64Digit (a % 4 * 16 + b / 16), base64Digit (b % 16 * 4), '=']
  | [a] => [base64Digit (a / 4), base64Digit (a % 4 * 16), '=', '=']
  | [] => []

/-- Strings of 24 hexadecimal digits. -/
def hexId (t : String) : Bool :=
  decide (t.data.length = 24) &&
    t.data.all fun c => c.isDigit || (decide ('a' ≤ c) && decide (c ≤ 'f'))
      || (decide ('A' ≤ c) && decide (c ≤ 'F'))

/-- A library in which exactly the strings of 24 hexadecimal digits are ids. -/
def sampleLib : Lib :=
  { isValid := fun v =>
      match v with
      | .scalar (.str t) => hexId t
      | _ => false
    castId := fun v =>
      match v with
      | .scalar (.str t) => if hexId t then some t else none
      | _ => none
    base64 := fun bytes => String.mk (base64Chars bytes)
    frontendUrl := "http://localhost:3000" }

/-- An execution in which nothing throws. -/
def calmEnv : Env :=
  { now := 1700000000000, random := "0.k3j9x7q2m5p", fallbackNow := 1700000000001,
    fallbackRandom := "0.z8y7x6w5v4u", fails := fun _ => false, image := [137, 80, 78, 71] }

/-- Id of the sample participant. -/
def alice : Id := "64b0000000000000000000a1"

/-- Id of the sample event. -/
def workshop : Id := "64e0000000000000000000e1"

/-- The sample event. -/
def workshopEvent : Event :=
  { id := workshop, title := "Lean Workshop", duration := some "2 Days",
    startDate := 1699000000000, endDate := 1699100000000, venue := "Hall A",
    mode := "Offline", skills := some ["proofs"] }

/-- The sample participant. -/
def aliceUser : User :=
  { id := alice, name := "Alice", email := "alice@example.org", role := "participant",
    isActive := true }

/-- The sample event collection. -/
def sampleEvents : List Event := [workshopEvent]

/-- The sample user collection. -/
def sampleUsers : List User := [aliceUser]

/-- The certificate issued to the sample participant in the calm environment. -/
def aliceCertificate : Certificate :=
  newCertificate sampleLib calmEnv alice workshop workshopEvent aliceUser (some calmEnv.image)

/-- A complete structured feedback request of the sample participant. -/
def sampleRequest : FeedbackRequest :=
  { participantId := .scalar (.str alice), eventId := .scalar (.str workshop),
    email := .scalar (.str "alice@example.org"), name := .scalar (.str "Alice A."),
    designation := .scalar (.str "Student"), institute := .scalar (.str "Inst"),
    contact := .scalar (.str "12345"),
    responses := .obj [("q1", .scalar (.num 5)), ("q2", .scalar (.num 3)),
      ("q3", .scalar (.num 4))],
    q7 := .scalar .undefined, q8 := .scalar .undefined, q9 := .scalar .undefined,
    q10 := .scalar .undefined, q11 := .scalar .undefined, q12 := .scalar .undefined,
    q13 := .scalar .undefined, q14 := .scalar .undefined, q15 := .scalar .undefined,
    ip := some "10.0.0.7", userAgent := some "test-agent" }

/-- The sample participant registers, is marked attended and gives feedback. -/
def sampleCalls : List Call :=
  [.register calmEnv (some ⟨"participant", alice⟩) (.scalar (.str alice))
      (.scalar (.str workshop)),
   .attend alice workshop,
   .feedback calmEnv sampleRequest]

/-- Responses and final store of a sequence of `giveFeedback` executions. -/
def giveFeedbackAll (lib : Lib) (s : Store) : List (Env × FeedbackRequest) → Store × List Response
  | [] => (s, [])
  | c :: rest =>
    ((giveFeedbackAll lib (giveFeedback lib c.1 s c.2).1 rest).1,
      (giveFeedback lib c.1 s c.2).2 :: (giveFeedbackAll lib (giveFeedback lib c.1 s c.2).1 rest).2)

/-- The enrollment record of the pair exists, is attended and has its feedback
flag set. -/
def FeedbackRecorded (p e : Id) (s : Store) : Prop :=
  ∃ r, findEnrollment p e s.participantEvents = some r ∧ r.attended = true ∧
    r.feedbackGiven = true

/-- The request is about the pair `(p, e)`. -/
@[reducible]
def FeedbackRequest.names (lib : Lib) (req : FeedbackRequest) (p e : Id) : Prop :=
  lib.castId req.participantId = some p ∧ lib.castId req.eventId = some e

/-- The store after the sample participant registered and was marked attended. -/
def attendedStore : Store :=
  run sampleLib (emptyStore sampleEvents sampleUsers) (sampleCalls.take 2)

/-- The store after the sample participant also gave feedback. -/
def issuedStore : Store :=
  run sampleLib (emptyStore sampleEvents sampleUsers) sampleCalls

/-- The store after the sample participant registered (not yet attended). -/
def registeredStore : Store :=
  run sampleLib (emptyStore sampleEvents sampleUsers) (sampleCalls.take 1)

/-- The sample request with the `email` key missing. -/
def requestWithoutEmail : FeedbackRequest :=
  { sampleRequest with email := .scalar .undefined }

/-- The store after issuance, with the event document deleted since. -/
def issuedStoreEventGone : Store :=
  { issuedStore with events := [] }

/-- The effect of one call on the certificate collection: nothing, or one
certificate appended for a pair that had none. -/
def CertificateEffect (s t : Store) : Prop :=
  t.certificates = s.certificates ∨
    ∃ p e c, findCertificate p e s.certificates = none ∧ c.participantId = p ∧
      c.eventId = e ∧ t.certificates = s.certificates ++ [c]

/-- The certificates stored for a pair. -/
def certificatesOf (p e : Id) (s : Store) : List Certificate :=
  s.certificates.filter (fun c => decide (c.participantId = p) && decide (c.eventId = e))

/-- The attended sample store in which a certificate for the pair was already
issued by another component. -/
def preissuedStore : Store :=
  { attendedStore with certificates := [aliceCertificate] }

/-- The sample request with an empty `responses` object and no legacy answers. -/
def emptyResponsesRequest : FeedbackRequest :=
  { sampleRequest with responses := .obj [] }

/-- A complete legacy feedback request of the sample participant. -/
def legacyRequest : FeedbackRequest :=
  { sampleRequest with
    responses := .scalar .undefined
    q7 := .scalar (.num 5), q8 := .scalar (.num 5), q9 := .scalar (.num 4),
    q10 := .scalar (.num 4), q11 := .scalar (.num 5), q12 := .scalar (.str "more labs"),
    q13 := .scalar (.num 4), q14 := .scalar (.str "Yes"), q15 := .scalar (.str "tactics") }

/-- An execution in which only the image pipeline throws. -/
def renderFailEnv : Env :=
  { calmEnv with fails := fun op => decide (op = .render) }

/-- An execution in which saving the certificate throws and then the update
of the catch block throws as well (the store became unreachable). -/
def storeDownEnv : Env :=
  { calmEnv with
    fails := fun op => decide (op = .certificateSave) || decide (op = .enrollmentMarkFallback) }

/-- The attended sample store without any event document. -/
def attendedStoreNoEvent : Store :=
  { attendedStore with events := [] }

/-- The attended sample store with feedback recorded, as `giveFeedback` leaves it
before it calls `generateCertificate`. -/
def feedbackGivenStore : Store :=
  attendedStore.markFeedbackGiven alice workshop calmEnv.now

/-- None of the store and library calls of the try block of
`generateCertificate`, the image pipeline apart, throws. -/
def Env.issuesCleanly (env : Env) : Bool :=
  !env.fails .eventFind && !env.fails .userFind && !env.fails .certificateFind
    && !env.fails .loadModules && !env.fails .signerFind && !env.fails .certificateSave
    && !env.fails .enrollmentMarkCertificate

/-- The ids refer to an existing event and an existing user whenever they are
ids at all. -/
def resolvable (lib : Lib) (events : List Event) (users : List User)
    (participantId eventId : JsVal) : Bool :=
  match lib.castId participantId, lib.castId eventId with
  | some p, some e => (findEvent e events).isSome && (findUser p users).isSome
  | _, _ => true

/-- A call whose certificate generation, if any, runs on the normal path: the
event and the participant exist and no call but the image pipeline throws. -/
def Call.issuesNormally (lib : Lib) (events : List Event) (users : List User) : Call → Bool
  | .register _ _ _ _ => true
  | .attend _ _ => true
  | .feedback env req =>
    env.issuesCleanly && resolvable lib events users req.participantId req.eventId
  | .issue env participantId eventId _ =>
    env.issuesCleanly && resolvable lib events users participantId eventId

/-- Back-reference integrity of a store. -/
def BackReference (s : Store) : Prop :=
  ∀ r ∈ s.participantEvents, r.certificateGenerated = true →
    ∃ c ∈ s.certificates, c.participantId = r.participantId ∧ c.eventId = r.eventId ∧
      r.certificateId = some c.certificateId

/-- The rest of the try block of `generateCertificate` once the lookup found no
certificate for the pair: from the id generation to the returned summary, run
on the store `s`. -/
def generateCertificateIssue (lib : Lib) (env : Env) (s : Store) (p e : Id)
    (event : Event) (participant : User) : Store × Except Failure CertificateSummary :=
  if env.fails .loadModules then (s, .error (.thrown .loadModules)) else
  if env.fails .signerFind then (s, .error (.thrown .signerFind)) else
  if env.fails .certificateSave then (s, .error (.thrown .certificateSave)) else
  if env.fails .enrollmentMarkCertificate then
    ({ s with
        certificates :=
          s.certificates ++ [newCertificate lib env p e event participant
            (generateCertificateImage env).toOption] },
      .error (.thrown .enrollmentMarkCertificate))
  else
    ({ s with
        certificates :=
          s.certificates ++ [newCertificate lib env p e event participant
            (generateCertificateImage env).toOption]
        participantEvents :=
          updateEnrollment p e (markCertificate env.now (certificateIdOf env.now env.random))
            s.participantEvents },
      .ok (createdSummary env event participant))

/-- An execution of `generateCertificate` interleaved with another request: the
three lookups read the store `s` and find the event, the participant and no
certificate; the other request then commits, leaving the store `t`, on which
the rest of the try block and the catch block run.  A uniqueness violation at
the save is a throwing `certificateSave`. -/
def generateCertificateInterleaved (lib : Lib) (env : Env) (s t : Store)
    (participantId eventId participantName : JsVal) :
    Option (Store × Except Op CertificateSummary) :=
  if env.fails .eventFind || env.fails .userFind || env.fails .certificateFind then none else
  match lib.castId participantId, lib.castId eventId with
  | some p, some e =>
    match findEvent e s.events, findUser p s.users, findCertificate p e s.certificates with
    | some event, some participant, none =>
      match generateCertificateIssue lib env t p e event participant with
      | (t1, .ok summary) => some (t1, .ok summary)
      | (t1, .error _) =>
        some (generateCertificateCatch lib env t1 participantId eventId participantName)
    | _, _, _ => none
  | _, _ => none

/-- The sample store with feedback recorded, after another request has stored
a certificate for the sample pair. -/
def feedbackGivenStoreRaced : Store :=
  { feedbackGivenStore with certificates := [aliceCertificate] }

/-- An execution in which saving the certificate throws. -/
def saveFailEnv : Env :=
  { calmEnv with fails := fun op => decide (op = .certificateSave) }

/-- The digit of a number below 36 in the lower-case base-36 alphabet. -/
def base36Digit (n : Nat) : Char :=
  "0123456789abcdefghijklmnopqrstuvwxyz".data.getD n '0'

/-- The digits of the exact base-36 expansion of a fraction, at most `fuel` of
them. -/
def base36Fraction : Nat → ℚ → List Char
  | 0, _ => []
  | fuel + 1, x =>
    if x = 0 then []
    else base36Digit (Int.toNat ⌊x * 36⌋) :: base36Fraction fuel (x * 36 - ⌊x * 36⌋)

/-- The text of `x.toString(36)` for a draw `0 ≤ x < 1` whose base-36 expansion
is finite (as for `1/2`, written `0.i`); such a number is printed exactly.
Other draws are printed rounded and are not covered. -/
def toString36 (x : ℚ) : String :=
  if x = 0 then "0" else String.mk ('0' :: '.' :: base36Fraction 52 x)

/-- The suffix of a certificate id: `random.substr(2, 9).toUpperCase()`. -/
def certificateSuffix (random : String) : List Char :=
  ((random.data.drop 2).take 9).map Char.toUpper

/-- Characters of the class `[0-9a-z]`. -/
def isBase36 (c : Char) : Bool := c.isDigit || c.isLower

/-- Characters of the class `[A-Z0-9]`. -/
def isUpperAlnum (c : Char) : Bool := c.isDigit || c.isUpper

/-! ## The certificate directory -/

/-- Outcome of a read handler: a status with the `data` payload, or a status
with the message of a failure body. -/
inductive Reply (α : Type) where
  | ok (status : Nat) (data : α)
  | failed (status : Nat) (message : String)
  deriving DecidableEq

/-- The HTTP status of a reply. -/
def Reply.status {α : Type} : Reply α → Nat
  | .ok status _ => status
  | .failed status _ => status

/-- The payload of a reply, if it has one. -/
def Reply.data {α : Type} : Reply α → Option α
  | .ok _ data => some data
  | .failed _ _ => none

/-- The query `Certificate.findOne({ certificateId })`. -/
def findCertificateById (certificateId : String) (cs : List Certificate) : Option Certificate :=
  cs.find? (fun c => decide (c.certificateId = certificateId))

/-- Outcome of the permission block of the preview handlers. -/
inductive Permission where
  | granted
  | denied
  | crashed
  deriving DecidableEq

/-- The roles allowed to view any certificate. -/
def elevatedRoles : List String := ["admin", "coordinator", "hod"]

/-- The permission block of `getCertificatePreview` and
`getCertificateImagePreview`.  `userId` is `req.user?.id`; the block is skipped
when it is falsy.  Reading `_id` of an owner that `populate` left null throws,
as may `User.findById`. -/
def previewPermission (lib : Lib) (env : Env) (s : Store) (certificate : Certificate)
    (userId : Option String) : Permission :=
  match userId with
  | none => .granted
  | some u =>
    if u = "" then .granted
    else
      match findUser certificate.participantId s.users with
      | none => .crashed
      | some owner =>
        if owner.id ≠ u then
          if env.fails .callerFind then .crashed
          else
            match lib.castId (.scalar (.str u)) with
            | none => .crashed
            | some caller =>
              match findUser caller s.users with
              | none => .denied
              | some user => if user.role ∈ elevatedRoles then .granted else .denied
        else .granted

/-- The `data` of a certificate preview (the constant `template`, the download
counters and the PDF flag are left out). -/
structure PreviewData where
  certificateId : String
  participantName : String
  participantEmail : String
  eventTitle : String
  startDate : Nat
  endDate : Nat
  venue : String
  mode : String
  issuedDate : Nat
  issuedBy : String
  status : String
  skills : Option (List String)
  verificationUrl : String
  verified : Option Bool
  hasImageBuffer : Bool
  deriving DecidableEq

/-- The handler `getCertificatePreview`. -/
def getCertificatePreview (lib : Lib) (env : Env) (s : Store) (certificateId : String)
    (userId : Option String) : Reply PreviewData :=
  if env.fails .certificateById then .failed 500 "Failed to get certificate preview"
  else
    match findCertificateById certificateId s.certificates with
    | none => .failed 404 "Certificate not found"
    | some certificate =>
      match previewPermission lib env s certificate userId with
      | .crashed => .failed 500 "Failed to get certificate preview"
      | .denied => .failed 403 "You do not have permission to view this certificate"
      | .granted =>
        match findUser certificate.participantId s.users, findUser certificate.issuedBy s.users with
        | some owner, some issuer =>
          .ok 200
            { certificateId := certificate.certificateId
              participantName := certificate.participantName
              participantEmail := owner.email
              eventTitle := certificate.eventTitle
              startDate := certificate.startDate
              endDate := certificate.endDate
              venue := certificate.venue
              mode := certificate.mode
              issuedDate := certificate.issuedDate
              issuedBy := issuer.name
              status := certificate.status
              skills := certificate.skills
              verificationUrl := certificate.verificationUrl
              verified := certificate.verified
              hasImageBuffer := certificate.certificateData.isSome }
        | _, _ => .failed 500 "Failed to get certificate preview"

/-- The `data` of a certificate image preview. -/
structure ImagePreview where
  certificateId : String
  imageDataUrl : String
  contentType : String
  size : Nat
  deriving DecidableEq

/-- The handler `getCertificateImagePreview`. -/
def getCertificateImagePreview (lib : Lib) (env : Env) (s : Store) (certificateId : String)
    (userId : Option String) : Reply ImagePreview :=
  if env.fails .certificateById then .failed 500 "Failed to get certificate image preview"
  else
    match findCertificateById certificateId s.certificates with
    | none => .failed 404 "Certificate not found"
    | some certificate =>
      match previewPermission lib env s certificate userId with
      | .crashed => .failed 500 "Failed to get certificate image preview"
      | .denied => .failed 403 "You do not have permission to view this certificate"
      | .granted =>
        match certificate.certificateData with
        | none => .failed 404 "Certificate image not available"
        | some stored =>
          .ok 200
            { certificateId := certificate.certificateId
              imageDataUrl := "data:image/png;base64," ++ lib.base64 stored.imageBuffer
              contentType := "image/png"
              size := stored.imageBuffer.length }

/-- The `certificate` object of a verification reply. -/
structure VerifiedCertificate where
  participantName : String
  eventTitle : String
  issuedDate : Option Nat
  certificateId : Option String
  deriving DecidableEq

/-- The reply of `verifyCertificate`. -/
structure Verification where
  status : Nat
  valid : Bool
  certificate : Option VerifiedCertificate
  message : Option String
  deriving DecidableEq

/-- The query `ParticipantEvent.findOne({ certificateId })`. -/
def findEnrollmentByCertificate (certificateId : String) (rs : List ParticipantEvent) :
    Option ParticipantEvent :=
  rs.find? (fun r => decide (r.certificateId = some certificateId))

/-- The handler `verifyCertificate`.  It looks the id up among the enrollment
records; reading the name or title of a participant or event that `populate`
left null throws, and every exception ends in the 500 reply. -/
def verifyCertificate (env : Env) (s : Store) (certificateId : String) : Verification :=
  if env.fails .enrollmentByCertificate then ⟨500, false, none, some "Server Error"⟩
  else
    match findEnrollmentByCertificate certificateId s.participantEvents with
    | none => ⟨404, false, none, some "Certificate not found"⟩
    | some participantEvent =>
      match findUser participantEvent.participantId s.users,
          findEvent participantEvent.eventId s.events with
      | some participant, some event =>
        ⟨200, true,
          some { participantName := participant.name, eventTitle := event.title,
                 issuedDate := participantEvent.certificateGeneratedDate,
                 certificateId := participantEvent.certificateId },
          none⟩
      | _, _ => ⟨500, false, none, some "Server Error"⟩

/-- Modelled from the spec: `Certificate.findByParticipant` is a static of the
certificate model, which is not among the sources; it lists the certificates of
a participant. -/
def findByParticipant (p : Id) (cs : List Certificate) : List Certificate :=
  cs.filter (fun c => decide (c.participantId = p))

/-- One element of the `data` list of `getCertificates` (the document id, the
constant `template`, the download counters and the PDF entries are left out). -/
structure CertificateEntry where
  participantId : Id
  eventId : Id
  title : String
  eventTitle : String
  issuedDate : Nat
  certificateId : String
  verified : Bool
  skills : List String
  description : String
  status : String
  startDate : Nat
  endDate : Nat
  venue : String
  mode : String
  verificationUrl : String
  verificationVerified : Option Bool
  hasImageBuffer : Option Bool
  imageSize : Option Nat
  previewImage : Option String
  deriving DecidableEq

/-- The `baseData` built for one certificate; `format` and `includePreview` are
the query parameters. -/
def certificateEntry (lib : Lib) (format includePreview : Option String) (cert : Certificate) :
    CertificateEntry :=
  { participantId := cert.participantId
    eventId := cert.eventId
    title := "Certificate of Completion - " ++ cert.eventTitle
    eventTitle := cert.eventTitle
    issuedDate := cert.issuedDate
    certificateId := cert.certificateId
    verified := cert.verified.getD false || true
    skills := cert.skills.getD []
    description := "Certificate of completion for " ++ cert.eventTitle
    status := cert.status
    startDate := cert.startDate
    endDate := cert.endDate
    venue := cert.venue
    mode := cert.mode
    verificationUrl := cert.verificationUrl
    verificationVerified := cert.verified
    hasImageBuffer := if format = some "detailed" then some cert.certificateData.isSome else none
    imageSize :=
      if format = some "detailed" then
        some ((cert.certificateData.map fun d => d.imageBuffer.length).getD 0)
      else none
    previewImage :=
      if includePreview = some "true" then
        cert.certificateData.map fun d => "data:image/png;base64," ++ lib.base64 d.imageBuffer
      else none }

/-- The comparator of the sort, `new Date(b.issuedDate) - new Date(a.issuedDate)`:
`a` may stay before `b` when it is not older. -/
def newestFirst (a b : CertificateEntry) : Prop :=
  b.issuedDate ≤ a.issuedDate

instance newestFirstDecidable : DecidableRel newestFirst :=
  fun a b => inferInstanceAs (Decidable (b.issuedDate ≤ a.issuedDate))

instance newestFirstTotal : IsTotal CertificateEntry newestFirst :=
  ⟨fun a b => Nat.le_total b.issuedDate a.issuedDate⟩

instance newestFirstTrans : IsTrans CertificateEntry newestFirst :=
  ⟨fun _ _ _ hab hbc => Nat.le_trans hbc hab⟩

/-- The payload of `getCertificates`: the list and the `meta` block. -/
structure CertificateList where
  data : List CertificateEntry
  total : Nat
  format : String
  includePreview : Bool
  deriving DecidableEq

/-- The handler `getCertificates`.  `Array.prototype.sort` is a stable sort, here
insertion sort; any exception, from the query or while the list is built, ends
in the 500 reply. -/
def getCertificates (lib : Lib) (env : Env) (s : Store) (participantId : String)
    (includePreview format : Option String) : Reply CertificateList :=
  if env.fails .certificateList then .failed 500 "Server Error"
  else
    match lib.castId (.scalar (.str participantId)) with
    | none => .failed 500 "Server Error"
    | some p =>
      .ok 200
        { data :=
            List.insertionSort newestFirst
              ((findByParticipant p s.certificates).map
                (certificateEntry lib format includePreview))
          total :=
            (List.insertionSort newestFirst
              ((findByParticipant p s.certificates).map
                (certificateEntry lib format includePreview))).length
          format := format.getD "summary"
          includePreview := decide (includePreview = some "true") }

/-- An execution in which the update that records the new certificate on the
enrollment record throws. -/
def markFailEnv : Env :=
  { calmEnv with fails := fun op => decide (op = .enrollmentMarkCertificate) }

/-- The store after the sample participant gave feedback while that update
threw: the certificate is stored, the record carries the fallback id. -/
def issuedStoreMarkFailed : Store :=
  (giveFeedback sampleLib markFailEnv attendedStore sampleRequest).1

/-- A second certificate of the sample participant, issued later for another
event. -/
def laterCertificate : Certificate :=
  { aliceCertificate with
    certificateId := "CERT-1800000000000-AAAAAAAAA", eventId := "64e0000000000000000000e2",
    eventTitle := "Second Workshop", issuedDate := 1800000000000 }

/-- A store with two certificates of the sample participant, oldest first, and
one of somebody else. -/
def twoCertificatesStore : Store :=
  { issuedStore with
    certificates :=
      [aliceCertificate,
       { aliceCertificate with
         certificateId := "CERT-1750000000000-BBBBBBBBB",
         participantId := "64b0000000000000000000b2", issuedDate := 1750000000000 },
       laterCertificate] }

/-! ## Image preview: definitions -/

/-- The sample store with a second certificate of the sample participant that
was stored without an image. -/
def imagelessStore : Store :=
  { issuedStore with
    certificates :=
      [aliceCertificate,
       { aliceCertificate with
         certificateId := "CERT-1800000000000-AAAAAAAAA", eventId := "64e0000000000000000000e2",
         certificateData := none }] }

/-! ## Registration: definitions -/

/-- The handler `registerEvent` of the legacy controller
(`Backend/controllers/participant/dashboard.js`): the same lookup and creation,
without the authorization block. -/
def legacyRegisterEvent (lib : Lib) (env : Env) (s : Store) (participantId eventId : JsVal) :
    Store × Response :=
  if env.fails .enrollmentFind then (s, ⟨500, .thrown .enrollmentFind⟩)
  else
    match lib.castId participantId, lib.castId eventId with
    | some p, some e =>
      match findEnrollment p e s.participantEvents with
      | some _ => (s, ⟨400, .message "Already registered"⟩)
      | none =>
        if env.fails .enrollmentCreate then (s, ⟨500, .thrown .enrollmentCreate⟩)
        else
          ({ s with participantEvents := s.participantEvents ++ [newEnrollment p e] },
            ⟨201, .registration (newEnrollment p e)⟩)
    | _, _ => (s, ⟨500, .thrown .enrollmentFind⟩)

/-- A registration request to either controller. -/
inductive RegisterCall where
  | current (env : Env) (user : Option AuthUser) (participantId eventId : JsVal)
  | legacy (env : Env) (participantId eventId : JsVal)

/-- The store left by one registration request. -/
def registerStep (lib : Lib) (s : Store) : RegisterCall → Store
  | .current env user participantId eventId =>
    (registerEvent lib env s user participantId eventId).1
  | .legacy env participantId eventId => (legacyRegisterEvent lib env s participantId eventId).1

/-- The store left by a sequence of registration requests. -/
def registerAll (lib : Lib) (s : Store) (calls : List RegisterCall) : Store :=
  calls.foldl (registerStep lib) s

/-- The enrollment records stored for a pair. -/
def enrollmentsOf (p e : Id) (s : Store) : List ParticipantEvent :=
  s.participantEvents.filter (ParticipantEvent.matches p e)

/-- Id of a second participant. -/
def bob : Id := "64b0000000000000000000b2"

/-- The sample store after an administrator registered the second participant
for the sample event. -/
def bobRegisteredStore : Store :=
  (registerEvent sampleLib calmEnv (emptyStore sampleEvents sampleUsers)
    (some ⟨"admin", "64a0000000000000000000ad"⟩) (.scalar (.str bob))
    (.scalar (.str workshop))).1

/-! ## Flag monotonicity: definitions -/

/-- The record `t` is a later state of the record `r`: the same pair, and each
of the three flags that is true in `r` is true in `t`. -/
def flagsKept (r t : ParticipantEvent) : Bool :=
  decide (t.participantId = r.participantId) && decide (t.eventId = r.eventId) &&
  (!r.attended || t.attended) && (!r.feedbackGiven || t.feedbackGiven) &&
  (!r.certificateGenerated || t.certificateGenerated)

/-- Every record of the first collection is, at its position in the second, a
later state of itself; the second collection may hold further records. -/
def recordsKept : List ParticipantEvent → List ParticipantEvent → Bool
  | [], _ => true
  | _ :: _, [] => false
  | r :: rs, t :: ts => flagsKept r t && recordsKept rs ts

/-! ## Certificate snapshot: definitions -/

/-- The store after issuance, with the event retitled and the participant
renamed since. -/
def renamedStore : Store :=
  { issuedStore with
    events := [{ workshopEvent with title := "Retitled Workshop", skills := some ["tactics"] }]
    users := [{ aliceUser with name := "Alicia" }] }

/-- The store in which feedback was recorded for the sample pair, with an event
document that has neither `duration` nor `skills`. -/
def bareEventStore : Store :=
  { feedbackGivenStore with
    events := [{ workshopEvent with duration := none, skills := none }] }

/-! ## Date-range text: definitions -/

/-- The text `dateRange` that `generateCertificateImage` places on the
certificate.  `fmt` is `d => new Date(d).toLocaleDateString("en-US", { year:
"numeric", month: "long", day: "numeric" })`, a library function of the instant
(in milliseconds) and the time zone of the server. -/
def dateRange (fmt : Nat → String) (startDate endDate : Nat) : String :=
  if fmt startDate = fmt endDate then fmt startDate
  else fmt startDate ++ " - " ++ fmt endDate

/-- English month names. -/
def monthName (m : Nat) : String :=
  ["January", "February", "March", "April", "May", "June", "July", "August",
    "September", "October", "November", "December"].getD (m - 1) ""

/-- The long-form en-US calendar date of an instant for a server in UTC (days
since the epoch turned into a civil date of the Gregorian calendar). -/
def longDateUTC (ms : Nat) : String :=
  let z := ms / 86400000 + 719468
  let era := z / 146097
  let doe := z % 146097
  let yoe := (doe - doe / 1460 + doe / 36524 - doe / 146096) / 365
  let doy := doe - (365 * yoe + yoe / 4 - yoe / 100)
  let mp := (5 * doy + 2) / 153
  let d := doy - (153 * mp + 2) / 5 + 1
  let m := if mp < 10 then mp + 3 else mp - 9
  let y := if m ≤ 2 then yoe + era * 400 + 1 else yoe + era * 400
  monthName m ++ " " ++ toString d ++ ", " ++ toString y

/-! ## The legacy feedback handler: definitions -/

/-- The document that the legacy `giveFeedback` hands to `Feedback.create`: the
two ids, the five personal fields and the nine answers, and nothing else. -/
structure LegacyFeedback where
  participantId : Id
  eventId : Id
  email : JsVal
  name : JsVal
  designation : JsVal
  institute : JsVal
  contact : JsVal
  answers : LegacyAnswers
  deriving DecidableEq

/-- JSON reply of the legacy `giveFeedback`. -/
inductive LegacyReply where
  | message (status : Nat) (text : String)
  | thrown (status : Nat) (op : Op)
  | created (status : Nat) (feedback : LegacyFeedback)
  deriving DecidableEq

/-- HTTP status of a legacy reply. -/
def LegacyReply.status : LegacyReply → Nat
  | .message status _ => status
  | .thrown status _ => status
  | .created status _ => status

/-- The document built from the request body by the legacy `giveFeedback`. -/
def legacyFeedbackData (p e : Id) (req : FeedbackRequest) : LegacyFeedback :=
  { participantId := p, eventId := e, email := req.email, name := req.name,
    designation := req.designation, institute := req.institute, contact := req.contact,
    answers := ⟨req.q7, req.q8, req.q9, req.q10, req.q11, req.q12, req.q13, req.q14, req.q15⟩ }

/-- The handler `giveFeedback` of the legacy controller
(`Backend/controllers/participant/dashboard.js`), over the store and the
feedback documents it has created: the ObjectId check, `Feedback.create`, the
update `{ feedbackGiven: true }` of the enrollment record of the pair, and the
201 reply; every exception is answered 400. -/
def legacyGiveFeedback (lib : Lib) (env : Env) (s : Store) (submissions : List LegacyFeedback)
    (req : FeedbackRequest) : (Store × List LegacyFeedback) × LegacyReply :=
  if !lib.isValid req.participantId || !lib.isValid req.eventId then
    ((s, submissions), .message 400 "Invalid participantId or eventId")
  else if env.fails .feedbackCreate then ((s, submissions), .thrown 400 .feedbackCreate)
  else
    match lib.castId req.participantId, lib.castId req.eventId with
    | some p, some e =>
      if env.fails .enrollmentMarkFeedback then
        ((s, submissions ++ [legacyFeedbackData p e req]), .thrown 400 .enrollmentMarkFeedback)
      else
        (({ s with
            participantEvents :=
              updateEnrollment p e (fun r => { r with feedbackGiven := true })
                s.participantEvents },
          submissions ++ [legacyFeedbackData p e req]),
          .created 201 (legacyFeedbackData p e req))
    | _, _ => ((s, submissions), .thrown 400 .feedbackCreate)

/-- The legacy feedback documents created for a pair. -/
def legacySubmissionsOf (p e : Id) (submissions : List LegacyFeedback) : List LegacyFeedback :=
  submissions.filter fun f => decide (f.participantId = p) && decide (f.eventId = e)

/-! ## The verified field of the listing: definitions -/

/-- A store with two certificates of the sample participant, one stored with
`verification.verified` false and one without it. -/
def unverifiedStore : Store :=
  { issuedStore with
    certificates :=
      [{ aliceCertificate with verified := some false },
       { laterCertificate with verified := none }] }

/-! ## Binary64 rounding in the ratings: sample requests -/

/-- A `responses` object on which binary64 rounding shows: the answers 1 and
`2 - 2 ^ (-52)` (written 1.9999999999999998), whose sum is rounded up to 3. -/
def roundingResponses : JsVal :=
  .obj [("q1", .scalar (.num 1)), ("q2", .scalar (.num (2 - 1 / 2 ^ 52)))]

/-- A complete legacy request whose `q7` is `2 - 2 ^ (-52)`, with `q8` to `q11`
equal to 1 and `q13` equal to 3. -/
def roundingLegacyRequest : FeedbackRequest :=
  { legacyRequest with
    q7 := .scalar (.num (2 - 1 / 2 ^ 52)), q8 := .scalar (.num 1), q9 := .scalar (.num 1),
    q10 := .scalar (.num 1), q11 := .scalar (.num 1), q13 := .scalar (.num 3) }

/-- A complete legacy request whose six rated answers arrive as the strings
"5", "5", "4", "4", "5", "4". -/
def digitStringRequest : FeedbackRequest :=
  { legacyRequest with
    q7 := .scalar (.str "5"), q8 := .scalar (.str "5"), q9 := .scalar (.str "4"),
    q10 := .scalar (.str "4"), q11 := .scalar (.str "5"), q13 := .scalar (.str "4") }

/-! ## Lemmas on the store primitives -/

theorem mem_updateEnrollment {p e : Id} {u : ParticipantEvent → ParticipantEvent}
    {rs : List ParticipantEvent} {x : ParticipantEvent}
    (h : x ∈ updateEnrollment p e u rs) :
    x ∈ rs ∨ ∃ r, findEnrollment p e rs = some r ∧ x = u r := by
  induction rs with
  | nil => simp [updateEnrollment] at h
  | cons r rs ih =>
    unfold updateEnrollment at h
    by_cases hm : r.matches p e = true
    · rw [if_pos hm, List.mem_cons] at h
      rcases h with h | h
      · right
        exact ⟨r, by simp [findEnrollment, List.find?, hm], h⟩
      · left
        exact List.mem_cons_of_mem _ h
    · rw [if_neg hm, List.mem_cons] at h
      rcases h with h | h
      · left
        simp [h]
      · rcases ih h with h1 | ⟨r1, h1, h2⟩
        · left
          exact List.mem_cons_of_mem _ h1
        · right
          refine ⟨r1, ?_, h2⟩
          simpa [findEnrollment, List.find?, hm] using h1

theorem generateCertificateTry_effect (lib : Lib) (env : Env) (s : Store)
    (participantId eventId : JsVal) (out : Store × Except Failure CertificateSummary)
    (h : generateCertificateTry lib env s participantId eventId = out) :
    IssueEffect lib participantId eventId s out.1 ∧
    (∀ f, out.2 = .error f → out.1.participantEvents = s.participantEvents) := by
  unfold generateCertificateTry at h
  repeat' (split at h)
  all_goals (subst h; simp [IssueEffect, newCertificate, *])
  all_goals exact Or.inr ⟨_, _, rfl⟩

theorem generateCertificateCatch_effect (lib : Lib) (env : Env) (s : Store)
    (participantId eventId participantName : JsVal)
    (out : Store × Except Op CertificateSummary)
    (h : generateCertificateCatch lib env s participantId eventId participantName = out) :
    out.1.feedbacks = s.feedbacks ∧ out.1.events = s.events ∧ out.1.users = s.users ∧
    out.1.certificates = s.certificates ∧
    (out.1.participantEvents = s.participantEvents ∨
      ∃ p e d c, lib.castId participantId = some p ∧ lib.castId eventId = some e ∧
        out.1.participantEvents
          = updateEnrollment p e (markCertificate d c) s.participantEvents) := by
  unfold generateCertificateCatch at h
  repeat' (split at h)
  all_goals (subst h; simp [*])
  all_goals exact Or.inr ⟨_, _, rfl⟩

theorem generateCertificate_effect (lib : Lib) (env : Env) (s : Store)
    (participantId eventId participantName : JsVal) :
    IssueEffect lib participantId eventId s
      (generateCertificate lib env s participantId eventId participantName).1 := by
  unfold generateCertificate
  have ht := generateCertificateTry_effect lib env s participantId eventId _ rfl
  generalize generateCertificateTry lib env s participantId eventId = t at ht
  obtain ⟨s1, r⟩ := t
  cases r with
  | ok summary => exact ht.1
  | error f =>
    have hc := generateCertificateCatch_effect lib env s1 participantId eventId participantName _ rfl
    obtain ⟨⟨h1, h2, h3, _, h5⟩, h6⟩ := ht
    obtain ⟨c1, c2, c3, c4, c5⟩ := hc
    simp only at h1 h2 h3 h5 h6 ⊢
    refine ⟨c1.trans h1, c2.trans h2, c3.trans h3, ?_, ?_⟩
    · rw [← h6 f rfl]; exact c5
    · rw [c4]; exact h5

theorem findEnrollment_updateEnrollment {p e : Id} {u : ParticipantEvent → ParticipantEvent}
    (hu : ∀ r, (u r).matches p e = r.matches p e) (rs : List ParticipantEvent) :
    findEnrollment p e (updateEnrollment p e u rs) = (findEnrollment p e rs).map u := by
  induction rs with
  | nil => rfl
  | cons r rs ih =>
    unfold updateEnrollment
    by_cases hm : r.matches p e = true
    · rw [if_pos hm]
      simp [findEnrollment, List.find?, hm, hu]
    · rw [if_neg hm]
      simp only [findEnrollment, List.find?, hm] at ih ⊢
      exact ih

theorem markFeedback_matches (d : Nat) (p e : Id) (r : ParticipantEvent) :
    (markFeedback d r).matches p e = r.matches p e := rfl

theorem markCertificate_matches (d : Nat) (c : String) (p e : Id) (r : ParticipantEvent) :
    (markCertificate d c r).matches p e = r.matches p e := rfl

theorem lifecycle_update {p e : Id} {u : ParticipantEvent → ParticipantEvent}
    {rs : List ParticipantEvent} (h : ∀ r ∈ rs, RecordOk r)
    (hu : ∀ r, findEnrollment p e rs = some r → r ∈ rs → RecordOk (u r)) :
    ∀ r ∈ updateEnrollment p e u rs, RecordOk r := by
  intro x hx
  rcases mem_updateEnrollment hx with h1 | ⟨r, h1, h2⟩
  · exact h x h1
  · subst h2
    exact hu r h1 (List.mem_of_find?_eq_some h1)


theorem giveFeedback_inv (lib : Lib) (env : Env) (s : Store) (req : FeedbackRequest)
    (out : Store × Response) (h : giveFeedback lib env s req = out) :
    (out.1 = s ∧ out.2.status ≠ 201) ∨
    ∃ p e r feedback,
      lib.castId req.participantId = some p ∧ lib.castId req.eventId = some e ∧
      findEnrollment p e s.participantEvents = some r ∧
      r.attended = true ∧ r.feedbackGiven = false ∧
      feedbackData p e req = some feedback ∧
      ((out = (s.addFeedback feedback, ⟨400, .thrown .enrollmentMarkFeedback⟩)) ∨
       (out =
          ((generateCertificate lib env ((s.addFeedback feedback).markFeedbackGiven p e env.now)
              req.participantId req.eventId req.name).1,
            feedbackReply feedback
              (generateCertificate lib env ((s.addFeedback feedback).markFeedbackGiven p e env.now)
                req.participantId req.eventId req.name).2))) := by
  unfold giveFeedback at h
  repeat' (split at h)
  all_goals (subst h; simp_all [feedbackReply])

/-! ## The lifecycle invariant -/

theorem issueEffect_recordOk {lib : Lib} {participantId eventId : JsVal} {s t : Store}
    (h : IssueEffect lib participantId eventId s t)
    (hs : ∀ r ∈ s.participantEvents, RecordOk r)
    (hf : ∀ p e r, lib.castId participantId = some p → lib.castId eventId = some e →
      findEnrollment p e s.participantEvents = some r → r.feedbackGiven = true) :
    ∀ r ∈ t.participantEvents, RecordOk r := by
  obtain ⟨_, _, _, h4, _⟩ := h
  rcases h4 with h4 | ⟨p, e, d, c, hp, he, h4⟩
  · rw [h4]; exact hs
  · rw [h4]
    apply lifecycle_update hs
    intro r hr hmem
    have h1 := hs r hmem
    have h2 := hf p e r hp he hr
    exact ⟨fun _ => h1.1 h2, fun _ => h2⟩

theorem giveFeedback_recordOk (lib : Lib) (env : Env) (s : Store) (req : FeedbackRequest)
    (hs : ∀ r ∈ s.participantEvents, RecordOk r) :
    ∀ r ∈ (giveFeedback lib env s req).1.participantEvents, RecordOk r := by
  rcases giveFeedback_inv lib env s req _ rfl with ⟨h, _⟩ | ⟨p, e, r, fb, hp, he, hr, hatt, hfg, _, h | h⟩
  · rw [h]; exact hs
  · rw [h]; exact hs
  · rw [h]
    have hs2 : ∀ x ∈ ((s.addFeedback fb).markFeedbackGiven p e env.now).participantEvents,
        RecordOk x := by
      apply lifecycle_update hs
      intro r1 hr1 _
      rw [hr] at hr1
      cases hr1
      exact ⟨fun _ => hatt, fun _ => rfl⟩
    apply issueEffect_recordOk (generateCertificate_effect lib env _ _ _ _) hs2
    intro p1 e1 r1 hp1 he1 hr1
    rw [hp] at hp1; rw [he] at he1
    cases hp1; cases he1
    have := findEnrollment_updateEnrollment (markFeedback_matches env.now p e)
      (s.addFeedback fb).participantEvents
    rw [show ((s.addFeedback fb).markFeedbackGiven p e env.now).participantEvents
      = updateEnrollment p e (markFeedback env.now) (s.addFeedback fb).participantEvents from rfl,
      this, show (s.addFeedback fb).participantEvents = s.participantEvents from rfl, hr] at hr1
    cases hr1
    rfl

theorem registerEvent_recordOk (lib : Lib) (env : Env) (s : Store) (user : Option AuthUser)
    (participantId eventId : JsVal) (hs : ∀ r ∈ s.participantEvents, RecordOk r) :
    ∀ r ∈ (registerEvent lib env s user participantId eventId).1.participantEvents,
      RecordOk r := by
  generalize h : registerEvent lib env s user participantId eventId = out
  unfold registerEvent at h
  repeat' (split at h)
  all_goals (subst h; try exact hs)
  intro r hr
  simp only [List.mem_append, List.mem_singleton] at hr
  rcases hr with hr | hr
  · exact hs r hr
  · subst hr
    simp [RecordOk, newEnrollment]

theorem markAttended_recordOk (s : Store) (p e : Id)
    (hs : ∀ r ∈ s.participantEvents, RecordOk r) :
    ∀ r ∈ (markAttended s p e).participantEvents, RecordOk r := by
  apply lifecycle_update hs
  intro r _ hmem
  have h1 := hs r hmem
  exact ⟨fun _ => rfl, h1.2⟩

theorem step_recordOk (lib : Lib) (s : Store) (c : Call) (hc : c.external = true)
    (hs : ∀ r ∈ s.participantEvents, RecordOk r) :
    ∀ r ∈ (step lib s c).participantEvents, RecordOk r := by
  cases c with
  | register env user participantId eventId => exact registerEvent_recordOk lib env s user _ _ hs
  | attend p e => exact markAttended_recordOk s p e hs
  | feedback env req => exact giveFeedback_recordOk lib env s req hs
  | issue env participantId eventId participantName => simp [Call.external] at hc

/-- C1 (lifecycle invariant).  In every store reached from the empty store by
calls of `registerEvent`, attendance marking and `giveFeedback` (with its
internal `generateCertificate`), every enrollment record satisfies
`feedbackGiven ⇒ attended` and `certificateGenerated ⇒ feedbackGiven`. -/
theorem lifecycle_invariant (lib : Lib) (events : List Event) (users : List User)
    (calls : List Call) (h : ∀ c ∈ calls, c.external = true) :
    ∀ r ∈ (run lib (emptyStore events users) calls).participantEvents,
      (r.feedbackGiven = true → r.attended = true) ∧
      (r.certificateGenerated = true → r.feedbackGiven = true) := by
  suffices H : ∀ (s : Store), (∀ r ∈ s.participantEvents, RecordOk r) →
      ∀ r ∈ (run lib s calls).participantEvents, RecordOk r by
    exact H _ (by simp [emptyStore])
  induction calls with
  | nil => intro s hs; exact hs
  | cons c cs ih =>
    intro s hs
    exact ih (fun x hx => h x (List.mem_cons_of_mem _ hx)) _
      (step_recordOk lib s c (h c (List.mem_cons_self _ _)) hs)

/-- Witness for C1: the sample participant registers, attends and gives
feedback; the single record then has all three flags set. -/
theorem lifecycle_invariant_witness :
    (∀ c ∈ sampleCalls, c.external = true) ∧
    (run sampleLib (emptyStore sampleEvents sampleUsers) sampleCalls).participantEvents.map
        (fun r => (r.attended, r.feedbackGiven, r.certificateGenerated)) = [(true, true, true)] ∧
    ∀ r ∈ (run sampleLib (emptyStore sampleEvents sampleUsers) sampleCalls).participantEvents,
      (r.feedbackGiven = true → r.attended = true) ∧
      (r.certificateGenerated = true → r.feedbackGiven = true) :=
  ⟨by decide, by decide,
    lifecycle_invariant sampleLib sampleEvents sampleUsers sampleCalls (by decide)⟩

/-! ## Feedback is accepted at most once -/

theorem issueEffect_find {lib : Lib} {participantId eventId : JsVal} {s t : Store}
    (h : IssueEffect lib participantId eventId s t) {p e : Id}
    (hp : lib.castId participantId = some p) (he : lib.castId eventId = some e) :
    findEnrollment p e t.participantEvents = findEnrollment p e s.participantEvents ∨
    ∃ d c, findEnrollment p e t.participantEvents
      = (findEnrollment p e s.participantEvents).map (markCertificate d c) := by
  obtain ⟨_, _, _, h4, _⟩ := h
  rcases h4 with h4 | ⟨p1, e1, d, c, hp1, he1, h4⟩
  · left; rw [h4]
  · right
    rw [hp] at hp1; rw [he] at he1
    cases hp1; cases he1
    exact ⟨d, c, by rw [h4, findEnrollment_updateEnrollment (markCertificate_matches d c p e)]⟩

theorem giveFeedback_recorded (lib : Lib) (env : Env) (s : Store) (req : FeedbackRequest)
    (p e : Id) (hn : req.names lib p e)
    (h : (giveFeedback lib env s req).2.status = 201) :
    FeedbackRecorded p e (giveFeedback lib env s req).1 := by
  rcases giveFeedback_inv lib env s req _ rfl with ⟨_, h1⟩ | ⟨p1, e1, r, fb, hp, he, hr, hatt, hfg, _, h1 | h1⟩
  · exact absurd h h1
  · rw [h1] at h; simp at h
  · rw [hn.1] at hp; rw [hn.2] at he
    cases hp; cases he
    rw [h1]
    have hf : findEnrollment p e ((s.addFeedback fb).markFeedbackGiven p e env.now).participantEvents
        = some (markFeedback env.now r) := by
      show findEnrollment p e (updateEnrollment p e (markFeedback env.now) s.participantEvents) = _
      rw [findEnrollment_updateEnrollment (markFeedback_matches env.now p e), hr]; rfl
    rcases issueEffect_find (generateCertificate_effect lib env _ _ _ req.name) hn.1 hn.2
      with h2 | ⟨d, c, h2⟩
    · exact ⟨_, h2.trans hf, hatt, rfl⟩
    · rw [hf] at h2
      exact ⟨_, h2, hatt, rfl⟩

theorem giveFeedback_of_recorded (lib : Lib) (env : Env) (s : Store) (req : FeedbackRequest)
    (p e : Id) (hn : req.names lib p e) (hrec : FeedbackRecorded p e s) :
    (giveFeedback lib env s req).1 = s ∧ (giveFeedback lib env s req).2.status ≠ 201 ∧
    (req.personalInfoPresent = true → lib.isValid req.participantId = true →
      lib.isValid req.eventId = true → env.fails .enrollmentFind = false →
      (giveFeedback lib env s req).2
        = ⟨400, .message "Feedback already submitted for this event"⟩) := by
  obtain ⟨r, hr, hatt, hfg⟩ := hrec
  obtain ⟨hp, he⟩ := hn
  generalize h : giveFeedback lib env s req = out
  unfold giveFeedback at h
  repeat' (split at h)
  all_goals (subst h; simp_all)
  all_goals (intros; simp_all)

theorem giveFeedbackAll_of_recorded (lib : Lib) (p e : Id)
    (calls : List (Env × FeedbackRequest)) (hn : ∀ c ∈ calls, c.2.names lib p e)
    (s : Store) (hrec : FeedbackRecorded p e s) :
    (giveFeedbackAll lib s calls).1 = s ∧
    ∀ r ∈ (giveFeedbackAll lib s calls).2, r.status ≠ 201 := by
  induction calls with
  | nil => simp [giveFeedbackAll]
  | cons c cs ih =>
    have h1 := giveFeedback_of_recorded lib c.1 s c.2 p e (hn c (List.mem_cons_self _ _)) hrec
    have h2 := ih (fun x hx => hn x (List.mem_cons_of_mem _ hx))
    unfold giveFeedbackAll
    rw [h1.1]
    refine ⟨h2.1, ?_⟩
    intro r hr
    rcases List.mem_cons.1 hr with hr | hr
    · rw [hr]; exact h1.2.1
    · exact h2.2 r hr

/-- C2 (feedback succeeds at most once).  In every sequence of `giveFeedback`
calls on one pair, started in any store, at most one call answers 201; and once
a call has answered 201, any later call on the pair creates no further feedback
document and, when its personal fields are present, its ids well-formed and the
enrollment lookup does not throw, is answered 400 "Feedback already submitted
for this event". -/
theorem feedback_at_most_once (lib : Lib) (p e : Id) (s : Store)
    (calls : List (Env × FeedbackRequest)) (hn : ∀ c ∈ calls, c.2.names lib p e) :
    ((giveFeedbackAll lib s calls).2.filter (fun r => decide (r.status = 201))).length ≤ 1 ∧
    ∀ c later d, calls = c :: (later ++ [d]) →
      (giveFeedback lib c.1 s c.2).2.status = 201 →
      (giveFeedback lib d.1 (giveFeedbackAll lib s (c :: later)).1 d.2).1.feedbacks
        = (giveFeedbackAll lib s (c :: later)).1.feedbacks ∧
      (d.2.personalInfoPresent = true → lib.isValid d.2.participantId = true →
        lib.isValid d.2.eventId = true → d.1.fails .enrollmentFind = false →
        (giveFeedback lib d.1 (giveFeedbackAll lib s (c :: later)).1 d.2).2
          = ⟨400, .message "Feedback already submitted for this event"⟩) := by
  constructor
  · induction calls generalizing s with
    | nil => simp [giveFeedbackAll]
    | cons c cs ih =>
      have hcs : ∀ x ∈ cs, x.2.names lib p e := fun x hx => hn x (List.mem_cons_of_mem _ hx)
      unfold giveFeedbackAll
      by_cases h201 : (giveFeedback lib c.1 s c.2).2.status = 201
      · have hrec := giveFeedback_recorded lib c.1 s c.2 p e (hn c (List.mem_cons_self _ _)) h201
        have h2 := (giveFeedbackAll_of_recorded lib p e cs hcs _ hrec).2
        have h3 : ((giveFeedbackAll lib (giveFeedback lib c.1 s c.2).1 cs).2.filter
            (fun r => decide (r.status = 201))) = [] := by
          rw [List.filter_eq_nil_iff]
          intro r hr
          simpa using h2 r hr
        simp [List.filter_cons, h201, h3]
      · simpa [List.filter_cons, h201] using ih _ hcs
  · intro c later d hcalls h201
    subst hcalls
    have hc := hn c (List.mem_cons_self _ _)
    have hd := hn d (by simp)
    have hl : ∀ x ∈ later, x.2.names lib p e := fun x hx => hn x (by simp [hx])
    have hrec := giveFeedback_recorded lib c.1 s c.2 p e hc h201
    have hst : (giveFeedbackAll lib s (c :: later)).1 = (giveFeedback lib c.1 s c.2).1 := by
      show (giveFeedbackAll lib (giveFeedback lib c.1 s c.2).1 later).1 = _
      exact (giveFeedbackAll_of_recorded lib p e later hl _ hrec).1
    rw [hst]
    have h1 := giveFeedback_of_recorded lib d.1 _ d.2 p e hd hrec
    exact ⟨by rw [h1.1], h1.2.2⟩

/-- Witness for C2: the sample participant submits the same feedback twice; the
answers are 201 and then 400. -/
theorem feedback_at_most_once_witness :
    (∀ c ∈ [(calmEnv, sampleRequest), (calmEnv, sampleRequest)],
      c.2.names sampleLib alice workshop) ∧
    (giveFeedbackAll sampleLib attendedStore
      [(calmEnv, sampleRequest), (calmEnv, sampleRequest)]).2.map (fun r => r.status)
        = [201, 400] ∧
    ((giveFeedbackAll sampleLib attendedStore
      [(calmEnv, sampleRequest), (calmEnv, sampleRequest)]).2.filter
        (fun r => decide (r.status = 201))).length ≤ 1 :=
  ⟨by decide, by decide,
    (feedback_at_most_once sampleLib alice workshop attendedStore
      [(calmEnv, sampleRequest), (calmEnv, sampleRequest)] (by decide)).1⟩

/-! ## Rejection before attendance, and the existing-certificate path -/

/-- C3, counterexample.  The sample participant is registered and not attended;
a request naming the pair but lacking `email` is answered "All personal
information fields are required", not with the not-attended rejection. -/
theorem notAttended_counterexample :
    findEnrollment alice workshop registeredStore.participantEvents
      = some (newEnrollment alice workshop) ∧
    (newEnrollment alice workshop).attended = false ∧
    requestWithoutEmail.names sampleLib alice workshop ∧
    (giveFeedback sampleLib calmEnv registeredStore requestWithoutEmail).2
      = ⟨400, .message "All personal information fields are required"⟩ ∧
    (giveFeedback sampleLib calmEnv registeredStore requestWithoutEmail).2
      ≠ ⟨400, .message "Cannot submit feedback for events you haven't attended"⟩ := by
  decide

/-- C3, amended.  When the enrollment record of the pair exists with
`attended = false`, every request naming the pair is answered 400 and leaves the
whole store unchanged (no feedback, no certificate, the record untouched); the
answer is the not-attended rejection whenever the personal fields are present,
the ids are well-formed and the enrollment lookup does not throw. -/
theorem notAttended_rejected (lib : Lib) (env : Env) (s : Store) (req : FeedbackRequest)
    (p e : Id) (r : ParticipantEvent) (hn : req.names lib p e)
    (hr : findEnrollment p e s.participantEvents = some r) (hatt : r.attended = false) :
    (giveFeedback lib env s req).1 = s ∧ (giveFeedback lib env s req).2.status = 400 ∧
    (req.personalInfoPresent = true → lib.isValid req.participantId = true →
      lib.isValid req.eventId = true → env.fails .enrollmentFind = false →
      (giveFeedback lib env s req).2
        = ⟨400, .message "Cannot submit feedback for events you haven't attended"⟩) := by
  obtain ⟨hp, he⟩ := hn
  generalize h : giveFeedback lib env s req = out
  unfold giveFeedback at h
  repeat' (split at h)
  all_goals (subst h; simp_all)
  all_goals (intros; simp_all)

/-- Witness for C3: the complete sample request before attendance is marked. -/
theorem notAttended_rejected_witness :
    sampleRequest.names sampleLib alice workshop ∧
    findEnrollment alice workshop registeredStore.participantEvents
      = some (newEnrollment alice workshop) ∧
    (newEnrollment alice workshop).attended = false ∧
    sampleRequest.personalInfoPresent = true ∧
    (giveFeedback sampleLib calmEnv registeredStore sampleRequest).1 = registeredStore ∧
    (giveFeedback sampleLib calmEnv registeredStore sampleRequest).2
      = ⟨400, .message "Cannot submit feedback for events you haven't attended"⟩ :=
  have h := notAttended_rejected sampleLib calmEnv registeredStore sampleRequest alice workshop
    (newEnrollment alice workshop) (by decide) (by decide) (by decide)
  ⟨by decide, by decide, by decide, by decide, h.1,
    h.2.2 (by decide) (by decide) (by decide) (by decide)⟩

/-- C4, counterexample.  A certificate exists for the pair but the event document
is gone: `generateCertificate` returns a summary with a newly made id and
overwrites the record's `certificateId` with it. -/
theorem existingCertificate_counterexample :
    (findCertificate alice workshop issuedStoreEventGone.certificates).map
        (fun c => c.certificateId) = some "CERT-1700000000000-K3J9X7Q2M" ∧
    (findEnrollment alice workshop issuedStoreEventGone.participantEvents).map
        (fun r => r.certificateId) = some (some "CERT-1700000000000-K3J9X7Q2M") ∧
    (generateCertificate sampleLib calmEnv issuedStoreEventGone (.scalar (.str alice))
        (.scalar (.str workshop)) (.scalar (.str "Alice A."))).2.toOption.map
        (fun c => c.certificateId) = some "CERT-1700000000001-Z8Y7X6W5V" ∧
    (findEnrollment alice workshop
        (generateCertificate sampleLib calmEnv issuedStoreEventGone (.scalar (.str alice))
          (.scalar (.str workshop)) (.scalar (.str "Alice A."))).1.participantEvents).map
        (fun r => r.certificateId) = some (some "CERT-1700000000001-Z8Y7X6W5V") ∧
    "CERT-1700000000001-Z8Y7X6W5V" ≠ "CERT-1700000000000-K3J9X7Q2M" := by
  decide

/-- C4, amended.  When a certificate exists for the pair, the event and the
participant exist and none of the three lookups throws, `generateCertificate`
returns the summary of the existing certificate, with its `certificateId`, and
leaves the whole store unchanged. -/
theorem existingCertificate_returned (lib : Lib) (env : Env) (s : Store)
    (participantId eventId participantName : JsVal) (p e : Id)
    (event : Event) (participant : User) (existing : Certificate)
    (hp : lib.castId participantId = some p) (he : lib.castId eventId = some e)
    (hev : findEvent e s.events = some event) (hu : findUser p s.users = some participant)
    (hc : findCertificate p e s.certificates = some existing)
    (h1 : env.fails .eventFind = false) (h2 : env.fails .userFind = false)
    (h3 : env.fails .certificateFind = false) :
    generateCertificate lib env s participantId eventId participantName
      = (s, .ok (existingSummary existing)) ∧
    (existingSummary existing).certificateId = existing.certificateId := by
  refine ⟨?_, rfl⟩
  unfold generateCertificate generateCertificateTry
  simp [hp, he, hev, hu, hc, h1, h2, h3]

/-- Witness for C4: issuing again for the sample pair after its certificate
exists. -/
theorem existingCertificate_returned_witness :
    sampleLib.castId (.scalar (.str alice)) = some alice ∧
    sampleLib.castId (.scalar (.str workshop)) = some workshop ∧
    findCertificate alice workshop issuedStore.certificates = some aliceCertificate ∧
    (generateCertificate sampleLib calmEnv issuedStore (.scalar (.str alice))
        (.scalar (.str workshop)) (.scalar (.str "Alice A."))).1 = issuedStore ∧
    (generateCertificate sampleLib calmEnv issuedStore (.scalar (.str alice))
        (.scalar (.str workshop)) (.scalar (.str "Alice A."))).2.toOption.map
        (fun c => c.certificateId) = some "CERT-1700000000000-K3J9X7Q2M" :=
  have h := existingCertificate_returned sampleLib calmEnv issuedStore (.scalar (.str alice))
    (.scalar (.str workshop)) (.scalar (.str "Alice A.")) alice workshop
    workshopEvent aliceUser aliceCertificate (by decide) (by decide) (by decide) (by decide)
    (by rfl) (by decide) (by decide) (by decide)
  ⟨by decide, by decide, by rfl, by rw [h.1], by decide⟩

/-! ## At most one certificate per pair -/

theorem issueEffect_certificateEffect {lib : Lib} {participantId eventId : JsVal} {s t : Store}
    (h : IssueEffect lib participantId eventId s t) : CertificateEffect s t := by
  obtain ⟨_, _, _, _, h5⟩ := h
  rcases h5 with h5 | ⟨p, e, c, _, _, h6, h7, h8, h9⟩
  · exact Or.inl h5
  · exact Or.inr ⟨p, e, c, h6, h7, h8, h9⟩

theorem step_certificateEffect (lib : Lib) (s : Store) (c : Call) :
    CertificateEffect s (step lib s c) := by
  cases c with
  | register env user participantId eventId =>
    left
    show (registerEvent lib env s user participantId eventId).1.certificates = _
    generalize h : registerEvent lib env s user participantId eventId = out
    unfold registerEvent at h
    repeat' (split at h)
    all_goals (subst h; rfl)
  | attend p e => exact Or.inl rfl
  | feedback env req =>
    show CertificateEffect s (giveFeedback lib env s req).1
    rcases giveFeedback_inv lib env s req _ rfl with ⟨h, _⟩ | ⟨p, e, r, fb, _, _, _, _, _, _, h | h⟩
    · rw [h]; exact Or.inl rfl
    · rw [h]; exact Or.inl rfl
    · rw [h]
      have h2 : CertificateEffect ((s.addFeedback fb).markFeedbackGiven p e env.now) _ :=
        issueEffect_certificateEffect
          (generateCertificate_effect lib env ((s.addFeedback fb).markFeedbackGiven p e env.now)
            req.participantId req.eventId req.name)
      exact h2
  | issue env participantId eventId participantName =>
    exact issueEffect_certificateEffect (generateCertificate_effect lib env _ _ _ _)

theorem certificateEffect_atMostOne {s t : Store} (h : CertificateEffect s t)
    (hs : ∀ p e, (certificatesOf p e s).length ≤ 1) :
    ∀ p e, (certificatesOf p e t).length ≤ 1 := by
  intro p e
  rcases h with h | ⟨p1, e1, c, hnone, hp, he, h⟩
  · unfold certificatesOf; rw [h]; exact hs p e
  · unfold certificatesOf
    rw [h, List.filter_append]
    by_cases hm : (decide (c.participantId = p) && decide (c.eventId = e)) = true
    · have hpe : p1 = p ∧ e1 = e := by
        simp only [Bool.and_eq_true, decide_eq_true_eq] at hm
        exact ⟨hp ▸ hm.1, he ▸ hm.2⟩
      obtain ⟨rfl, rfl⟩ := hpe
      have : s.certificates.filter
          (fun c => decide (c.participantId = p1) && decide (c.eventId = e1)) = [] := by
        rw [List.filter_eq_nil_iff]
        intro x hx
        exact List.find?_eq_none.1 hnone x hx
      rw [this]
      simp [List.filter_cons, hm]
    · have := hs p e
      unfold certificatesOf at this
      simpa [List.filter_cons, hm] using this

/-- C5 (at most one certificate per pair).  In every store reached from the
empty store by calls of `registerEvent`, attendance marking, `giveFeedback` and
`generateCertificate`, each pair has at most one certificate; and
`generateCertificate` appends a certificate only for a pair for which its
lookup found none. -/
theorem certificate_at_most_one (lib : Lib) (events : List Event) (users : List User)
    (calls : List Call) :
    (∀ p e, (certificatesOf p e (run lib (emptyStore events users) calls)).length ≤ 1) ∧
    (∀ env s participantId eventId participantName,
      (generateCertificate lib env s participantId eventId participantName).1.certificates
          = s.certificates ∨
      ∃ p e c, lib.castId participantId = some p ∧ lib.castId eventId = some e ∧
        findCertificate p e s.certificates = none ∧ c.participantId = p ∧ c.eventId = e ∧
        (generateCertificate lib env s participantId eventId participantName).1.certificates
          = s.certificates ++ [c]) := by
  constructor
  · suffices H : ∀ (s : Store), (∀ p e, (certificatesOf p e s).length ≤ 1) →
        ∀ p e, (certificatesOf p e (run lib s calls)).length ≤ 1 by
      exact H _ (by simp [emptyStore, certificatesOf])
    induction calls with
    | nil => intro s hs; exact hs
    | cons c cs ih =>
      intro s hs
      exact ih _ (certificateEffect_atMostOne (step_certificateEffect lib s c) hs)
  · intro env s participantId eventId participantName
    exact (generateCertificate_effect lib env s participantId eventId participantName).2.2.2.2

/-! ## The enrollment record after a successful submission -/

theorem generateCertificateTry_marks (lib : Lib) (env : Env) (s : Store)
    (participantId eventId : JsVal) (p e : Id)
    (hp : lib.castId participantId = some p) (he : lib.castId eventId = some e)
    (hnone : findCertificate p e s.certificates = none)
    (out : Store × Except Failure CertificateSummary)
    (h : generateCertificateTry lib env s participantId eventId = out) :
    ∀ c, out.2 = .ok c →
      out.1.participantEvents
        = updateEnrollment p e (markCertificate env.now c.certificateId) s.participantEvents := by
  unfold generateCertificateTry at h
  repeat' (split at h)
  all_goals (subst h; simp_all [createdSummary])

theorem generateCertificateCatch_marks (lib : Lib) (env : Env) (s : Store)
    (participantId eventId participantName : JsVal) (p e : Id)
    (hp : lib.castId participantId = some p) (he : lib.castId eventId = some e)
    (out : Store × Except Op CertificateSummary)
    (h : generateCertificateCatch lib env s participantId eventId participantName = out) :
    ∀ c, out.2 = .ok c →
      out.1.participantEvents
        = updateEnrollment p e (markCertificate env.fallbackNow c.certificateId)
            s.participantEvents := by
  unfold generateCertificateCatch at h
  repeat' (split at h)
  all_goals (subst h; simp_all [fallbackCertificate])

theorem generateCertificate_marks (lib : Lib) (env : Env) (s : Store)
    (participantId eventId participantName : JsVal) (p e : Id)
    (hp : lib.castId participantId = some p) (he : lib.castId eventId = some e)
    (hnone : findCertificate p e s.certificates = none) (c : CertificateSummary)
    (hc : (generateCertificate lib env s participantId eventId participantName).2 = .ok c) :
    ∃ d, (generateCertificate lib env s participantId eventId participantName).1.participantEvents
      = updateEnrollment p e (markCertificate d c.certificateId) s.participantEvents := by
  unfold generateCertificate at hc ⊢
  have ht := generateCertificateTry_marks lib env s participantId eventId p e hp he hnone _ rfl
  have hte := (generateCertificateTry_effect lib env s participantId eventId _ rfl).2
  generalize generateCertificateTry lib env s participantId eventId = t at ht hte hc
  obtain ⟨s1, r⟩ := t
  cases r with
  | ok summary =>
    simp only at hc ⊢
    cases hc
    exact ⟨env.now, ht c rfl⟩
  | error f =>
    simp only at hc hte ⊢
    have := generateCertificateCatch_marks lib env s1 participantId eventId participantName p e
      hp he _ rfl c hc
    rw [hte f rfl] at this
    exact ⟨env.fallbackNow, this⟩

/-- C6, counterexample.  A certificate for the sample pair was issued before the
feedback call (by another component).  The call answers 201, yet the enrollment
record is left with `certificateGenerated = false` and no `certificateId`. -/
theorem feedback_marks_certificate_counterexample :
    (giveFeedback sampleLib calmEnv preissuedStore sampleRequest).2.status = 201 ∧
    (findEnrollment alice workshop
        (giveFeedback sampleLib calmEnv preissuedStore sampleRequest).1.participantEvents).map
        (fun r => (r.feedbackGiven, r.certificateGenerated, r.certificateId))
      = some (true, false, none) := by
  decide

/-- C6, amended.  After a `giveFeedback` call that answers 201 the enrollment
record of the pair has `feedbackGiven = true`; and if no certificate existed for
the pair before the call, it also has `certificateGenerated = true` and its
`certificateId` is the one of the certificate in the response (on the normal and
on the fallback path alike). -/
theorem feedback_marks_certificate (lib : Lib) (env : Env) (s : Store) (req : FeedbackRequest)
    (h201 : (giveFeedback lib env s req).2.status = 201) :
    ∃ p e r feedback certificate text,
      req.names lib p e ∧
      (giveFeedback lib env s req).2.body = .submitted feedback certificate text ∧
      findEnrollment p e (giveFeedback lib env s req).1.participantEvents = some r ∧
      r.feedbackGiven = true ∧
      (findCertificate p e s.certificates = none →
        r.certificateGenerated = true ∧ r.certificateId = some certificate.certificateId) := by
  rcases giveFeedback_inv lib env s req _ rfl with ⟨_, h1⟩ | ⟨p, e, r0, fb, hp, he, hr, hatt, hfg, _, h1 | h1⟩
  · exact absurd h201 h1
  · rw [h1] at h201; simp at h201
  · rw [h1] at h201 ⊢
    have hf : findEnrollment p e ((s.addFeedback fb).markFeedbackGiven p e env.now).participantEvents
        = some (markFeedback env.now r0) := by
      show findEnrollment p e (updateEnrollment p e (markFeedback env.now) s.participantEvents) = _
      rw [findEnrollment_updateEnrollment (markFeedback_matches env.now p e), hr]; rfl
    generalize hg : generateCertificate lib env ((s.addFeedback fb).markFeedbackGiven p e env.now)
      req.participantId req.eventId req.name = g at h201
    obtain ⟨s3, res⟩ := g
    cases res with
    | error op => simp [feedbackReply] at h201
    | ok c =>
      have heff := generateCertificate_effect lib env
        ((s.addFeedback fb).markFeedbackGiven p e env.now) req.participantId req.eventId req.name
      have hmark := generateCertificate_marks lib env
        ((s.addFeedback fb).markFeedbackGiven p e env.now) req.participantId req.eventId req.name
        p e hp he
      rw [hg] at heff hmark
      cases hfc : findCertificate p e s.certificates with
      | none =>
        obtain ⟨d, hd⟩ := hmark hfc c rfl
        have h3 : findEnrollment p e s3.participantEvents
            = some (markCertificate d c.certificateId (markFeedback env.now r0)) := by
          show findEnrollment p e
            (s3, (Except.ok c : Except Op CertificateSummary)).1.participantEvents = _
          rw [hd, findEnrollment_updateEnrollment (markCertificate_matches d _ p e), hf]; rfl
        exact ⟨p, e, _, fb, c, _, ⟨hp, he⟩, rfl, h3, rfl, fun _ => ⟨rfl, rfl⟩⟩
      | some existing =>
        rcases issueEffect_find heff hp he with h2 | ⟨d, c1, h2⟩
        · exact ⟨p, e, _, fb, c, _, ⟨hp, he⟩, rfl, h2.trans hf, rfl, fun h => absurd (hfc.symm.trans h) (by simp)⟩
        · rw [hf] at h2
          exact ⟨p, e, _, fb, c, _, ⟨hp, he⟩, rfl, h2, rfl, fun h => absurd (hfc.symm.trans h) (by simp)⟩

/-- Witness for C6: the sample participant's feedback call. -/
theorem feedback_marks_certificate_witness :
    (giveFeedback sampleLib calmEnv attendedStore sampleRequest).2.status = 201 ∧
    (findEnrollment alice workshop
        (giveFeedback sampleLib calmEnv attendedStore sampleRequest).1.participantEvents).map
        (fun r => (r.feedbackGiven, r.certificateGenerated, r.certificateId))
      = some (true, true, some "CERT-1700000000000-K3J9X7Q2M") ∧
    ∃ p e r feedback certificate text,
      sampleRequest.names sampleLib p e ∧
      (giveFeedback sampleLib calmEnv attendedStore sampleRequest).2.body
        = .submitted feedback certificate text ∧
      findEnrollment p e
        (giveFeedback sampleLib calmEnv attendedStore sampleRequest).1.participantEvents
          = some r ∧
      r.feedbackGiven = true ∧
      (findCertificate p e attendedStore.certificates = none →
        r.certificateGenerated = true ∧ r.certificateId = some certificate.certificateId) :=
  ⟨by decide, by decide,
    feedback_marks_certificate sampleLib calmEnv attendedStore sampleRequest (by decide)⟩

/-! ## Order of the checks and completeness of the answers -/

/-- C7, counterexample.  For an unregistered pair and a request lacking `email`
the answer is "All personal information fields are required", not the
not-registered rejection: the personal-information check comes first. -/
theorem precondition_order_counterexample :
    findEnrollment alice workshop (emptyStore sampleEvents sampleUsers).participantEvents = none ∧
    requestWithoutEmail.names sampleLib alice workshop ∧
    (giveFeedback sampleLib calmEnv (emptyStore sampleEvents sampleUsers) requestWithoutEmail).2
      = ⟨400, .message "All personal information fields are required"⟩ ∧
    (giveFeedback sampleLib calmEnv (emptyStore sampleEvents sampleUsers) requestWithoutEmail).2
      ≠ ⟨404, .message "Participant not registered for this event"⟩ := by
  decide

/-- C7, amended.  `giveFeedback` reports the first violated check in the order:
(1) ids and personal fields present, (2) ids well-formed, (3) enrollment record
exists, (4) attended, (5) feedback not yet given, (6) on the legacy path only,
all nine answers present.  Each rejection leaves the store unchanged and is
reported whatever the later checks would say. -/
theorem precondition_order (lib : Lib) (env : Env) (s : Store) (req : FeedbackRequest) :
    (req.personalInfoPresent = false →
      giveFeedback lib env s req
        = (s, ⟨400, .message "All personal information fields are required"⟩)) ∧
    (req.personalInfoPresent = true →
      (lib.isValid req.participantId = false ∨ lib.isValid req.eventId = false) →
      giveFeedback lib env s req = (s, ⟨400, .message "Invalid participantId or eventId"⟩)) ∧
    (∀ p e, req.personalInfoPresent = true → lib.isValid req.participantId = true →
      lib.isValid req.eventId = true → env.fails .enrollmentFind = false →
      req.names lib p e →
      (findEnrollment p e s.participantEvents = none →
        giveFeedback lib env s req
          = (s, ⟨404, .message "Participant not registered for this event"⟩)) ∧
      (∀ r, findEnrollment p e s.participantEvents = some r →
        (r.attended = false →
          giveFeedback lib env s req
            = (s, ⟨400, .message "Cannot submit feedback for events you haven't attended"⟩)) ∧
        (r.attended = true → r.feedbackGiven = true →
          giveFeedback lib env s req
            = (s, ⟨400, .message "Feedback already submitted for this event"⟩)) ∧
        (r.attended = true → r.feedbackGiven = false → req.structured = false →
          req.legacyAnswered = false →
          giveFeedback lib env s req
            = (s, ⟨400, .message "All feedback questions must be answered"⟩)))) := by
  refine ⟨?_, ?_, ?_⟩
  · intro h
    simp [giveFeedback, h]
  · intro h1 h2
    have : (!lib.isValid req.participantId || !lib.isValid req.eventId) = true := by
      rcases h2 with h2 | h2 <;> simp [h2]
    simp [giveFeedback, h1, this]
  · intro p e h1 h2 h3 h4 hn
    obtain ⟨hp, he⟩ := hn
    refine ⟨?_, ?_⟩
    · intro hr
      simp [giveFeedback, h1, h2, h3, h4, hp, he, hr]
    · intro r hr
      refine ⟨?_, ?_, ?_⟩
      · intro ha
        simp [giveFeedback, h1, h2, h3, h4, hp, he, hr, ha]
      · intro ha hf
        simp [giveFeedback, h1, h2, h3, h4, hp, he, hr, ha, hf]
      · intro ha hf hs hl
        simp [giveFeedback, h1, h2, h3, h4, hp, he, hr, ha, hf, feedbackData, hs, hl]

/-- Witness for C7: the first check fires for an unregistered pair. -/
theorem precondition_order_witness :
    requestWithoutEmail.personalInfoPresent = false ∧
    giveFeedback sampleLib calmEnv (emptyStore sampleEvents sampleUsers) requestWithoutEmail
      = (emptyStore sampleEvents sampleUsers,
          ⟨400, .message "All personal information fields are required"⟩) :=
  ⟨by decide,
    (precondition_order sampleLib calmEnv (emptyStore sampleEvents sampleUsers)
      requestWithoutEmail).1 (by decide)⟩

theorem feedbackData_eq_none (p e : Id) (req : FeedbackRequest) :
    feedbackData p e req = none ↔ (req.structured = false ∧ req.legacyAnswered = false) := by
  unfold feedbackData
  cases hs : req.structured <;> cases hl : req.legacyAnswered <;> simp

theorem giveFeedback_feedbacks (lib : Lib) (env : Env) (s : Store) (req : FeedbackRequest)
    (p e : Id) (r : ParticipantEvent) (fb : Feedback)
    (h1 : req.personalInfoPresent = true) (h2 : lib.isValid req.participantId = true)
    (h3 : lib.isValid req.eventId = true) (h4 : env.fails .enrollmentFind = false)
    (hn : req.names lib p e) (hr : findEnrollment p e s.participantEvents = some r)
    (ha : r.attended = true) (hf : r.feedbackGiven = false)
    (hc : env.fails .feedbackCreate = false) (hd : feedbackData p e req = some fb) :
    (giveFeedback lib env s req).1.feedbacks = s.feedbacks ++ [fb] := by
  obtain ⟨hp, he⟩ := hn
  have heff := (generateCertificate_effect lib env
    ((s.addFeedback fb).markFeedbackGiven p e env.now) req.participantId req.eventId req.name).1
  cases hm : env.fails .enrollmentMarkFeedback
  · simp only [giveFeedback, h1, h2, h3, h4, hp, he, hr, ha, hf, hd, hc, hm]
    generalize generateCertificate lib env ((s.addFeedback fb).markFeedbackGiven p e env.now)
      req.participantId req.eventId req.name = g at heff
    obtain ⟨s3, res⟩ := g
    cases res <;> simpa using heff
  · simp [giveFeedback, h1, h2, h3, h4, hp, he, hr, ha, hf, hd, hc, hm, Store.addFeedback]

/-- C8, counterexample.  A request with an empty `responses` object and no legacy
answer is accepted: the call answers 201 and a feedback document with no
responses and no rating is stored. -/
theorem answer_completeness_counterexample :
    emptyResponsesRequest.responses = .obj [] ∧
    emptyResponsesRequest.legacyAnswered = false ∧
    attendedStore.feedbacks = [] ∧
    (giveFeedback sampleLib calmEnv attendedStore emptyResponsesRequest).2.status = 201 ∧
    ((giveFeedback sampleLib calmEnv attendedStore emptyResponsesRequest).1.feedbacks.map
      (fun f => (f.participantId, f.eventId, f.responses, f.overallRating)))
      = [(alice, workshop, [], .absent)] :=
  ⟨by decide, by decide, by decide, by decide, by decide⟩

/-- C8, amended.  For a request that passes the presence, identifier,
registration, attendance and duplicate checks, and when `Feedback.create` does
not throw, a feedback document is stored if and only if `responses` is an
object (empty or not) or all nine legacy answers are truthy; otherwise the
request is rejected with "All feedback questions must be answered" and the
store is unchanged. -/
theorem answer_completeness (lib : Lib) (env : Env) (s : Store) (req : FeedbackRequest)
    (p e : Id) (r : ParticipantEvent)
    (h1 : req.personalInfoPresent = true) (h2 : lib.isValid req.participantId = true)
    (h3 : lib.isValid req.eventId = true) (h4 : env.fails .enrollmentFind = false)
    (hn : req.names lib p e) (hr : findEnrollment p e s.participantEvents = some r)
    (ha : r.attended = true) (hf : r.feedbackGiven = false)
    (hc : env.fails .feedbackCreate = false) :
    ((giveFeedback lib env s req).1.feedbacks.length = s.feedbacks.length + 1 ↔
      (req.structured = true ∨ req.legacyAnswered = true)) ∧
    (req.structured = false → req.legacyAnswered = false →
      giveFeedback lib env s req
        = (s, ⟨400, .message "All feedback questions must be answered"⟩)) := by
  have hrej : req.structured = false → req.legacyAnswered = false →
      giveFeedback lib env s req
        = (s, ⟨400, .message "All feedback questions must be answered"⟩) := by
    intro hs hl
    simp [giveFeedback, h1, h2, h3, h4, hn.1, hn.2, hr, ha, hf, feedbackData, hs, hl]
  refine ⟨?_, hrej⟩
  cases hd : feedbackData p e req with
  | none =>
    obtain ⟨hs, hl⟩ := (feedbackData_eq_none p e req).1 hd
    rw [hrej hs hl]
    simp [hs, hl]
  | some fb =>
    rw [giveFeedback_feedbacks lib env s req p e r fb h1 h2 h3 h4 hn hr ha hf hc hd]
    have : ¬ (req.structured = false ∧ req.legacyAnswered = false) := by
      rw [← feedbackData_eq_none p e req, hd]; simp
    cases hs : req.structured <;> cases hl : req.legacyAnswered <;> simp_all

/-- Witness for C8: the structured sample request. -/
theorem answer_completeness_witness :
    sampleRequest.personalInfoPresent = true ∧ sampleRequest.structured = true ∧
    ((giveFeedback sampleLib calmEnv attendedStore sampleRequest).1.feedbacks.length
        = attendedStore.feedbacks.length + 1 ↔
      (sampleRequest.structured = true ∨ sampleRequest.legacyAnswered = true)) :=
  ⟨by decide, by decide,
    (answer_completeness sampleLib calmEnv attendedStore sampleRequest alice workshop
      { newEnrollment alice workshop with attended := true }
      (by decide) (by decide) (by decide) (by decide) (by decide) (by decide) (by decide)
      (by decide) (by decide)).1⟩

/-! ## The overall rating -/

theorem jsRound_bounds (x : ℚ) : ((jsRound x : Int) : ℚ) - 1 / 2 ≤ x ∧ x < (jsRound x : Int) + 1 / 2 := by
  unfold jsRound
  have h1 := Int.floor_le (x + 1 / 2)
  have h2 := Int.lt_floor_add_one (x + 1 / 2)
  constructor <;> linarith

theorem ratingResponses_cons_num (q : ℚ) (vs : List Leaf) :
    ratingResponses (.scalar (.num q) :: vs)
      = if 1 ≤ q ∧ q ≤ 5 then q :: ratingResponses vs else ratingResponses vs := by
  unfold ratingResponses
  rw [List.filterMap_cons]
  split_ifs with h <;> simp [h]

theorem ratingResponses_cons_other (v : Leaf) (vs : List Leaf)
    (h : ∀ q, v = .scalar (.num q) → ¬ (1 ≤ q ∧ q ≤ 5)) :
    ratingResponses (v :: vs) = ratingResponses vs := by
  rcases v with (_ | _ | b | r | t) | _
  case scalar.num =>
    rw [ratingResponses_cons_num, if_neg (h r rfl)]
  all_goals (unfold ratingResponses; rw [List.filterMap_cons])

theorem ratingResponses_append (vs ws : List Leaf) :
    ratingResponses (vs ++ ws) = ratingResponses vs ++ ratingResponses ws := by
  unfold ratingResponses
  exact List.filterMap_append _ _ _

theorem ratingResponses_count (values : List Leaf) (q : ℚ) :
    (ratingResponses values).count q
      = if 1 ≤ q ∧ q ≤ 5 then values.count (.scalar (.num q)) else 0 := by
  induction values with
  | nil => simp [ratingResponses]
  | cons v vs ih =>
    by_cases hv : ∃ r, v = .scalar (.num r)
    · obtain ⟨r, rfl⟩ := hv
      rw [ratingResponses_cons_num]
      by_cases hr : 1 ≤ r ∧ r ≤ 5
      · rw [if_pos hr, List.count_cons, List.count_cons, ih]
        by_cases hq : 1 ≤ q ∧ q ≤ 5
        · simp only [if_pos hq]
          by_cases hrq : r = q
          · subst hrq; simp
          · have : (Leaf.scalar (Scalar.num r) == Leaf.scalar (Scalar.num q)) = false := by
              simpa using hrq
            simp [hrq, this]
        · simp only [if_neg hq]
          have : r ≠ q := fun h => hq (h ▸ hr)
          simp [this]
      · rw [if_neg hr, ih]
        by_cases hq : 1 ≤ q ∧ q ≤ 5
        · have : r ≠ q := fun h => hr (h ▸ hq)
          have h2 : (Leaf.scalar (Scalar.num r) == Leaf.scalar (Scalar.num q)) = false := by
            simpa using this
          simp [hq, List.count_cons, h2]
        · simp [hq]
    · rw [ratingResponses_cons_other v vs (fun r hr => absurd ⟨r, hr⟩ hv), ih]
      by_cases hq : 1 ≤ q ∧ q ≤ 5
      · have h2 : (v == Leaf.scalar (Scalar.num q)) = false := by
          simp only [beq_eq_false_iff_ne, ne_eq]
          exact fun h => hv ⟨q, h⟩
        simp [hq, List.count_cons, h2]
      · simp [hq]

/-! ## Binary64 arithmetic: lemmas -/

theorem pow2_eq (e : Int) : pow2 e = (2 : ℚ) ^ e := by
  unfold pow2
  split_ifs with h
  · obtain ⟨n, rfl⟩ := Int.eq_ofNat_of_zero_le h
    simp
  · have hneg : 0 ≤ -e := by omega
    obtain ⟨n, hn⟩ := Int.eq_ofNat_of_zero_le hneg
    have he : e = -(n : Int) := by omega
    subst he
    simp

theorem bitLength_zero (fuel : Nat) : bitLength fuel 0 = 0 := by
  cases fuel <;> simp [bitLength]

theorem bitLength_spec : ∀ (fuel n : Nat), n ≤ fuel → n ≠ 0 →
    1 ≤ bitLength fuel n ∧ 2 ^ (bitLength fuel n - 1) ≤ n ∧ n < 2 ^ bitLength fuel n := by
  intro fuel
  induction fuel with
  | zero => intro n h1 h2; omega
  | succ fuel ih =>
    intro n hn h0
    simp only [bitLength, if_neg h0]
    by_cases h2 : n / 2 = 0
    · have h1 : n = 1 := by omega
      subst h1
      simp [bitLength_zero]
    · obtain ⟨i1, i2, i3⟩ := ih (n / 2) (by omega) h2
      refine ⟨by omega, ?_, ?_⟩
      · have : bitLength fuel (n / 2) + 1 - 1 = (bitLength fuel (n / 2) - 1) + 1 := by omega
        rw [this, pow_succ]
        omega
      · rw [pow_succ]
        omega

theorem two_zpow_pos (e : Int) : (0 : ℚ) < 2 ^ e := zpow_pos (by norm_num) e

theorem abs_eq_natAbs_div (x : ℚ) : |x| = (x.num.natAbs : ℚ) / (x.den : ℚ) := by
  conv_lhs => rw [← Rat.num_div_den x]
  rw [abs_div, Nat.cast_natAbs, Int.cast_abs]
  congr 1
  exact abs_of_pos (by exact_mod_cast x.den_pos)

theorem binaryExponent_spec (x : ℚ) (hx : x ≠ 0) :
    (2 : ℚ) ^ binaryExponent x ≤ |x| ∧ |x| < 2 ^ (binaryExponent x + 1) := by
  have hn0 : x.num.natAbs ≠ 0 := by
    simpa [Int.natAbs_eq_zero] using hx
  obtain ⟨n1, n2, n3⟩ := bitLength_spec x.num.natAbs x.num.natAbs le_rfl hn0
  obtain ⟨d1, d2, d3⟩ := bitLength_spec x.den x.den le_rfl x.den_nz
  have habs := abs_eq_natAbs_div x
  have hd : (0 : ℚ) < x.den := by exact_mod_cast x.den_pos
  set a := bitLength x.num.natAbs x.num.natAbs with ha
  set b := bitLength x.den x.den with hb
  have n2q : (2 : ℚ) ^ ((a : Int) - 1) ≤ x.num.natAbs := by
    have : ((2 ^ (a - 1) : Nat) : ℚ) ≤ x.num.natAbs := by exact_mod_cast n2
    have he : ((a : Int) - 1) = ((a - 1 : Nat) : Int) := by omega
    rw [he, zpow_natCast]
    simpa using this
  have n3q : (x.num.natAbs : ℚ) < (2 : ℚ) ^ (a : Int) := by
    have : (x.num.natAbs : ℚ) < ((2 ^ a : Nat) : ℚ) := by exact_mod_cast n3
    rw [zpow_natCast]
    simpa using this
  have d2q : (2 : ℚ) ^ ((b : Int) - 1) ≤ x.den := by
    have : ((2 ^ (b - 1) : Nat) : ℚ) ≤ x.den := by exact_mod_cast d2
    have he : ((b : Int) - 1) = ((b - 1 : Nat) : Int) := by omega
    rw [he, zpow_natCast]
    simpa using this
  have d3q : (x.den : ℚ) < (2 : ℚ) ^ (b : Int) := by
    have : (x.den : ℚ) < ((2 ^ b : Nat) : ℚ) := by exact_mod_cast d3
    rw [zpow_natCast]
    simpa using this
  have two : (2 : ℚ) ≠ 0 := by norm_num
  -- bounds of the quotient
  have lower : (2 : ℚ) ^ ((a : Int) - b - 1) < |x| := by
    rw [habs, lt_div_iff₀ hd]
    calc (2 : ℚ) ^ ((a : Int) - b - 1) * x.den
        < (2 : ℚ) ^ ((a : Int) - b - 1) * 2 ^ (b : Int) :=
          mul_lt_mul_of_pos_left d3q (two_zpow_pos _)
      _ = (2 : ℚ) ^ ((a : Int) - 1) := by rw [← zpow_add₀ two]; congr 1; ring
      _ ≤ x.num.natAbs := n2q
  have upper : |x| < (2 : ℚ) ^ ((a : Int) - b + 1) := by
    rw [habs, div_lt_iff₀ hd]
    calc (x.num.natAbs : ℚ) < (2 : ℚ) ^ (a : Int) := n3q
      _ = (2 : ℚ) ^ ((a : Int) - b + 1) * 2 ^ ((b : Int) - 1) := by
          rw [← zpow_add₀ two]; congr 1; ring
      _ ≤ (2 : ℚ) ^ ((a : Int) - b + 1) * x.den :=
          mul_le_mul_of_nonneg_left d2q (two_zpow_pos _).le
  unfold binaryExponent
  rw [← ha, ← hb, pow2_eq]
  split_ifs with h
  · exact ⟨h, upper⟩
  · refine ⟨lower.le, ?_⟩
    have : (a : Int) - b - 1 + 1 = (a : Int) - b := by ring
    rw [this]
    exact not_le.1 h

theorem binaryExponent_lt (x : ℚ) (hx : x ≠ 0) (E : Int) (h : |x| < 2 ^ (E + 1)) :
    binaryExponent x ≤ E := by
  have h1 := (binaryExponent_spec x hx).1
  have h2 : (2 : ℚ) ^ binaryExponent x < 2 ^ (E + 1) := lt_of_le_of_lt h1 h
  have := (zpow_lt_zpow_iff_right₀ (by norm_num : (1 : ℚ) < 2)).1 h2
  omega

theorem roundHalfEven_error (y : ℚ) : |(roundHalfEven y : ℚ) - y| ≤ 1 / 2 := by
  have h1 := Int.floor_le y
  have h2 := Int.lt_floor_add_one y
  unfold roundHalfEven
  split_ifs with a b c
  · rw [abs_le]; constructor <;> linarith
  · rw [abs_le]; push_cast; constructor <;> linarith
  · rw [abs_le]; constructor <;> linarith
  · rw [abs_le]; push_cast; constructor <;> linarith

theorem roundHalfEven_ge (y : ℚ) (m : Int) (h : (m : ℚ) ≤ y) : m ≤ roundHalfEven y := by
  have hf : m ≤ Int.floor y := Int.le_floor.2 h
  unfold roundHalfEven
  split_ifs <;> omega

theorem roundHalfEven_le (y : ℚ) (m : Int) (h : y ≤ (m : ℚ)) : roundHalfEven y ≤ m := by
  have hf : Int.floor y ≤ m := by
    have := Int.floor_le y
    exact_mod_cast (Int.floor_le y).trans h |> fun h1 => (by exact_mod_cast h1 : ((Int.floor y : Int) : ℚ) ≤ m)
  by_cases heq : Int.floor y = m
  · have hy : y = m := le_antisymm h (by rw [← heq]; exact Int.floor_le y)
    unfold roundHalfEven
    rw [hy]
    simp
  · unfold roundHalfEven
    split_ifs <;> omega

theorem ulp_eq (x : ℚ) : ulp x = (2 : ℚ) ^ (max (binaryExponent x) (-1022) - 52) := by
  unfold ulp
  rw [pow2_eq]

theorem ulp_pos (x : ℚ) : 0 < ulp x := by
  rw [ulp_eq]
  exact two_zpow_pos _

/-- A multiple of `2 ^ (E - 52)` is a whole number of spacings around any `x`
below `2 ^ (E + 1)`. -/
theorem grid_of_lt (x : ℚ) (hx : x ≠ 0) (E : Int) (hE : -1022 ≤ E) (h : |x| < 2 ^ (E + 1))
    (m : Int) : ∃ k : Int, (m : ℚ) * 2 ^ (E - 52) = k * ulp x := by
  have he := binaryExponent_lt x hx E h
  have hj : max (binaryExponent x) (-1022) ≤ E := max_le he hE
  obtain ⟨t, ht⟩ := Int.eq_ofNat_of_zero_le (show 0 ≤ E - max (binaryExponent x) (-1022) by omega)
  refine ⟨m * 2 ^ t, ?_⟩
  rw [ulp_eq]
  have two : (2 : ℚ) ≠ 0 := by norm_num
  have : (2 : ℚ) ^ (E - 52) = 2 ^ (t : Int) * 2 ^ (max (binaryExponent x) (-1022) - 52) := by
    rw [← zpow_add₀ two]
    congr 1
    omega
  rw [this, zpow_natCast]
  push_cast
  ring

theorem roundDouble_ge (x : ℚ) (E : Int) (hE : -1022 ≤ E) (h : |x| < 2 ^ (E + 1))
    (m : Int) (hm : (m : ℚ) * 2 ^ (E - 52) ≤ x) : (m : ℚ) * 2 ^ (E - 52) ≤ roundDouble x := by
  unfold roundDouble
  split_ifs with hx
  · rw [hx] at hm; exact hm
  · obtain ⟨k, hk⟩ := grid_of_lt x hx E hE h m
    rw [hk] at hm ⊢
    have hu := ulp_pos x
    have : (k : ℚ) ≤ x / ulp x := by rwa [le_div_iff₀ hu]
    have := roundHalfEven_ge _ k this
    exact mul_le_mul_of_nonneg_right (by exact_mod_cast this) hu.le

theorem roundDouble_le (x : ℚ) (E : Int) (hE : -1022 ≤ E) (h : |x| < 2 ^ (E + 1))
    (m : Int) (hm : x ≤ (m : ℚ) * 2 ^ (E - 52)) : roundDouble x ≤ (m : ℚ) * 2 ^ (E - 52) := by
  unfold roundDouble
  split_ifs with hx
  · rw [hx] at hm; exact hm
  · obtain ⟨k, hk⟩ := grid_of_lt x hx E hE h m
    rw [hk] at hm ⊢
    have hu := ulp_pos x
    have : x / ulp x ≤ (k : ℚ) := by rwa [div_le_iff₀ hu]
    have := roundHalfEven_le _ k this
    exact mul_le_mul_of_nonneg_right (by exact_mod_cast this) hu.le

theorem roundDouble_error (x : ℚ) (E : Int) (hE : -1022 ≤ E) (h : |x| < 2 ^ (E + 1)) :
    |roundDouble x - x| ≤ 2 ^ (E - 53) := by
  unfold roundDouble
  split_ifs with hx
  · simp [hx]; exact (two_zpow_pos _).le
  · have hu := ulp_pos x
    have he := binaryExponent_lt x hx E h
    have hj : max (binaryExponent x) (-1022) ≤ E := max_le he hE
    have hule : ulp x ≤ 2 ^ (E - 52) := by
      rw [ulp_eq]
      exact zpow_le_zpow_right₀ (by norm_num) (by omega)
    have herr := roundHalfEven_error (x / ulp x)
    have : (roundHalfEven (x / ulp x) : ℚ) * ulp x - x
        = ((roundHalfEven (x / ulp x) : ℚ) - x / ulp x) * ulp x := by
      field_simp
    rw [this, abs_mul, abs_of_pos hu]
    have two : (2 : ℚ) ≠ 0 := by norm_num
    have h53 : (2 : ℚ) ^ (E - 53) = 1 / 2 * 2 ^ (E - 52) := by
      have : E - 53 = -1 + (E - 52) := by ring
      rw [this, zpow_add₀ two]
      norm_num
    rw [h53]
    exact mul_le_mul herr hule hu.le (by norm_num)

/-- Integers below `2 ^ 53` in absolute value are binary64 numbers. -/
theorem roundDouble_int (m : Int) (h : |(m : ℚ)| < 2 ^ 53) : roundDouble m = m := by
  have h53 : |(m : ℚ)| < (2 : ℚ) ^ ((52 : Int) + 1) := by
    rw [show ((52 : Int) + 1) = ((53 : Nat) : Int) by norm_num, zpow_natCast]
    exact h
  have h1 := roundDouble_ge (m : ℚ) 52 (by norm_num) h53 m (by simp)
  have h2 := roundDouble_le (m : ℚ) 52 (by norm_num) h53 m (by simp)
  simp at h1 h2
  exact le_antisymm h2 h1

theorem doubleSum_foldl_int (l : List ℚ) (a : Int)
    (hl : ∀ q ∈ l, (∃ k : Int, q = k) ∧ 1 ≤ q ∧ q ≤ 5) (ha : 0 ≤ a)
    (hb : (a : ℚ) + 5 * l.length < 2 ^ 53) :
    l.foldl (fun sum val => roundDouble (sum + val)) (a : ℚ) = a + l.sum := by
  induction l generalizing a with
  | nil => simp
  | cons x xs ih =>
    obtain ⟨⟨k, hk⟩, h1, h5⟩ := hl x (List.mem_cons_self x xs)
    have hlen : ((x :: xs).length : ℚ) = xs.length + 1 := by simp
    rw [hlen] at hb
    have hk1 : (1 : ℚ) ≤ k := hk ▸ h1
    have hk5 : (k : ℚ) ≤ 5 := hk ▸ h5
    have ha0 : (0 : ℚ) ≤ a := by exact_mod_cast ha
    have hstep : roundDouble ((a : ℚ) + x) = ((a + k : Int) : ℚ) := by
      rw [hk, ← Int.cast_add]
      apply roundDouble_int
      rw [abs_of_nonneg (by push_cast; linarith)]
      push_cast
      have : (0 : ℚ) ≤ xs.length := Nat.cast_nonneg _
      linarith
    rw [List.foldl_cons, hstep, ih (a + k) (fun q hq => hl q (List.mem_cons_of_mem x hq))
      (by have : (1 : Int) ≤ k := by exact_mod_cast hk1
          omega)
      (by push_cast; linarith)]
    rw [List.sum_cons, hk]
    push_cast
    ring

theorem doubleSum_int (l : List ℚ)
    (hl : ∀ q ∈ l, (∃ k : Int, q = k) ∧ 1 ≤ q ∧ q ≤ 5) (hb : l.length < 2 ^ 50) :
    doubleSum l = l.sum := by
  have h := doubleSum_foldl_int l 0 hl le_rfl (by
    have : (l.length : ℚ) < 2 ^ 50 := by exact_mod_cast hb
    push_cast
    linarith)
  unfold doubleSum
  simpa using h

theorem doubleSum_foldl_bounds (l : List ℚ) (acc : ℚ) (lo hi : Int)
    (hl : ∀ q ∈ l, 1 ≤ q ∧ q ≤ 5) (h0 : 0 ≤ lo) (hlo : (lo : ℚ) ≤ acc) (hhi : acc ≤ hi)
    (hb : (hi : ℚ) + 5 * l.length < 2 ^ 53) :
    (lo : ℚ) + l.length ≤ l.foldl (fun sum val => roundDouble (sum + val)) acc ∧
    l.foldl (fun sum val => roundDouble (sum + val)) acc ≤ hi + 5 * l.length := by
  induction l generalizing acc lo hi with
  | nil => simpa using ⟨hlo, hhi⟩
  | cons x xs ih =>
    obtain ⟨h1, h5⟩ := hl x (List.mem_cons_self x xs)
    have hlen : ((x :: xs).length : ℚ) = xs.length + 1 := by simp
    rw [hlen] at hb ⊢
    have hxs : (0 : ℚ) ≤ xs.length := Nat.cast_nonneg _
    have hlo0 : (0 : ℚ) ≤ lo := by exact_mod_cast h0
    have habs : |acc + x| < (2 : ℚ) ^ ((52 : Int) + 1) := by
      rw [show ((52 : Int) + 1) = ((53 : Nat) : Int) by norm_num, zpow_natCast,
        abs_of_nonneg (by linarith)]
      linarith
    have hge := roundDouble_ge (acc + x) 52 (by norm_num) habs (lo + 1)
      (by push_cast; simp; linarith)
    have hle := roundDouble_le (acc + x) 52 (by norm_num) habs (hi + 5)
      (by push_cast; simp; linarith)
    simp only [sub_self, zpow_zero, mul_one] at hge hle
    have := ih (roundDouble (acc + x)) (lo + 1) (hi + 5)
      (fun q hq => hl q (List.mem_cons_of_mem x hq)) (by omega) hge hle
      (by push_cast; linarith)
    rw [List.foldl_cons]
    push_cast at this
    constructor <;> linarith [this.1, this.2]

theorem doubleSum_bounds (l : List ℚ) (hl : ∀ q ∈ l, 1 ≤ q ∧ q ≤ 5) (hb : l.length < 2 ^ 50) :
    (l.length : ℚ) ≤ doubleSum l ∧ doubleSum l ≤ 5 * l.length := by
  have h := doubleSum_foldl_bounds l 0 0 0 hl le_rfl (by simp) (by simp) (by
    have : (l.length : ℚ) < 2 ^ 50 := by exact_mod_cast hb
    push_cast
    linarith)
  unfold doubleSum
  simpa using h

theorem jsRound_range (x : ℚ) (h1 : 1 ≤ x) (h5 : x ≤ 5) : 1 ≤ jsRound x ∧ jsRound x ≤ 5 := by
  unfold jsRound
  constructor
  · apply Int.le_floor.2
    push_cast
    linarith
  · have : Int.floor (x + 1 / 2) < 6 := by
      apply Int.floor_lt.2
      push_cast
      linarith
    omega

theorem roundDouble_range (x : ℚ) (h1 : 1 ≤ x) (h5 : x ≤ 5) :
    1 ≤ roundDouble x ∧ roundDouble x ≤ 5 := by
  have habs : |x| < (2 : ℚ) ^ ((52 : Int) + 1) := by
    rw [show ((52 : Int) + 1) = ((53 : Nat) : Int) by norm_num, zpow_natCast,
      abs_of_nonneg (by linarith)]
    norm_num
    linarith
  have hge := roundDouble_ge x 52 (by norm_num) habs 1 (by simpa using h1)
  have hle := roundDouble_le x 52 (by norm_num) habs 5 (by simpa using h5)
  simp only [sub_self, zpow_zero, mul_one] at hge hle
  exact ⟨by simpa using hge, by simpa using hle⟩

/-- Rounding a quotient of integers to binary64 does not change `Math.round` of
it, as long as the spacing of the binary64 numbers around the quotient is below
the reciprocal of the divisor. -/
theorem jsRound_roundDouble_div (s : Int) (n : Nat) (hn : 0 < n) (E : Int) (hE : -1022 ≤ E)
    (hE51 : E ≤ 51) (hx : |(s : ℚ) / n| < 2 ^ (E + 1))
    (hsmall : (2 : ℚ) ^ (E - 53) * (2 * n) < 1) :
    jsRound (roundDouble ((s : ℚ) / n)) = jsRound ((s : ℚ) / n) := by
  have hnq : (0 : ℚ) < n := by exact_mod_cast hn
  obtain ⟨hlo, hhi⟩ := jsRound_bounds ((s : ℚ) / n)
  set k := jsRound ((s : ℚ) / n) with hk
  have h52 : |(s : ℚ) / n| < (2 : ℚ) ^ ((51 : Int) + 1) :=
    lt_of_lt_of_le hx (zpow_le_zpow_right₀ (by norm_num) (by omega))
  have hge := roundDouble_ge ((s : ℚ) / n) 51 (by norm_num) h52 (2 * k - 1) (by
    have : ((51 : Int) - 52) = -1 := by norm_num
    rw [this]
    push_cast
    norm_num
    linarith)
  have hge2 : (k : ℚ) - 1 / 2 ≤ roundDouble ((s : ℚ) / n) := by
    have : ((51 : Int) - 52) = -1 := by norm_num
    rw [this] at hge
    push_cast at hge
    norm_num at hge
    linarith
  have herr := roundDouble_error ((s : ℚ) / n) E hE hx
  have hgap : (s : ℚ) / n + 1 / (2 * n) ≤ k + 1 / 2 := by
    have hint : 2 * s + 1 ≤ (2 * k + 1) * n := by
      have h1 : (2 * s : ℚ) < (2 * k + 1) * n := by
        rw [div_lt_iff₀ hnq] at hhi
        linarith
      have h2 : 2 * s < (2 * k + 1) * n := by exact_mod_cast h1
      omega
    have hq : (2 * s + 1 : ℚ) ≤ (2 * k + 1) * n := by exact_mod_cast hint
    rw [div_add_div _ _ hnq.ne' (by positivity), div_le_iff₀ (by positivity)]
    nlinarith
  have hsm : (2 : ℚ) ^ (E - 53) < 1 / (2 * n) := by
    rw [lt_div_iff₀ (by positivity)]
    exact hsmall
  have hup : roundDouble ((s : ℚ) / n) < k + 1 / 2 := by
    have := (abs_le.1 herr).2
    linarith
  unfold jsRound
  rw [Int.floor_eq_iff]
  constructor
  · show (jsRound ((s : ℚ) / n) : ℚ) ≤ _
    rw [← hk]; linarith
  · show _ < (jsRound ((s : ℚ) / n) : ℚ) + 1
    rw [← hk]; linarith

/-! ## The structured rating -/

theorem ratingResponses_range (values : List Leaf) :
    ∀ q ∈ ratingResponses values, 1 ≤ q ∧ q ≤ 5 := by
  intro q hq
  unfold ratingResponses at hq
  obtain ⟨v, _, hv⟩ := List.mem_filterMap.1 hq
  split at hv
  · split_ifs at hv with h
    cases hv
    exact h
  · cases hv

theorem sum_bounds (l : List ℚ) (h : ∀ q ∈ l, 1 ≤ q ∧ q ≤ 5) :
    (l.length : ℚ) ≤ l.sum ∧ l.sum ≤ 5 * l.length := by
  induction l with
  | nil => simp
  | cons x xs ih =>
    have hx := h x (List.mem_cons_self x xs)
    have hxs := ih (fun q hq => h q (List.mem_cons_of_mem x hq))
    simp only [List.length_cons, List.sum_cons, Nat.cast_add, Nat.cast_one]
    constructor <;> linarith [hx.1, hx.2, hxs.1, hxs.2]

theorem sum_int (l : List ℚ) (h : ∀ q ∈ l, ∃ k : Int, q = k) : ∃ s : Int, l.sum = s := by
  induction l with
  | nil => exact ⟨0, by simp⟩
  | cons x xs ih =>
    obtain ⟨k, hk⟩ := h x (List.mem_cons_self x xs)
    obtain ⟨s, hs⟩ := ih (fun q hq => h q (List.mem_cons_of_mem x hq))
    exact ⟨k + s, by rw [List.sum_cons, hk, hs]; push_cast; rfl⟩

/-- With integer answers, fewer than `2 ^ 50` of them, the rating computed in
binary64 is `Math.round` of the exact mean. -/
theorem structuredRating_int (responses : JsVal)
    (hint : ∀ q ∈ ratingResponses responses.values, ∃ k : Int, q = k)
    (hlen : (ratingResponses responses.values).length < 2 ^ 50) (n : Int)
    (h : structuredRating responses = some n) :
    n = jsRound ((ratingResponses responses.values).sum
      / (ratingResponses responses.values).length) := by
  unfold structuredRating at h
  split at h
  · rename_i hpos
    cases h
    have hr := ratingResponses_range responses.values
    have hsum := doubleSum_int (ratingResponses responses.values)
      (fun q hq => ⟨hint q hq, hr q hq⟩) hlen
    obtain ⟨s, hs⟩ := sum_int _ hint
    have hb := sum_bounds _ hr
    have hlenq : (0 : ℚ) < (ratingResponses responses.values).length := by exact_mod_cast hpos
    have hlt : ((ratingResponses responses.values).length : ℚ) < 2 ^ 50 := by exact_mod_cast hlen
    rw [hsum, hs]
    rw [hs] at hb
    apply jsRound_roundDouble_div s _ hpos 2 (by norm_num) (by norm_num)
    · rw [abs_of_nonneg (div_nonneg (by linarith [hb.1]) hlenq.le), div_lt_iff₀ hlenq]
      have : (2 : ℚ) ^ ((2 : Int) + 1) = 8 := by norm_num
      rw [this]
      linarith [hb.2]
    · have : (2 : ℚ) ^ ((2 : Int) - 53) = 1 / 2 ^ 51 := by
        rw [show ((2 : Int) - 53) = -(51 : Nat) by norm_num, zpow_neg, zpow_natCast]
        norm_num
      rw [this]
      rw [div_mul_eq_mul_div, div_lt_iff₀ (by positivity)]
      linarith
  · cases h

/-- Counterexample to C9 as stated: for the answers 1 and 1.9999999999999998
(both binary64 numbers between 1 and 5) the sum is rounded to 3, the quotient is
1.5 and the rating is 2, while the mean of the two answers is below 1.5 and its
nearest integer is 1. -/
theorem structured_rating_counterexample :
    ratingResponses roundingResponses.values = [1, 2 - 1 / 2 ^ 52] ∧
    roundDouble (2 - 1 / 2 ^ 52) = 2 - 1 / 2 ^ 52 ∧
    doubleSum [1, 2 - 1 / 2 ^ 52] = 3 ∧
    structuredRating roundingResponses = some 2 ∧
    jsRound (([1, 2 - 1 / 2 ^ 52] : List ℚ).sum / 2) = 1 :=
  ⟨by decide!, by decide!, by decide!, by decide!, by decide!⟩

/-- C9 (structured overall rating, amended).  The rating responses `R` are
exactly the values of `responses` that are numbers between 1 and 5, with
multiplicity; the rating is set if and only if `R` is non-empty; when set, it is
`Math.round` of the quotient, rounded to binary64, of the binary64 sum of `R` by
its length; when the answers in `R` are integers (fewer than `2 ^ 50` of them)
this is the mean of `R` rounded to the nearest integer with halves rounded up; a
value that is not a number between 1 and 5 does not affect the rating;
`{q1: 5, q2: 3, q3: 4}` gives 4; and this is the `overallRating` of the document
handed to `Feedback.create`. -/
theorem structured_rating (responses : JsVal) :
    (∀ q : ℚ, (ratingResponses responses.values).count q
      = if 1 ≤ q ∧ q ≤ 5 then responses.values.count (.scalar (.num q)) else 0) ∧
    ((structuredRating responses).isSome = true ↔ ratingResponses responses.values ≠ []) ∧
    (∀ n : Int, structuredRating responses = some n →
      n = jsRound (roundDouble (doubleSum (ratingResponses responses.values)
        / (ratingResponses responses.values).length))) ∧
    ((∀ q ∈ ratingResponses responses.values, ∃ k : Int, q = k) →
      (ratingResponses responses.values).length < 2 ^ 50 →
      ∀ n : Int, structuredRating responses = some n →
        (n : ℚ) - 1 / 2
            ≤ (ratingResponses responses.values).sum
              / (ratingResponses responses.values).length ∧
        (ratingResponses responses.values).sum / (ratingResponses responses.values).length
            < (n : ℚ) + 1 / 2) ∧
    (∀ (es1 es2 : List (String × Leaf)) (k : String) (v : Leaf),
      (∀ q, v = .scalar (.num q) → ¬ (1 ≤ q ∧ q ≤ 5)) →
      structuredRating (.obj (es1 ++ (k, v) :: es2)) = structuredRating (.obj (es1 ++ es2))) ∧
    structuredRating
      (.obj [("q1", .scalar (.num 5)), ("q2", .scalar (.num 3)), ("q3", .scalar (.num 4))])
        = some 4 ∧
    (∀ (p e : Id) (req : FeedbackRequest), req.responses = responses → req.structured = true →
      (feedbackData p e req).map (fun f => f.overallRating)
        = some (Rating.ofOption (structuredRating responses))) := by
  refine ⟨ratingResponses_count _, ?_, ?_, ?_, ?_, ?_, ?_⟩
  · unfold structuredRating
    cases h : ratingResponses responses.values <;> simp
  · intro n hn
    unfold structuredRating at hn
    split at hn
    · cases hn; rfl
    · cases hn
  · intro hint hlen n hn
    rw [structuredRating_int responses hint hlen n hn]
    exact jsRound_bounds _
  · intro es1 es2 k v hv
    have : ratingResponses (JsVal.obj (es1 ++ (k, v) :: es2)).values
        = ratingResponses (JsVal.obj (es1 ++ es2)).values := by
      simp only [JsVal.values, JsVal.entries, List.map_append, List.map_cons,
        ratingResponses_append, ratingResponses_cons_other v _ hv]
    unfold structuredRating
    rw [this]
  · decide!
  · intro p e req hreq hs
    subst hreq
    simp [feedbackData, hs]

/-- Witness for C9: the answers 5, 3, 4 are integers; their rating 4 is the
nearest integer to their mean 4. -/
theorem structured_rating_witness :
    ratingResponses (JsVal.obj [("q1", .scalar (.num 5)), ("q2", .scalar (.num 3)),
        ("q3", .scalar (.num 4)), ("comment", .scalar (.str "fine"))]).values = [5, 3, 4] ∧
    structuredRating (.obj [("q1", .scalar (.num 5)), ("q2", .scalar (.num 3)),
        ("q3", .scalar (.num 4)), ("comment", .scalar (.str "fine"))]) = some 4 ∧
    ((4 : Int) : ℚ) - 1 / 2 ≤ ([5, 3, 4] : List ℚ).sum / ([5, 3, 4] : List ℚ).length ∧
    ([5, 3, 4] : List ℚ).sum / ([5, 3, 4] : List ℚ).length < ((4 : Int) : ℚ) + 1 / 2 :=
  have hr : ratingResponses (JsVal.obj [("q1", .scalar (.num 5)), ("q2", .scalar (.num 3)),
      ("q3", .scalar (.num 4)), ("comment", .scalar (.str "fine"))]).values = [5, 3, 4] := by
    decide!
  have hs : structuredRating (.obj [("q1", .scalar (.num 5)), ("q2", .scalar (.num 3)),
      ("q3", .scalar (.num 4)), ("comment", .scalar (.str "fine"))]) = some 4 := by decide!
  have h := (structured_rating (.obj [("q1", .scalar (.num 5)), ("q2", .scalar (.num 3)),
      ("q3", .scalar (.num 4)), ("comment", .scalar (.str "fine"))])).2.2.2.1
    (by rw [hr]
        intro q hq
        simp only [List.mem_cons, List.mem_singleton, List.not_mem_nil, or_false] at hq
        rcases hq with rfl | rfl | rfl
        · exact ⟨5, by norm_num⟩
        · exact ⟨3, by norm_num⟩
        · exact ⟨4, by norm_num⟩)
    (by rw [hr]; norm_num) 4 hs
  ⟨hr, hs, by rw [hr] at h; exact h.1, by rw [hr] at h; exact h.2⟩

/-! ## The legacy rating -/

theorem pow2_1024_gt : (2 : ℚ) ^ 53 ≤ pow2 1024 := by
  rw [pow2_eq, ← zpow_natCast]
  exact zpow_le_zpow_right₀ (by norm_num) (by norm_num)

theorem plus_int (x y : Int) (h : |((x + y : Int) : ℚ)| < 2 ^ 53) :
    Operand.plus (.num x) (.num y) = .num ((x + y : Int) : ℚ) := by
  have hr : roundDouble ((x : ℚ) + y) = ((x + y : Int) : ℚ) := by
    rw [← Int.cast_add]
    exact roundDouble_int _ h
  show (if |roundDouble ((x : ℚ) + y)| < pow2 1024 then Operand.num (roundDouble ((x : ℚ) + y))
    else Operand.other) = _
  rw [hr, if_pos (lt_of_lt_of_le h pow2_1024_gt)]

theorem plus_bounds (x y : ℚ) (lo hi : Int) (h0 : 0 ≤ lo) (hlo : (lo : ℚ) ≤ x + y)
    (hhi : x + y ≤ hi) (hb : (hi : ℚ) < 2 ^ 53) :
    ∃ z : ℚ, Operand.plus (.num x) (.num y) = .num z ∧ (lo : ℚ) ≤ z ∧ z ≤ hi := by
  have hlo0 : (0 : ℚ) ≤ lo := by exact_mod_cast h0
  have habs : |x + y| < (2 : ℚ) ^ ((52 : Int) + 1) := by
    rw [show ((52 : Int) + 1) = ((53 : Nat) : Int) by norm_num, zpow_natCast,
      abs_of_nonneg (by linarith)]
    linarith
  have hge := roundDouble_ge (x + y) 52 (by norm_num) habs lo (by simpa using hlo)
  have hle := roundDouble_le (x + y) 52 (by norm_num) habs hi (by simpa using hhi)
  simp only [sub_self, zpow_zero, mul_one] at hge hle
  refine ⟨roundDouble (x + y), ?_, hge, hle⟩
  show (if |roundDouble (x + y)| < pow2 1024 then Operand.num (roundDouble (x + y))
    else Operand.other) = _
  rw [if_pos]
  rw [abs_of_nonneg (by linarith)]
  exact lt_of_lt_of_le (by linarith) pow2_1024_gt

theorem plus_num_cases (x y : ℚ) :
    Operand.plus (.num x) (.num y) = .num (roundDouble (x + y)) ∨
    Operand.plus (.num x) (.num y) = .other := by
  show (if |roundDouble (x + y)| < pow2 1024 then Operand.num (roundDouble (x + y))
    else Operand.other) = _ ∨ (if |roundDouble (x + y)| < pow2 1024
      then Operand.num (roundDouble (x + y)) else Operand.other) = _
  split_ifs
  · exact Or.inl rfl
  · exact Or.inr rfl

theorem plus_other (y : Operand) : Operand.plus .other y = .other := by
  cases y <;> rfl

theorem legacyRating_value (a b c d f g : ℚ) (n : Int)
    (h : legacyRating (.scalar (.num a)) (.scalar (.num b)) (.scalar (.num c))
      (.scalar (.num d)) (.scalar (.num f)) (.scalar (.num g)) = .value n) :
    n = jsRound (roundDouble (roundDouble (roundDouble (roundDouble (roundDouble
      (roundDouble (a + b) + c) + d) + f) + g) / 6)) := by
  simp only [legacyRating, JsVal.operand] at h
  rcases plus_num_cases a b with e1 | e1
  · rcases plus_num_cases (roundDouble (a + b)) c with e2 | e2
    · rcases plus_num_cases (roundDouble (roundDouble (a + b) + c)) d with e3 | e3
      · rcases plus_num_cases (roundDouble (roundDouble (roundDouble (a + b) + c) + d)) f
          with e4 | e4
        · rcases plus_num_cases
            (roundDouble (roundDouble (roundDouble (roundDouble (a + b) + c) + d) + f)) g
            with e5 | e5
          · rw [e1, e2, e3, e4, e5] at h
            simp only [Operand.toNumber, Rating.value.injEq] at h
            exact h.symm
          · rw [e1, e2, e3, e4, e5] at h
            simp [Operand.toNumber] at h
        · rw [e1, e2, e3, e4] at h
          simp [Operand.toNumber, plus_other] at h
      · rw [e1, e2, e3] at h
        simp [Operand.toNumber, plus_other] at h
    · rw [e1, e2] at h
      simp [Operand.toNumber, plus_other] at h
  · rw [e1] at h
    simp [Operand.toNumber, plus_other] at h

/-- With integer answers of absolute value at most `2 ^ 49` the legacy rating is
`Math.round` of the exact quotient. -/
theorem legacyRating_int (a b c d f g : Int)
    (ha : |a| ≤ 2 ^ 49) (hb : |b| ≤ 2 ^ 49) (hc : |c| ≤ 2 ^ 49) (hd : |d| ≤ 2 ^ 49)
    (hf : |f| ≤ 2 ^ 49) (hg : |g| ≤ 2 ^ 49) :
    legacyRating (.scalar (.num a)) (.scalar (.num b)) (.scalar (.num c))
        (.scalar (.num d)) (.scalar (.num f)) (.scalar (.num g))
      = .value (jsRound (((a : ℚ) + b + c + d + f + g) / 6)) := by
  rw [abs_le] at ha hb hc hd hf hg
  have small : ∀ z : Int, -(6 * 2 ^ 49) ≤ z → z ≤ 6 * 2 ^ 49 → |(z : ℚ)| < 2 ^ 53 := by
    intro z h1 h2
    rw [abs_lt]
    have h1q : ((-(6 * 2 ^ 49) : Int) : ℚ) ≤ z := by exact_mod_cast h1
    have h2q : (z : ℚ) ≤ ((6 * 2 ^ 49 : Int) : ℚ) := by exact_mod_cast h2
    push_cast at h1q h2q
    constructor <;> linarith
  have e1 := plus_int a b (small _ (by omega) (by omega))
  have e2 := plus_int (a + b) c (small _ (by omega) (by omega))
  have e3 := plus_int (a + b + c) d (small _ (by omega) (by omega))
  have e4 := plus_int (a + b + c + d) f (small _ (by omega) (by omega))
  have e5 := plus_int (a + b + c + d + f) g (small _ (by omega) (by omega))
  simp only [legacyRating, JsVal.operand, e1, e2, e3, e4, e5, Operand.toNumber]
  congr 1
  have hq := jsRound_roundDouble_div (a + b + c + d + f + g) 6 (by norm_num) 49 (by norm_num)
    (by norm_num) (by
      have h1 : -(6 * 2 ^ 49) ≤ a + b + c + d + f + g := by omega
      have h2 : a + b + c + d + f + g ≤ 6 * 2 ^ 49 := by omega
      have h1q : ((-(6 * 2 ^ 49) : Int) : ℚ) ≤ ((a + b + c + d + f + g : Int) : ℚ) := by
        exact_mod_cast h1
      have h2q : ((a + b + c + d + f + g : Int) : ℚ) ≤ ((6 * 2 ^ 49 : Int) : ℚ) := by
        exact_mod_cast h2
      push_cast at h1q h2q
      have : (2 : ℚ) ^ ((49 : Int) + 1) = 2 ^ 50 := by norm_num
      rw [this, abs_lt]
      push_cast
      constructor
      · rw [lt_div_iff₀ (by norm_num)]; linarith
      · rw [div_lt_iff₀ (by norm_num)]; linarith)
    (by
      have : (2 : ℚ) ^ ((49 : Int) - 53) = 1 / 16 := by
        rw [show ((49 : Int) - 53) = -(4 : Nat) by norm_num, zpow_neg, zpow_natCast]
        norm_num
      rw [this]
      norm_num)
  push_cast at hq ⊢
  exact hq

theorem legacyRating_range (a b c d f g : ℚ)
    (ha : 1 ≤ a ∧ a ≤ 5) (hb : 1 ≤ b ∧ b ≤ 5) (hc : 1 ≤ c ∧ c ≤ 5) (hd : 1 ≤ d ∧ d ≤ 5)
    (hf : 1 ≤ f ∧ f ≤ 5) (hg : 1 ≤ g ∧ g ≤ 5) :
    ∃ n, legacyRating (.scalar (.num a)) (.scalar (.num b)) (.scalar (.num c))
        (.scalar (.num d)) (.scalar (.num f)) (.scalar (.num g)) = .value n ∧
      1 ≤ n ∧ n ≤ 5 := by
  obtain ⟨s1, e1, l1, u1⟩ := plus_bounds a b 2 10 (by norm_num)
    (by push_cast; linarith [ha.1, hb.1]) (by push_cast; linarith [ha.2, hb.2]) (by norm_num)
  obtain ⟨s2, e2, l2, u2⟩ := plus_bounds s1 c 3 15 (by norm_num)
    (by push_cast at l1 ⊢; linarith [hc.1]) (by push_cast at u1 ⊢; linarith [hc.2]) (by norm_num)
  obtain ⟨s3, e3, l3, u3⟩ := plus_bounds s2 d 4 20 (by norm_num)
    (by push_cast at l2 ⊢; linarith [hd.1]) (by push_cast at u2 ⊢; linarith [hd.2]) (by norm_num)
  obtain ⟨s4, e4, l4, u4⟩ := plus_bounds s3 f 5 25 (by norm_num)
    (by push_cast at l3 ⊢; linarith [hf.1]) (by push_cast at u3 ⊢; linarith [hf.2]) (by norm_num)
  obtain ⟨s5, e5, l5, u5⟩ := plus_bounds s4 g 6 30 (by norm_num)
    (by push_cast at l4 ⊢; linarith [hg.1]) (by push_cast at u4 ⊢; linarith [hg.2]) (by norm_num)
  refine ⟨jsRound (roundDouble (s5 / 6)), ?_, ?_⟩
  · simp only [legacyRating, JsVal.operand, e1, e2, e3, e4, e5, Operand.toNumber]
  · push_cast at l5 u5
    obtain ⟨r1, r5⟩ := roundDouble_range (s5 / 6)
      (by rw [le_div_iff₀ (by norm_num)]; linarith)
      (by rw [div_le_iff₀ (by norm_num)]; linarith)
    exact jsRound_range _ r1 r5

theorem feedbackData_legacy (p e : Id) (req : FeedbackRequest) (a b c d f g : ℚ)
    (hs : req.structured = false) (hl : req.legacyAnswered = true)
    (h7 : req.q7 = .scalar (.num a)) (h8 : req.q8 = .scalar (.num b))
    (h9 : req.q9 = .scalar (.num c)) (h10 : req.q10 = .scalar (.num d))
    (h11 : req.q11 = .scalar (.num f)) (h13 : req.q13 = .scalar (.num g)) :
    ∃ fb, feedbackData p e req = some fb ∧
      fb.overallRating = legacyRating (.scalar (.num a)) (.scalar (.num b)) (.scalar (.num c))
        (.scalar (.num d)) (.scalar (.num f)) (.scalar (.num g)) := by
  simp [feedbackData, hs, hl, h7, h8, h9, h10, h11, h13]

/-- Counterexample to C10 as stated: with `q7` = 1.9999999999999998, `q8` to
`q11` = 1 and `q13` = 3 (all binary64 numbers) the first addition is rounded to
3, the sum is 9, the quotient 1.5 and the stored rating 2, while the quotient of
the exact sum by 6 is below 1.5 and its nearest integer is 1. -/
theorem legacy_rating_counterexample :
    roundingLegacyRequest.structured = false ∧
    roundingLegacyRequest.legacyAnswered = true ∧
    roundDouble (2 - 1 / 2 ^ 52) = 2 - 1 / 2 ^ 52 ∧
    (giveFeedback sampleLib calmEnv attendedStore roundingLegacyRequest).1.feedbacks.map
      (fun fb => fb.overallRating) = [.value 2] ∧
    jsRound (((2 - 1 / 2 ^ 52 : ℚ) + 1 + 1 + 1 + 1 + 3) / 6) = 1 :=
  ⟨by decide, by decide!, by decide!, by decide!, by decide!⟩

/-- C10 (legacy overall rating, amended).  For a legacy-path request that passes
all checks and whose `q7, q8, q9, q10, q11, q13` are numbers, the stored
`overallRating` is that of `Math.round((q7 + q8 + q9 + q10 + q11 + q13) / 6)`
evaluated in binary64: when it is an integer it is `Math.round` of the rounded
quotient of the sum accumulated from left to right with every addition rounded;
when the six answers are integers of absolute value at most `2 ^ 49` it is the
exact quotient rounded to the nearest integer with halves rounded up; and
replacing `q12, q14, q15` by any other answers leaves the rating unchanged. -/
theorem legacy_rating (lib : Lib) (env : Env) (s : Store) (req : FeedbackRequest)
    (p e : Id) (r : ParticipantEvent) (a b c d f g : ℚ)
    (h1 : req.personalInfoPresent = true) (h2 : lib.isValid req.participantId = true)
    (h3 : lib.isValid req.eventId = true) (h4 : env.fails .enrollmentFind = false)
    (hn : req.names lib p e) (hr : findEnrollment p e s.participantEvents = some r)
    (ha : r.attended = true) (hf : r.feedbackGiven = false)
    (hs : req.structured = false) (hl : req.legacyAnswered = true)
    (hc : env.fails .feedbackCreate = false)
    (h7 : req.q7 = .scalar (.num a)) (h8 : req.q8 = .scalar (.num b))
    (h9 : req.q9 = .scalar (.num c)) (h10 : req.q10 = .scalar (.num d))
    (h11 : req.q11 = .scalar (.num f)) (h13 : req.q13 = .scalar (.num g)) :
    (∃ fb, (giveFeedback lib env s req).1.feedbacks = s.feedbacks ++ [fb] ∧
      fb.overallRating = legacyRating (.scalar (.num a)) (.scalar (.num b)) (.scalar (.num c))
        (.scalar (.num d)) (.scalar (.num f)) (.scalar (.num g)) ∧
      (∀ n : Int, fb.overallRating = .value n →
        n = jsRound (roundDouble (roundDouble (roundDouble (roundDouble (roundDouble
          (roundDouble (a + b) + c) + d) + f) + g) / 6))) ∧
      ((∀ q ∈ [a, b, c, d, f, g], ∃ k : Int, q = k ∧ |k| ≤ 2 ^ 49) →
        fb.overallRating = .value (jsRound ((a + b + c + d + f + g) / 6)))) ∧
    (∀ x y z : JsVal, x.truthy = true → y.truthy = true → z.truthy = true →
      (feedbackData p e { req with q12 := x, q14 := y, q15 := z }).map
          (fun fb => fb.overallRating)
        = some (legacyRating (.scalar (.num a)) (.scalar (.num b)) (.scalar (.num c))
            (.scalar (.num d)) (.scalar (.num f)) (.scalar (.num g)))) := by
  constructor
  · obtain ⟨fb, hd, hrate⟩ := feedbackData_legacy p e req a b c d f g hs hl h7 h8 h9 h10 h11 h13
    refine ⟨fb, giveFeedback_feedbacks lib env s req p e r fb h1 h2 h3 h4 hn hr ha hf hc hd,
      hrate, ?_, ?_⟩
    · intro n hv
      rw [hrate] at hv
      exact legacyRating_value a b c d f g n hv
    · intro hint
      obtain ⟨ka, rfl, hka⟩ := hint a (by simp)
      obtain ⟨kb, rfl, hkb⟩ := hint b (by simp)
      obtain ⟨kc, rfl, hkc⟩ := hint c (by simp)
      obtain ⟨kd, rfl, hkd⟩ := hint d (by simp)
      obtain ⟨kf, rfl, hkf⟩ := hint f (by simp)
      obtain ⟨kg, rfl, hkg⟩ := hint g (by simp)
      rw [hrate]
      exact legacyRating_int ka kb kc kd kf kg hka hkb hkc hkd hkf hkg
  · intro x y z hx hy hz
    have hs2 : ({ req with q12 := x, q14 := y, q15 := z } : FeedbackRequest).structured = false := hs
    have hl2 : ({ req with q12 := x, q14 := y, q15 := z } : FeedbackRequest).legacyAnswered
        = true := by
      simp only [FeedbackRequest.legacyAnswered, Bool.and_eq_true] at hl ⊢
      simp [hl, hx, hy, hz]
    obtain ⟨fb, hd, hrate⟩ := feedbackData_legacy p e _ a b c d f g hs2 hl2 h7 h8 h9 h10 h11 h13
    rw [hd, Option.map_some', hrate]

/-- Witness for C10: the integer answers 5, 5, 4, 4, 5, 4 have quotient 4.5 and
rating 5; and the same answers sent as strings are concatenated to "554454" and
stored with rating 92409. -/
theorem legacy_rating_witness :
    legacyRequest.structured = false ∧ legacyRequest.legacyAnswered = true ∧
    (giveFeedback sampleLib calmEnv attendedStore legacyRequest).1.feedbacks.map
      (fun fb => fb.overallRating) = [.value 5] ∧
    (giveFeedback sampleLib calmEnv attendedStore digitStringRequest).1.feedbacks.map
      (fun fb => fb.overallRating) = [.value 92409] ∧
    ∃ fb, (giveFeedback sampleLib calmEnv attendedStore legacyRequest).1.feedbacks
        = attendedStore.feedbacks ++ [fb] ∧
      fb.overallRating = .value (jsRound ((5 + 5 + 4 + 4 + 5 + 4) / 6)) :=
  have h := (legacy_rating sampleLib calmEnv attendedStore legacyRequest alice workshop
      { newEnrollment alice workshop with attended := true } 5 5 4 4 5 4
      (by decide) (by decide) (by decide) (by decide) (by decide) (by decide) (by decide)
      (by decide) (by decide) (by decide!) (by decide)
      rfl rfl rfl rfl rfl rfl).1
  ⟨by decide, by decide!, by decide!, by decide!,
    h.elim fun fb hfb => ⟨fb, hfb.1, hfb.2.2.2 (by
      intro q hq
      have h54 : q = 5 ∨ q = 4 := by
        simp only [List.mem_cons, List.mem_singleton, List.not_mem_nil, or_false] at hq
        tauto
      rcases h54 with rfl | rfl
      · exact ⟨5, by norm_num, by norm_num⟩
      · exact ⟨4, by norm_num, by norm_num⟩)⟩⟩

/-! ## Failures during certificate generation -/

/-- C11 (rendering failure is absorbed).  When the image pipeline throws while
the event and the participant exist, no certificate exists for the pair and no
other call throws, `generateCertificate` returns normally: it stores a
certificate with the newly made id, status "generated" and no
`certificateData`, marks the enrollment record of the pair with that same id,
and returns a summary carrying it. -/
theorem rendering_failure_absorbed (lib : Lib) (env : Env) (s : Store)
    (participantId eventId participantName : JsVal) (p e : Id)
    (event : Event) (participant : User)
    (hp : lib.castId participantId = some p) (he : lib.castId eventId = some e)
    (hev : findEvent e s.events = some event) (hu : findUser p s.users = some participant)
    (hc : findCertificate p e s.certificates = none)
    (hrender : generateCertificateImage env = .error .render)
    (hothers : ∀ op, op ≠ .render → env.fails op = false) :
    generateCertificate lib env s participantId eventId participantName
      = ({ s with
            certificates :=
              s.certificates ++ [newCertificate lib env p e event participant none]
            participantEvents :=
              updateEnrollment p e (markCertificate env.now (certificateIdOf env.now env.random))
                s.participantEvents },
          .ok (createdSummary env event participant)) ∧
    (newCertificate lib env p e event participant none).certificateId
      = certificateIdOf env.now env.random ∧
    (newCertificate lib env p e event participant none).status = "generated" ∧
    (newCertificate lib env p e event participant none).certificateData = none ∧
    (createdSummary env event participant).certificateId = certificateIdOf env.now env.random ∧
    (∀ r, findEnrollment p e s.participantEvents = some r →
      ∃ r1, findEnrollment p e
          (generateCertificate lib env s participantId eventId participantName).1.participantEvents
            = some r1 ∧
        r1.certificateGenerated = true ∧
        r1.certificateId = some (certificateIdOf env.now env.random)) := by
  have hgen : generateCertificate lib env s participantId eventId participantName
      = ({ s with
            certificates :=
              s.certificates ++ [newCertificate lib env p e event participant none]
            participantEvents :=
              updateEnrollment p e (markCertificate env.now (certificateIdOf env.now env.random))
                s.participantEvents },
          .ok (createdSummary env event participant)) := by
    unfold generateCertificate generateCertificateTry
    simp [hp, he, hev, hu, hc, hrender, hothers]
  refine ⟨hgen, rfl, rfl, rfl, rfl, ?_⟩
  intro r hr
  rw [hgen]
  refine ⟨markCertificate env.now (certificateIdOf env.now env.random) r, ?_, rfl, rfl⟩
  show findEnrollment p e (updateEnrollment p e _ s.participantEvents) = _
  rw [findEnrollment_updateEnrollment (markCertificate_matches _ _ p e), hr]
  rfl

/-- Witness for C11: issuing for the sample pair while the image pipeline
throws. -/
theorem rendering_failure_absorbed_witness :
    generateCertificateImage renderFailEnv = .error .render ∧
    findCertificate alice workshop attendedStore.certificates = none ∧
    ((generateCertificate sampleLib renderFailEnv attendedStore (.scalar (.str alice))
        (.scalar (.str workshop)) (.scalar (.str "Alice A."))).1.certificates.map
      (fun c => (c.certificateId, c.status, c.certificateData)))
      = [("CERT-1700000000000-K3J9X7Q2M", "generated", none)] ∧
    generateCertificate sampleLib renderFailEnv attendedStore (.scalar (.str alice))
        (.scalar (.str workshop)) (.scalar (.str "Alice A."))
      = ({ attendedStore with
            certificates :=
              attendedStore.certificates
                ++ [newCertificate sampleLib renderFailEnv alice workshop workshopEvent aliceUser none]
            participantEvents :=
              updateEnrollment alice workshop
                (markCertificate renderFailEnv.now
                  (certificateIdOf renderFailEnv.now renderFailEnv.random))
                attendedStore.participantEvents },
          .ok (createdSummary renderFailEnv workshopEvent aliceUser)) :=
  ⟨rfl, by decide, by decide,
    (rendering_failure_absorbed sampleLib renderFailEnv attendedStore (.scalar (.str alice))
      (.scalar (.str workshop)) (.scalar (.str "Alice A.")) alice workshop workshopEvent aliceUser
      (by decide) (by decide) (by decide) (by decide) (by decide) rfl
      (by intro op hop; cases op <;> first | rfl | exact absurd rfl hop)).1⟩

/-- C12, the code at the failing input.  Saving the certificate throws and the
update in the catch block of `generateCertificate` throws as well: the feedback
document is stored and `feedbackGiven` is written, yet `giveFeedback` answers
400. -/
theorem feedback_reply_after_write_fails :
    (giveFeedback sampleLib storeDownEnv attendedStore sampleRequest).2
      = ⟨400, .thrown .enrollmentMarkFallback⟩ ∧
    (giveFeedback sampleLib storeDownEnv attendedStore sampleRequest).1.feedbacks.length = 1 ∧
    (findEnrollment alice workshop
        (giveFeedback sampleLib storeDownEnv attendedStore sampleRequest).1.participantEvents).map
        (fun r => (r.feedbackGiven, r.certificateGenerated)) = some (true, false) :=
  ⟨by decide, by decide, by decide⟩

/-- C13, counterexample.  The event of the pair does not exist:
`generateCertificate` still returns a summary (with a newly made id and the
title "Unknown Event") and marks the enrollment record as certificate
generated. -/
theorem missing_event_counterexample :
    findEvent workshop attendedStoreNoEvent.events = none ∧
    (generateCertificate sampleLib calmEnv attendedStoreNoEvent (.scalar (.str alice))
        (.scalar (.str workshop)) (.scalar (.str "Alice A."))).2.toOption.map
        (fun c => (c.certificateId, c.eventTitle))
      = some ("CERT-1700000000001-Z8Y7X6W5V", "Unknown Event") ∧
    (findEnrollment alice workshop
        (generateCertificate sampleLib calmEnv attendedStoreNoEvent (.scalar (.str alice))
          (.scalar (.str workshop)) (.scalar (.str "Alice A."))).1.participantEvents).map
        (fun r => (r.certificateGenerated, r.certificateId))
      = some (true, some "CERT-1700000000001-Z8Y7X6W5V") :=
  ⟨by decide, by decide, by decide⟩

/-- C13, amended.  When the event or the participant of the call does not exist
(ids well-formed, lookups not throwing), the try block of `generateCertificate`
fails with `eventNotFound` / `participantNotFound` and no certificate is
created; but the catch block takes over: unless its update throws,
`generateCertificate` returns the fallback summary and marks the enrollment
record of the pair as certificate generated with the fallback id. -/
theorem missing_event_or_participant (lib : Lib) (env : Env) (s : Store)
    (participantId eventId participantName : JsVal) (p e : Id)
    (hp : lib.castId participantId = some p) (he : lib.castId eventId = some e)
    (h1 : env.fails .eventFind = false) (h2 : env.fails .userFind = false)
    (hmissing : findEvent e s.events = none ∨ findUser p s.users = none) :
    ((generateCertificateTry lib env s participantId eventId = (s, .error .eventNotFound) ∧
        findEvent e s.events = none) ∨
      (generateCertificateTry lib env s participantId eventId = (s, .error .participantNotFound) ∧
        findUser p s.users = none)) ∧
    (generateCertificate lib env s participantId eventId participantName).1.certificates
      = s.certificates ∧
    (env.fails .enrollmentMarkFallback = false →
      generateCertificate lib env s participantId eventId participantName
        = ({ s with
              participantEvents :=
                updateEnrollment p e
                  (markCertificate env.fallbackNow
                    (certificateIdOf env.fallbackNow env.fallbackRandom))
                  s.participantEvents },
            .ok (fallbackCertificate env participantId eventId participantName))) := by
  have htry : (generateCertificateTry lib env s participantId eventId = (s, .error .eventNotFound) ∧
        findEvent e s.events = none) ∨
      (generateCertificateTry lib env s participantId eventId = (s, .error .participantNotFound) ∧
        findUser p s.users = none) := by
    cases hev : findEvent e s.events with
    | none =>
      left
      exact ⟨by unfold generateCertificateTry; simp [he, h1, hev], rfl⟩
    | some event =>
      right
      have hu : findUser p s.users = none := by
        rcases hmissing with h | h
        · rw [hev] at h; cases h
        · exact h
      exact ⟨by unfold generateCertificateTry; simp [hp, he, h1, h2, hev, hu], hu⟩
  refine ⟨htry, ?_, ?_⟩
  · rcases htry with ⟨h, _⟩ | ⟨h, _⟩ <;>
    · unfold generateCertificate
      rw [h]
      exact (generateCertificateCatch_effect lib env s participantId eventId participantName
        _ rfl).2.2.2.1
  · intro h3
    rcases htry with ⟨h, _⟩ | ⟨h, _⟩ <;>
    · unfold generateCertificate
      rw [h]
      simp [generateCertificateCatch, h3, hp, he]

/-- Witness for C13: the sample pair with the event collection empty. -/
theorem missing_event_or_participant_witness :
    findEvent workshop attendedStoreNoEvent.events = none ∧
    (generateCertificate sampleLib calmEnv attendedStoreNoEvent (.scalar (.str alice))
        (.scalar (.str workshop)) (.scalar (.str "Alice A."))).1.certificates
      = attendedStoreNoEvent.certificates :=
  ⟨by decide,
    (missing_event_or_participant sampleLib calmEnv attendedStoreNoEvent (.scalar (.str alice))
      (.scalar (.str workshop)) (.scalar (.str "Alice A.")) alice workshop
      (by decide) (by decide) (by decide) (by decide) (Or.inl (by decide))).2.1⟩

/-- C14, the code at the failing input.  Saving the certificate throws inside the
try block, and then the update in the catch block throws: `generateCertificate`
returns no fallback summary, the second exception propagates. -/
theorem fallback_update_propagates :
    (generateCertificateTry sampleLib storeDownEnv feedbackGivenStore (.scalar (.str alice))
        (.scalar (.str workshop))).2 = .error (.thrown .certificateSave) ∧
    (generateCertificate sampleLib storeDownEnv feedbackGivenStore (.scalar (.str alice))
        (.scalar (.str workshop)) (.scalar (.str "Alice A."))).2
      = .error .enrollmentMarkFallback :=
  ⟨rfl, rfl⟩

/-! ## Back-reference integrity -/

theorem store_eq {s t : Store} (h1 : t.participantEvents = s.participantEvents)
    (h2 : t.feedbacks = s.feedbacks) (h3 : t.certificates = s.certificates)
    (h4 : t.events = s.events) (h5 : t.users = s.users) : t = s := by
  cases s; cases t; simp_all

theorem findEnrollment_matches {p e : Id} {rs : List ParticipantEvent} {r : ParticipantEvent}
    (h : findEnrollment p e rs = some r) : r.participantId = p ∧ r.eventId = e := by
  have := List.find?_some h
  simpa [ParticipantEvent.matches] using this

theorem generateCertificate_backReference (lib : Lib) (env : Env) (s : Store)
    (participantId eventId participantName : JsVal)
    (hq : env.issuesCleanly = true)
    (hr : resolvable lib s.events s.users participantId eventId = true)
    (hs : BackReference s) :
    BackReference (generateCertificate lib env s participantId eventId participantName).1 := by
  simp only [Env.issuesCleanly, Bool.and_eq_true, Bool.not_eq_true'] at hq
  obtain ⟨⟨⟨⟨⟨⟨q1, q2⟩, q3⟩, q4⟩, q5⟩, q6⟩, q7⟩ := hq
  cases hp : lib.castId participantId with
  | none =>
    have : (generateCertificate lib env s participantId eventId participantName).1 = s := by
      obtain ⟨h1, h2, h3, h4, h5⟩ := generateCertificate_effect lib env s participantId eventId
        participantName
      refine store_eq ?_ h1 ?_ h2 h3
      · rcases h4 with h4 | ⟨p, e, d, c, hp1, _⟩
        · exact h4
        · rw [hp] at hp1; cases hp1
      · rcases h5 with h5 | ⟨p, e, c, hp1, _⟩
        · exact h5
        · rw [hp] at hp1; cases hp1
    rw [this]; exact hs
  | some p =>
    cases he : lib.castId eventId with
    | none =>
      have : (generateCertificate lib env s participantId eventId participantName).1 = s := by
        obtain ⟨h1, h2, h3, h4, h5⟩ := generateCertificate_effect lib env s participantId eventId
          participantName
        refine store_eq ?_ h1 ?_ h2 h3
        · rcases h4 with h4 | ⟨p, e, d, c, _, he1, _⟩
          · exact h4
          · rw [he] at he1; cases he1
        · rcases h5 with h5 | ⟨p, e, c, _, he1, _⟩
          · exact h5
          · rw [he] at he1; cases he1
      rw [this]; exact hs
    | some e =>
      simp only [resolvable, hp, he, Bool.and_eq_true, Option.isSome_iff_exists] at hr
      obtain ⟨⟨event, hev⟩, ⟨participant, hu⟩⟩ := hr
      cases hc : findCertificate p e s.certificates with
      | some existing =>
        have : generateCertificate lib env s participantId eventId participantName
            = (s, .ok (existingSummary existing)) := by
          unfold generateCertificate generateCertificateTry
          simp [hp, he, hev, hu, hc, q1, q2, q3]
        rw [this]; exact hs
      | none =>
        have hgen : ∃ buffer, generateCertificate lib env s participantId eventId participantName
            = ({ s with
                  certificates :=
                    s.certificates ++ [newCertificate lib env p e event participant buffer]
                  participantEvents :=
                    updateEnrollment p e
                      (markCertificate env.now (certificateIdOf env.now env.random))
                      s.participantEvents },
                .ok (createdSummary env event participant)) := by
          unfold generateCertificate generateCertificateTry
          simp only [hp, he, hev, hu, hc, q1, q2, q3, q4, q5, q6, q7]
          cases generateCertificateImage env <;> exact ⟨_, rfl⟩
        obtain ⟨buffer, hgen⟩ := hgen
        rw [hgen]
        intro r hr hcg
        rcases mem_updateEnrollment hr with h1 | ⟨r0, h1, h2⟩
        · obtain ⟨c, hc1, hc2⟩ := hs r h1 hcg
          exact ⟨c, List.mem_append_left _ hc1, hc2⟩
        · subst h2
          obtain ⟨hm1, hm2⟩ := findEnrollment_matches h1
          exact ⟨_, List.mem_append_right _ (List.mem_singleton_self _), hm1.symm, hm2.symm, rfl⟩

theorem step_events_users (lib : Lib) (s : Store) (c : Call) :
    (step lib s c).events = s.events ∧ (step lib s c).users = s.users := by
  cases c with
  | register env user participantId eventId =>
    show (registerEvent lib env s user participantId eventId).1.events = _ ∧
      (registerEvent lib env s user participantId eventId).1.users = _
    generalize h : registerEvent lib env s user participantId eventId = out
    unfold registerEvent at h
    repeat' (split at h)
    all_goals (subst h; exact ⟨rfl, rfl⟩)
  | attend p e => exact ⟨rfl, rfl⟩
  | feedback env req =>
    show (giveFeedback lib env s req).1.events = _ ∧ (giveFeedback lib env s req).1.users = _
    rcases giveFeedback_inv lib env s req _ rfl with ⟨h, _⟩ | ⟨p, e, r, fb, _, _, _, _, _, _, h | h⟩
    · rw [h]; exact ⟨rfl, rfl⟩
    · rw [h]; exact ⟨rfl, rfl⟩
    · rw [h]
      have := generateCertificate_effect lib env ((s.addFeedback fb).markFeedbackGiven p e env.now)
        req.participantId req.eventId req.name
      exact ⟨this.2.1, this.2.2.1⟩
  | issue env participantId eventId participantName =>
    have := generateCertificate_effect lib env s participantId eventId participantName
    exact ⟨this.2.1, this.2.2.1⟩

theorem step_backReference (lib : Lib) (s : Store) (c : Call)
    (hc : c.issuesNormally lib s.events s.users = true) (hs : BackReference s) :
    BackReference (step lib s c) := by
  cases c with
  | register env user participantId eventId =>
    show BackReference (registerEvent lib env s user participantId eventId).1
    generalize h : registerEvent lib env s user participantId eventId = out
    unfold registerEvent at h
    repeat' (split at h)
    all_goals (subst h; try exact hs)
    intro r hr hcg
    simp only [List.mem_append, List.mem_singleton] at hr
    rcases hr with hr | hr
    · exact hs r hr hcg
    · subst hr
      simp [newEnrollment] at hcg
  | attend p e =>
    intro r hr hcg
    rcases mem_updateEnrollment hr with h1 | ⟨r0, h1, h2⟩
    · exact hs r h1 hcg
    · subst h2
      exact hs r0 (List.mem_of_find?_eq_some h1) hcg
  | feedback env req =>
    simp only [Call.issuesNormally, Bool.and_eq_true] at hc
    show BackReference (giveFeedback lib env s req).1
    rcases giveFeedback_inv lib env s req _ rfl with ⟨h, _⟩ | ⟨p, e, r, fb, _, _, _, _, _, _, h | h⟩
    · rw [h]; exact hs
    · rw [h]; exact hs
    · rw [h]
      refine generateCertificate_backReference lib env
        ((s.addFeedback fb).markFeedbackGiven p e env.now) req.participantId req.eventId req.name
        hc.1 hc.2 ?_
      intro x hx hcg
      rcases mem_updateEnrollment hx with h1 | ⟨r0, h1, h2⟩
      · exact hs x h1 hcg
      · subst h2
        exact hs r0 (List.mem_of_find?_eq_some h1) hcg
  | issue env participantId eventId participantName =>
    simp only [Call.issuesNormally, Bool.and_eq_true] at hc
    exact generateCertificate_backReference lib env s _ _ _ hc.1 hc.2 hs

/-- C15, counterexample.  The sample participant registers for an event that has
no document, attends and gives feedback; no call throws.  The record ends with
`certificateGenerated = true` and a fallback id, and no certificate exists. -/
theorem back_reference_counterexample :
    ((run sampleLib (emptyStore [] sampleUsers) sampleCalls).participantEvents.map
      (fun r => (r.certificateGenerated, r.certificateId)))
      = [(true, some "CERT-1700000000001-Z8Y7X6W5V")] ∧
    (run sampleLib (emptyStore [] sampleUsers) sampleCalls).certificates = [] :=
  ⟨by decide, by decide⟩

/-- C15, amended.  In every store reached from the empty store by calls whose
certificate generation runs on the normal path (the event and the participant
of the pair exist and no call of the try block but the image pipeline throws),
every enrollment record with `certificateGenerated = true` has a certificate
stored for the same pair whose `certificateId` is the record's. -/
theorem back_reference (lib : Lib) (events : List Event) (users : List User)
    (calls : List Call) (h : ∀ c ∈ calls, c.issuesNormally lib events users = true) :
    ∀ r ∈ (run lib (emptyStore events users) calls).participantEvents,
      r.certificateGenerated = true →
      ∃ c ∈ (run lib (emptyStore events users) calls).certificates,
        c.participantId = r.participantId ∧ c.eventId = r.eventId ∧
        r.certificateId = some c.certificateId := by
  suffices H : ∀ (s : Store), s.events = events → s.users = users → BackReference s →
      BackReference (run lib s calls) by
    exact H _ rfl rfl (by intro r hr; simp [emptyStore] at hr)
  induction calls with
  | nil => intro s _ _ hs; exact hs
  | cons c cs ih =>
    intro s he hu hs
    have hc := h c (List.mem_cons_self _ _)
    rw [← he, ← hu] at hc
    have hev := step_events_users lib s c
    exact ih (fun x hx => h x (List.mem_cons_of_mem _ hx)) _ (hev.1.trans he) (hev.2.trans hu)
      (step_backReference lib s c hc hs)

/-- Witness for C15: the sample scenario. -/
theorem back_reference_witness :
    (∀ c ∈ sampleCalls, c.issuesNormally sampleLib sampleEvents sampleUsers = true) ∧
    ((run sampleLib (emptyStore sampleEvents sampleUsers) sampleCalls).participantEvents.map
      (fun r => (r.certificateGenerated, r.certificateId)))
      = [(true, some "CERT-1700000000000-K3J9X7Q2M")] ∧
    ∀ r ∈ (run sampleLib (emptyStore sampleEvents sampleUsers) sampleCalls).participantEvents,
      r.certificateGenerated = true →
      ∃ c ∈ (run sampleLib (emptyStore sampleEvents sampleUsers) sampleCalls).certificates,
        c.participantId = r.participantId ∧ c.eventId = r.eventId ∧
        r.certificateId = some c.certificateId :=
  ⟨by decide, by decide,
    back_reference sampleLib sampleEvents sampleUsers sampleCalls (by decide)⟩

/-! ## A duplicate at the save -/

theorem generateCertificateInterleaved_self (lib : Lib) (env : Env) (s : Store)
    (participantId eventId participantName : JsVal)
    (out : Store × Except Op CertificateSummary)
    (h : generateCertificateInterleaved lib env s s participantId eventId participantName
      = some out) :
    generateCertificate lib env s participantId eventId participantName = out := by
  unfold generateCertificateInterleaved at h
  split at h
  · cases h
  · rename_i hf
    simp only [Bool.or_eq_true, not_or, Bool.not_eq_true] at hf
    obtain ⟨⟨f1, f2⟩, f3⟩ := hf
    split at h
    · rename_i p e hp he
      split at h
      · rename_i event participant hev hu hc
        unfold generateCertificate generateCertificateTry
        simp only [f1, f2, f3, hp, he, hev, hu, hc]
        unfold generateCertificateIssue at h
        cases h4 : env.fails .loadModules <;> cases h5 : env.fails .signerFind <;>
          cases h6 : env.fails .certificateSave <;>
          cases h7 : env.fails .enrollmentMarkCertificate <;>
          cases h8 : generateCertificateImage env <;>
          simp_all [Except.toOption]
      · cases h
    · cases h

/-- C16, counterexample.  The lookup finds no certificate for the sample pair,
another request then stores one, and the save throws on the duplicate:
the summary returned carries a newly made id, not the id of the existing
certificate, and the record's `certificateId` is set to that new id. -/
theorem duplicate_save_counterexample :
    findCertificate alice workshop feedbackGivenStore.certificates = none ∧
    (findCertificate alice workshop feedbackGivenStoreRaced.certificates).map
        (fun c => c.certificateId) = some "CERT-1700000000000-K3J9X7Q2M" ∧
    (generateCertificateInterleaved sampleLib saveFailEnv feedbackGivenStore
        feedbackGivenStoreRaced (.scalar (.str alice)) (.scalar (.str workshop))
        (.scalar (.str "Alice A."))).map
        (fun out => (out.2.toOption.map (fun c => c.certificateId),
          (findEnrollment alice workshop out.1.participantEvents).map
            (fun r => r.certificateId)))
      = some (some "CERT-1700000000001-Z8Y7X6W5V",
          some (some "CERT-1700000000001-Z8Y7X6W5V")) ∧
    "CERT-1700000000001-Z8Y7X6W5V" ≠ "CERT-1700000000000-K3J9X7Q2M" :=
  ⟨by decide, by decide, by decide, by decide⟩

/-- C16, amended.  When the save of the new certificate throws (a uniqueness
violation included) while a certificate for the pair exists by then, and the
update of the catch block does not throw, `generateCertificate` does not fail:
it returns the fallback summary, whose `certificateId` is newly made; the
existing certificate stays as it is, and the enrollment record's
`certificateId` becomes the fallback id. -/
theorem duplicate_save_falls_back (lib : Lib) (env : Env) (s t : Store)
    (participantId eventId participantName : JsVal) (p e : Id)
    (event : Event) (participant : User) (existing : Certificate)
    (hp : lib.castId participantId = some p) (he : lib.castId eventId = some e)
    (hev : findEvent e s.events = some event) (hu : findUser p s.users = some participant)
    (hnone : findCertificate p e s.certificates = none)
    (hexisting : findCertificate p e t.certificates = some existing)
    (h1 : env.fails .eventFind = false) (h2 : env.fails .userFind = false)
    (h3 : env.fails .certificateFind = false) (h4 : env.fails .loadModules = false)
    (h5 : env.fails .signerFind = false) (hsave : env.fails .certificateSave = true)
    (h6 : env.fails .enrollmentMarkFallback = false) :
    generateCertificateInterleaved lib env s t participantId eventId participantName
      = some ({ t with
                participantEvents :=
                  updateEnrollment p e
                    (markCertificate env.fallbackNow
                      (certificateIdOf env.fallbackNow env.fallbackRandom))
                    t.participantEvents },
              .ok (fallbackCertificate env participantId eventId participantName)) ∧
    (fallbackCertificate env participantId eventId participantName).certificateId
      = certificateIdOf env.fallbackNow env.fallbackRandom ∧
    (∀ out, generateCertificateInterleaved lib env s t participantId eventId participantName
        = some out → findCertificate p e out.1.certificates = some existing) ∧
    (∀ r, findEnrollment p e t.participantEvents = some r →
      (findEnrollment p e
        (updateEnrollment p e
          (markCertificate env.fallbackNow (certificateIdOf env.fallbackNow env.fallbackRandom))
          t.participantEvents)).map (fun x => x.certificateId)
        = some (some (certificateIdOf env.fallbackNow env.fallbackRandom))) := by
  have hrun : generateCertificateInterleaved lib env s t participantId eventId participantName
      = some ({ t with
                participantEvents :=
                  updateEnrollment p e
                    (markCertificate env.fallbackNow
                      (certificateIdOf env.fallbackNow env.fallbackRandom))
                    t.participantEvents },
              .ok (fallbackCertificate env participantId eventId participantName)) := by
    simp [generateCertificateInterleaved, generateCertificateIssue, generateCertificateCatch,
      hp, he, hev, hu, hnone, h1, h2, h3, h4, h5, hsave, h6]
  refine ⟨hrun, rfl, ?_, ?_⟩
  · intro out hout
    rw [hrun] at hout
    cases hout
    exact hexisting
  · intro r hr
    rw [findEnrollment_updateEnrollment (markCertificate_matches _ _ p e), hr]
    rfl

/-- Witness for C16: the sample pair, with the certificate of another request
stored between the lookup and the save. -/
theorem duplicate_save_falls_back_witness :
    findCertificate alice workshop feedbackGivenStore.certificates = none ∧
    findCertificate alice workshop feedbackGivenStoreRaced.certificates
      = some aliceCertificate ∧
    saveFailEnv.fails .certificateSave = true ∧
    generateCertificateInterleaved sampleLib saveFailEnv feedbackGivenStore
        feedbackGivenStoreRaced (.scalar (.str alice)) (.scalar (.str workshop))
        (.scalar (.str "Alice A."))
      = some ({ feedbackGivenStoreRaced with
                participantEvents :=
                  updateEnrollment alice workshop
                    (markCertificate saveFailEnv.fallbackNow
                      (certificateIdOf saveFailEnv.fallbackNow saveFailEnv.fallbackRandom))
                    feedbackGivenStoreRaced.participantEvents },
              .ok (fallbackCertificate saveFailEnv (.scalar (.str alice))
                (.scalar (.str workshop)) (.scalar (.str "Alice A.")))) :=
  ⟨by decide, by rfl, by decide,
    (duplicate_save_falls_back sampleLib saveFailEnv feedbackGivenStore feedbackGivenStoreRaced
      (.scalar (.str alice)) (.scalar (.str workshop)) (.scalar (.str "Alice A."))
      alice workshop workshopEvent aliceUser aliceCertificate
      (by decide) (by decide) (by decide) (by decide) (by decide) (by rfl)
      (by decide) (by decide) (by decide) (by decide) (by decide) (by decide) (by decide)).1⟩

/-! ## The format of a certificate id -/

theorem digitChar_isDigit (d : Nat) (h : d < 10) : (Nat.digitChar d).isDigit = true := by
  interval_cases d <;> rfl

theorem toDigitsCore_isDigit (fuel n : Nat) (ds : List Char)
    (hds : ∀ c ∈ ds, c.isDigit = true) :
    ∀ c ∈ Nat.toDigitsCore 10 fuel n ds, c.isDigit = true := by
  induction fuel generalizing n ds with
  | zero => simpa [Nat.toDigitsCore] using hds
  | succ fuel ih =>
    have hd : ∀ c ∈ Nat.digitChar (n % 10) :: ds, c.isDigit = true := by
      intro c hc
      rcases List.mem_cons.1 hc with hc | hc
      · rw [hc]; exact digitChar_isDigit _ (Nat.mod_lt _ (by decide))
      · exact hds c hc
    unfold Nat.toDigitsCore
    simp only
    split
    · exact hd
    · exact ih _ _ hd

theorem toDigitsCore_ne_nil (fuel n : Nat) (ds : List Char) (hds : ds ≠ []) :
    Nat.toDigitsCore 10 fuel n ds ≠ [] := by
  induction fuel generalizing n ds with
  | zero => simpa [Nat.toDigitsCore] using hds
  | succ fuel ih =>
    unfold Nat.toDigitsCore
    simp only
    split
    · simp
    · exact ih _ _ (by simp)

theorem repr_ne_nil (t : Nat) : (toString t).data ≠ [] := by
  show (Nat.repr t).data ≠ []
  unfold Nat.repr Nat.toDigits Nat.toDigitsCore
  simp only
  split
  · simp [List.asString]
  · exact toDigitsCore_ne_nil _ _ _ (by simp)

theorem repr_isDigit (t : Nat) : ∀ c ∈ (toString t).data, c.isDigit = true := by
  show ∀ c ∈ (Nat.repr t).data, c.isDigit = true
  unfold Nat.repr Nat.toDigits
  exact toDigitsCore_isDigit _ _ _ (by simp)

theorem lower_bounds (c : Char) (h : c.isLower = true) : 97 ≤ c.toNat ∧ c.toNat ≤ 122 := by
  simp only [Char.isLower, Bool.and_eq_true, decide_eq_true_eq, ge_iff_le] at h
  exact h

theorem digit_bounds (c : Char) (h : c.isDigit = true) : 48 ≤ c.toNat ∧ c.toNat ≤ 57 := by
  simp only [Char.isDigit, Bool.and_eq_true, decide_eq_true_eq, ge_iff_le] at h
  exact h

theorem toUpper_isUpperAlnum (c : Char) (h : isBase36 c = true) :
    isUpperAlnum c.toUpper = true := by
  unfold isBase36 at h
  rw [Bool.or_eq_true] at h
  rcases h with hd | hl
  · have hb := digit_bounds c hd
    have : c.toUpper = c := by
      unfold Char.toUpper
      simp only
      rw [if_neg]
      omega
    rw [this]
    simp [isUpperAlnum, hd]
  · have hb := lower_bounds c hl
    unfold Char.toUpper
    simp only
    rw [if_pos (show c.toNat ≥ 97 ∧ c.toNat ≤ 122 from hb)]
    generalize c.toNat = n at hb
    obtain ⟨h1, h2⟩ := hb
    interval_cases n <;> rfl

theorem certificateSuffix_length (random : String) : (certificateSuffix random).length ≤ 9 := by
  simp [certificateSuffix, List.length_take]

theorem certificateSuffix_of_digits (random : String) (ds : List Char)
    (h : random.data = '0' :: '.' :: ds) (hds : ∀ c ∈ ds, isBase36 c = true) :
    (∀ c ∈ certificateSuffix random, isUpperAlnum c = true) ∧
    (certificateSuffix random).length = min 9 ds.length := by
  unfold certificateSuffix
  rw [h]
  simp only [List.drop_succ_cons, List.drop_zero, List.length_map, List.length_take, and_true]
  intro c hc
  obtain ⟨d, hd, rfl⟩ := List.mem_map.1 hc
  exact toUpper_isUpperAlnum d (hds d (List.mem_of_mem_take hd))

/-- C17, counterexample.  The draw `1/2` is written `0.i` in base 36, so the id
is `CERT-1700000000000-I`, with a one-character suffix; the draw `0` gives an
empty suffix. -/
theorem certificate_id_format_counterexample :
    toString36 (1 / 2) = "0.i" ∧
    certificateIdOf 1700000000000 (toString36 (1 / 2)) = "CERT-1700000000000-I" ∧
    (certificateSuffix (toString36 (1 / 2))).length = 1 ∧
    certificateIdOf 1700000000000 (toString36 0) = "CERT-1700000000000-" :=
  ⟨by with_unfolding_all decide, by with_unfolding_all decide, by with_unfolding_all decide,
    by with_unfolding_all decide⟩

/-- C17, amended.  A certificate id is `CERT-`, the decimal digits of the
timestamp, `-`, and a suffix of at most nine characters: characters 2 to 10 of
the base-36 text of the draw, in upper case.  When that text is `0.` followed
by base-36 digits, every suffix character is in `[A-Z0-9]` and the suffix has
nine characters exactly when there are at least nine such digits.  The ids of
the normal and of the fallback path are both built this way. -/
theorem certificate_id_format (t : Nat) (random : String) :
    certificateIdOf t random
      = "CERT-" ++ toString t ++ "-" ++ String.mk (certificateSuffix random) ∧
    (toString t).data ≠ [] ∧ (∀ c ∈ (toString t).data, c.isDigit = true) ∧
    (certificateSuffix random).length ≤ 9 ∧
    (∀ ds, random.data = '0' :: '.' :: ds → (∀ c ∈ ds, isBase36 c = true) →
      (∀ c ∈ certificateSuffix random, isUpperAlnum c = true) ∧
      (certificateSuffix random).length = min 9 ds.length) ∧
    (∀ (lib : Lib) (env : Env) (p e : Id) (event : Event) (participant : User)
        (buffer : Option (List Nat)) (participantId eventId participantName : JsVal),
      (newCertificate lib env p e event participant buffer).certificateId
        = certificateIdOf env.now env.random ∧
      (fallbackCertificate env participantId eventId participantName).certificateId
        = certificateIdOf env.fallbackNow env.fallbackRandom) := by
  refine ⟨rfl, ?_, repr_isDigit t, certificateSuffix_length random,
    fun ds h hds => certificateSuffix_of_digits random ds h hds, ?_⟩
  · exact repr_ne_nil t
  · intros; exact ⟨rfl, rfl⟩

/-- Witness for C17: the draw of the calm environment has ten base-36 digits. -/
theorem certificate_id_format_witness :
    certificateIdOf 1700000000000 "0.k3j9x7q2m5p" = "CERT-1700000000000-K3J9X7Q2M" ∧
    (∀ c ∈ certificateSuffix "0.k3j9x7q2m5p", isUpperAlnum c = true) ∧
    (certificateSuffix "0.k3j9x7q2m5p").length = min 9 "k3j9x7q2m5p".data.length :=
  ⟨by decide,
    (certificate_id_format 1700000000000 "0.k3j9x7q2m5p").2.2.2.2.1 "k3j9x7q2m5p".data rfl
      (by decide)⟩

/-! ## Preview, verification and listing -/

theorem previewPermission_granted (lib : Lib) (env : Env) (s : Store) (certificate : Certificate)
    (userId : Option String)
    (h : previewPermission lib env s certificate userId = .granted) :
    userId = none ∨ userId = some "" ∨ userId = some certificate.participantId ∨
    ∃ u caller user, userId = some u ∧ lib.castId (.scalar (.str u)) = some caller ∧
      findUser caller s.users = some user ∧ user.role ∈ elevatedRoles := by
  cases userId with
  | none => exact Or.inl rfl
  | some u =>
    by_cases hu : u = ""
    · exact Or.inr (Or.inl (by rw [hu]))
    · simp only [previewPermission, hu, if_false] at h
      cases howner : findUser certificate.participantId s.users with
      | none => rw [howner] at h; cases h
      | some owner =>
        rw [howner] at h
        simp only at h
        have hid : owner.id = certificate.participantId := by
          have := List.find?_some howner
          simpa using this
        by_cases hne : owner.id = u
        · right; right; left
          rw [← hid, hne]
        · right; right; right
          rw [if_pos hne] at h
          cases hf : env.fails .callerFind with
          | true => rw [hf] at h; cases h
          | false =>
            rw [hf] at h
            simp only [Bool.false_eq_true, if_false] at h
            cases hcast : lib.castId (.scalar (.str u)) with
            | none => rw [hcast] at h; cases h
            | some caller =>
              rw [hcast] at h
              simp only at h
              cases huser : findUser caller s.users with
              | none => rw [huser] at h; cases h
              | some user =>
                rw [huser] at h
                simp only at h
                by_cases hrole : user.role ∈ elevatedRoles
                · exact ⟨u, caller, user, rfl, hcast, huser, hrole⟩
                · rw [if_neg hrole] at h; cases h

/-- C18, counterexample.  A request without an authenticated user id for the
sample participant's certificate is answered 200 with the certificate data, by
both preview handlers. -/
theorem preview_without_user :
    (findCertificateById "CERT-1700000000000-K3J9X7Q2M" issuedStore.certificates).map
        (fun c => c.participantId) = some alice ∧
    (getCertificatePreview sampleLib calmEnv issuedStore "CERT-1700000000000-K3J9X7Q2M"
        none).status = 200 ∧
    (getCertificatePreview sampleLib calmEnv issuedStore "CERT-1700000000000-K3J9X7Q2M"
        none).data.map (fun d => (d.participantName, d.participantEmail))
      = some ("Alice", "alice@example.org") ∧
    (getCertificateImagePreview sampleLib calmEnv issuedStore "CERT-1700000000000-K3J9X7Q2M"
        none).status = 200 :=
  ⟨by decide, by decide, by decide, by decide⟩

/-- C18, amended.  For an existing certificate, the preview handlers return
certificate data only if the caller carries no user id, is the owning
participant, or is a user whose role is admin, coordinator or hod; a caller with
a user id who is not the owner and is unknown or has another role is answered
403 (when the owner's record exists and the lookups do not throw). -/
theorem preview_authorization (lib : Lib) (env : Env) (s : Store) (certificateId : String)
    (userId : Option String) (certificate : Certificate)
    (hfind : findCertificateById certificateId s.certificates = some certificate) :
    ((∃ data, getCertificatePreview lib env s certificateId userId = .ok 200 data) ∨
      (∃ data, getCertificateImagePreview lib env s certificateId userId = .ok 200 data) →
      userId = none ∨ userId = some "" ∨ userId = some certificate.participantId ∨
      ∃ u caller user, userId = some u ∧ lib.castId (.scalar (.str u)) = some caller ∧
        findUser caller s.users = some user ∧ user.role ∈ elevatedRoles) ∧
    (∀ u owner caller, userId = some u → u ≠ "" → env.fails .certificateById = false →
      findUser certificate.participantId s.users = some owner → u ≠ certificate.participantId →
      env.fails .callerFind = false → lib.castId (.scalar (.str u)) = some caller →
      (∀ user, findUser caller s.users = some user → user.role ∉ elevatedRoles) →
      getCertificatePreview lib env s certificateId userId
        = .failed 403 "You do not have permission to view this certificate" ∧
      getCertificateImagePreview lib env s certificateId userId
        = .failed 403 "You do not have permission to view this certificate") := by
  constructor
  · intro h
    apply previewPermission_granted lib env s certificate userId
    rcases h with ⟨data, h⟩ | ⟨data, h⟩
    · cases hperm : previewPermission lib env s certificate userId with
      | granted => rfl
      | denied =>
        simp only [getCertificatePreview, hfind, hperm] at h
        split at h <;> cases h
      | crashed =>
        simp only [getCertificatePreview, hfind, hperm] at h
        split at h <;> cases h
    · cases hperm : previewPermission lib env s certificate userId with
      | granted => rfl
      | denied =>
        simp only [getCertificateImagePreview, hfind, hperm] at h
        split at h <;> cases h
      | crashed =>
        simp only [getCertificateImagePreview, hfind, hperm] at h
        split at h <;> cases h
  · intro u owner caller hu hne hf howner hnot hcf hcast hrole
    have hid : owner.id = certificate.participantId := by
      have := List.find?_some howner
      simpa using this
    have hperm : previewPermission lib env s certificate userId = .denied := by
      subst hu
      have hne2 : owner.id ≠ u := fun h => hnot (by rw [← hid, h])
      simp only [previewPermission, hne, if_false, howner, hcf, hcast, if_pos hne2,
        Bool.false_eq_true]
      cases huser : findUser caller s.users with
      | none => rfl
      | some user => simp [hrole user huser]
    constructor
    · simp [getCertificatePreview, hf, hfind, hperm]
    · simp [getCertificateImagePreview, hf, hfind, hperm]

/-- Witness for C18: an unknown user asks for the sample participant's
certificate. -/
theorem preview_authorization_witness :
    findCertificateById "CERT-1700000000000-K3J9X7Q2M" issuedStore.certificates
      = some aliceCertificate ∧
    findUser "64b0000000000000000000b2" issuedStore.users = none ∧
    getCertificatePreview sampleLib calmEnv issuedStore "CERT-1700000000000-K3J9X7Q2M"
        (some "64b0000000000000000000b2")
      = .failed 403 "You do not have permission to view this certificate" :=
  ⟨by rfl, by decide,
    ((preview_authorization sampleLib calmEnv issuedStore "CERT-1700000000000-K3J9X7Q2M"
      (some "64b0000000000000000000b2") aliceCertificate (by rfl)).2
      "64b0000000000000000000b2" aliceUser "64b0000000000000000000b2" rfl (by decide)
      (by decide) (by decide) (by decide) (by decide) (by decide)
      (fun user h =>
        absurd ((show findUser "64b0000000000000000000b2" issuedStore.users = none by
          decide).symm.trans h) (by simp))).1⟩

/-- C19, counterexample.  After a feedback call in which the update recording the
new certificate threw, the certificate is stored under one id and the
enrollment record carries the fallback id: verifying the stored certificate's
id answers `valid = false`, verifying the fallback id answers `valid = true`
although no certificate has that id. -/
theorem verification_counterexample :
    issuedStoreMarkFailed.certificates.map (fun c => c.certificateId)
      = ["CERT-1700000000000-K3J9X7Q2M"] ∧
    (verifyCertificate calmEnv issuedStoreMarkFailed "CERT-1700000000000-K3J9X7Q2M").valid
      = false ∧
    (verifyCertificate calmEnv issuedStoreMarkFailed "CERT-1700000000001-Z8Y7X6W5V").valid
      = true ∧
    findCertificateById "CERT-1700000000001-Z8Y7X6W5V" issuedStoreMarkFailed.certificates
      = none :=
  ⟨by decide, by decide, by decide, by decide⟩

/-- C19, amended.  `verifyCertificate` always replies.  It answers
`valid = true` if and only if the lookup does not throw, some enrollment record
carries the id as its `certificateId`, and the participant and the event of that
record exist; the `certificate` object then holds the participant's name, the
event's title, the record's `certificateGeneratedDate` and the id, and nothing
else.  An id carried by no enrollment record is answered 404 with
`valid = false`, and a reply with `valid = false` has no `certificate`. -/
theorem verification_by_enrollment (env : Env) (s : Store) (certificateId : String) :
    ((verifyCertificate env s certificateId).valid = true ↔
      env.fails .enrollmentByCertificate = false ∧
      ∃ r participant event,
        findEnrollmentByCertificate certificateId s.participantEvents = some r ∧
        findUser r.participantId s.users = some participant ∧
        findEvent r.eventId s.events = some event) ∧
    (∀ r participant event, env.fails .enrollmentByCertificate = false →
      findEnrollmentByCertificate certificateId s.participantEvents = some r →
      findUser r.participantId s.users = some participant →
      findEvent r.eventId s.events = some event →
      verifyCertificate env s certificateId
        = ⟨200, true,
            some { participantName := participant.name, eventTitle := event.title,
                   issuedDate := r.certificateGeneratedDate, certificateId := some certificateId },
            none⟩) ∧
    (env.fails .enrollmentByCertificate = false →
      findEnrollmentByCertificate certificateId s.participantEvents = none →
      verifyCertificate env s certificateId
        = ⟨404, false, none, some "Certificate not found"⟩) ∧
    ((verifyCertificate env s certificateId).valid = false →
      (verifyCertificate env s certificateId).certificate = none) := by
  refine ⟨?_, ?_, ?_, ?_⟩
  · generalize h : verifyCertificate env s certificateId = out
    unfold verifyCertificate at h
    repeat' (split at h)
    all_goals (subst h; simp_all)
  · intro r participant event hf hr hu hev
    have hid : r.certificateId = some certificateId := by
      have := List.find?_some hr
      simpa using this
    simp [verifyCertificate, hf, hr, hu, hev, hid]
  · intro hf hr
    simp [verifyCertificate, hf, hr]
  · generalize h : verifyCertificate env s certificateId = out
    unfold verifyCertificate at h
    repeat' (split at h)
    all_goals (subst h; simp)

/-- Witness for C19: the id issued to the sample participant, and an unknown
id. -/
theorem verification_by_enrollment_witness :
    (verifyCertificate calmEnv issuedStore "CERT-1700000000000-K3J9X7Q2M")
      = ⟨200, true,
          some { participantName := "Alice", eventTitle := "Lean Workshop",
                 issuedDate := some 1700000000000,
                 certificateId := some "CERT-1700000000000-K3J9X7Q2M" },
          none⟩ ∧
    (verifyCertificate calmEnv issuedStore "CERT-0-UNKNOWN")
      = ⟨404, false, none, some "Certificate not found"⟩ :=
  ⟨by decide,
    (verification_by_enrollment calmEnv issuedStore "CERT-0-UNKNOWN").2.2.1 (by decide)
      (by decide)⟩

/-- C20 (listing).  When the query does not throw, `getCertificates` answers 200
with a `data` list that is a permutation of the entries of exactly the
participant's certificates, ordered by `issuedDate` non-increasing, and
`total` is its length. -/
theorem certificates_listed (lib : Lib) (env : Env) (s : Store) (participantId : String)
    (includePreview format : Option String) (p : Id)
    (hf : env.fails .certificateList = false)
    (hp : lib.castId (.scalar (.str participantId)) = some p) :
    ∃ list, getCertificates lib env s participantId includePreview format = .ok 200 list ∧
      list.data.Perm
        ((s.certificates.filter (fun c => decide (c.participantId = p))).map
          (certificateEntry lib format includePreview)) ∧
      list.data.Pairwise (fun a b => b.issuedDate ≤ a.issuedDate) ∧
      list.total = list.data.length := by
  have hrun : getCertificates lib env s participantId includePreview format
      = .ok 200
          { data :=
              List.insertionSort newestFirst
                ((findByParticipant p s.certificates).map
                  (certificateEntry lib format includePreview))
            total :=
              (List.insertionSort newestFirst
                ((findByParticipant p s.certificates).map
                  (certificateEntry lib format includePreview))).length
            format := format.getD "summary"
            includePreview := decide (includePreview = some "true") } := by
    unfold getCertificates
    rw [hf, hp]
    rfl
  exact ⟨_, hrun, List.perm_insertionSort _ _, List.sorted_insertionSort newestFirst _, rfl⟩

/-- Witness for C20: two certificates of the sample participant stored oldest
first, and one of somebody else. -/
theorem certificates_listed_witness :
    calmEnv.fails .certificateList = false ∧
    sampleLib.castId (.scalar (.str alice)) = some alice ∧
    (getCertificates sampleLib calmEnv twoCertificatesStore alice none none).data.map
        (fun list => (list.data.map (fun x => (x.certificateId, x.issuedDate)), list.total))
      = some ([("CERT-1800000000000-AAAAAAAAA", 1800000000000),
               ("CERT-1700000000000-K3J9X7Q2M", 1700000000000)], 2) ∧
    ∃ list, getCertificates sampleLib calmEnv twoCertificatesStore alice none none
        = .ok 200 list ∧
      list.data.Perm
        ((twoCertificatesStore.certificates.filter
            (fun c => decide (c.participantId = alice))).map
          (certificateEntry sampleLib none none)) ∧
      list.data.Pairwise (fun a b => b.issuedDate ≤ a.issuedDate) ∧
      list.total = list.data.length :=
  ⟨by decide, by decide, by decide,
    certificates_listed sampleLib calmEnv twoCertificatesStore alice none none alice
      (by decide) (by decide)⟩

/-! ## Image preview -/

/-- C21 (image preview).  With the certificate lookup not failing,
`getCertificateImagePreview` answers 404 "Certificate not found" when no
certificate has the id; for a found certificate whose caller passes the
permission check it answers 404 "Certificate image not available" exactly when
the certificate has no `certificateData`, and otherwise answers 200 with `data`
made of the certificate id, the data URL `data:image/png;base64,` followed by the
base64 text of the stored image buffer, the content type `image/png` and the
byte length of the buffer. -/
theorem image_preview (lib : Lib) (env : Env) (s : Store) (certificateId : String)
    (userId : Option String) (hf : env.fails .certificateById = false) :
    (findCertificateById certificateId s.certificates = none →
      getCertificateImagePreview lib env s certificateId userId
        = .failed 404 "Certificate not found") ∧
    (∀ certificate, findCertificateById certificateId s.certificates = some certificate →
      previewPermission lib env s certificate userId = .granted →
      (getCertificateImagePreview lib env s certificateId userId
          = .failed 404 "Certificate image not available" ↔
        certificate.certificateData = none) ∧
      (∀ stored, certificate.certificateData = some stored →
        getCertificateImagePreview lib env s certificateId userId
          = .ok 200 { certificateId := certificate.certificateId
                      imageDataUrl := "data:image/png;base64," ++ lib.base64 stored.imageBuffer
                      contentType := "image/png"
                      size := stored.imageBuffer.length })) := by
  refine ⟨?_, ?_⟩
  · intro h; simp [getCertificateImagePreview, hf, h]
  · intro certificate hfind hperm
    cases hdata : certificate.certificateData with
    | none =>
      refine ⟨?_, ?_⟩
      · simp [getCertificateImagePreview, hf, hfind, hperm, hdata]
      · intro stored h; cases h
    | some stored =>
      refine ⟨?_, ?_⟩
      · simp [getCertificateImagePreview, hf, hfind, hperm, hdata]
      · intro stored1 h; cases h
        simp [getCertificateImagePreview, hf, hfind, hperm, hdata]

/-- Witness for C21: in the sample store with an imageless second certificate an
unknown id gives 404 "Certificate not found", the imageless certificate gives
404 "Certificate image not available", and the certificate with a four-byte
image gives the data URL of those bytes with size 4. -/
theorem image_preview_witness :
    calmEnv.fails .certificateById = false ∧
    getCertificateImagePreview sampleLib calmEnv imagelessStore "CERT-0-UNKNOWN" (some alice)
      = .failed 404 "Certificate not found" ∧
    getCertificateImagePreview sampleLib calmEnv imagelessStore "CERT-1800000000000-AAAAAAAAA"
        (some alice)
      = .failed 404 "Certificate image not available" ∧
    getCertificateImagePreview sampleLib calmEnv imagelessStore "CERT-1700000000000-K3J9X7Q2M"
        (some alice)
      = .ok 200 { certificateId := "CERT-1700000000000-K3J9X7Q2M"
                  imageDataUrl := "data:image/png;base64,iVBORw=="
                  contentType := "image/png", size := 4 } :=
  ⟨by decide,
    (image_preview sampleLib calmEnv imagelessStore "CERT-0-UNKNOWN" (some alice)
      (by decide)).1 (by decide),
    by decide, by decide⟩

/-! ## Registration -/

theorem registerEvent_eq_legacy (lib : Lib) (env : Env) (s : Store) (u : AuthUser)
    (participantId eventId : JsVal)
    (h : ¬ (u.role = "participant" ∧ participantId ≠ .scalar (.str u.id))) :
    registerEvent lib env s (some u) participantId eventId
      = legacyRegisterEvent lib env s participantId eventId := by
  unfold registerEvent legacyRegisterEvent
  simp only [if_neg h]

theorem legacyRegisterEvent_effect (lib : Lib) (env : Env) (s : Store)
    (participantId eventId : JsVal) :
    (legacyRegisterEvent lib env s participantId eventId).1 = s ∨
    ∃ p e, findEnrollment p e s.participantEvents = none ∧
      (legacyRegisterEvent lib env s participantId eventId).1
        = { s with participantEvents := s.participantEvents ++ [newEnrollment p e] } := by
  generalize h : legacyRegisterEvent lib env s participantId eventId = out
  unfold legacyRegisterEvent at h
  repeat' (split at h)
  all_goals (subst h; first | exact Or.inl rfl | skip)
  rename_i p e _ _ _ hnone _
  exact Or.inr ⟨p, e, hnone, rfl⟩

theorem registerEvent_effect (lib : Lib) (env : Env) (s : Store) (user : Option AuthUser)
    (participantId eventId : JsVal) :
    (registerEvent lib env s user participantId eventId).1 = s ∨
    ∃ p e, findEnrollment p e s.participantEvents = none ∧
      (registerEvent lib env s user participantId eventId).1
        = { s with participantEvents := s.participantEvents ++ [newEnrollment p e] } := by
  generalize h : registerEvent lib env s user participantId eventId = out
  unfold registerEvent at h
  repeat' (split at h)
  all_goals (subst h; first | exact Or.inl rfl | skip)
  rename_i p e _ _ _ hnone _
  exact Or.inr ⟨p, e, hnone, rfl⟩


theorem enrollmentsOf_append (p e p1 e1 : Id) (s : Store)
    (hnone : findEnrollment p1 e1 s.participantEvents = none)
    (h : (enrollmentsOf p e s).length ≤ 1) :
    (enrollmentsOf p e
      { s with participantEvents := s.participantEvents ++ [newEnrollment p1 e1] }).length ≤ 1 := by
  unfold enrollmentsOf at *
  simp only [List.filter_append, List.length_append]
  by_cases hm : (newEnrollment p1 e1).matches p e = true
  · have hpe : p1 = p ∧ e1 = e := by
      simpa [ParticipantEvent.matches, newEnrollment] using hm
    obtain ⟨rfl, rfl⟩ := hpe
    have hfil : s.participantEvents.filter (ParticipantEvent.matches p1 e1) = [] := by
      rw [List.filter_eq_nil_iff]
      intro r hr
      have := List.find?_eq_none.1 hnone r hr
      simpa using this
    rw [hfil]
    simp [List.filter, hm]
  · have : [newEnrollment p1 e1].filter (ParticipantEvent.matches p e) = [] := by
      simp [List.filter, hm]
    rw [this]
    simpa using h

theorem registerStep_enrollmentsOf (lib : Lib) (s : Store) (c : RegisterCall) (p e : Id)
    (h : (enrollmentsOf p e s).length ≤ 1) :
    (enrollmentsOf p e (registerStep lib s c)).length ≤ 1 := by
  cases c with
  | current env user participantId eventId =>
    rcases registerEvent_effect lib env s user participantId eventId with h1 | ⟨p1, e1, hn, h1⟩
    · simp only [registerStep, h1]; exact h
    · simp only [registerStep, h1]; exact enrollmentsOf_append p e p1 e1 s hn h
  | legacy env participantId eventId =>
    rcases legacyRegisterEvent_effect lib env s participantId eventId with h1 | ⟨p1, e1, hn, h1⟩
    · simp only [registerStep, h1]; exact h
    · simp only [registerStep, h1]; exact enrollmentsOf_append p e p1 e1 s hn h

theorem registerAll_enrollmentsOf (lib : Lib) (calls : List RegisterCall) (s : Store) (p e : Id)
    (h : (enrollmentsOf p e s).length ≤ 1) :
    (enrollmentsOf p e (registerAll lib s calls)).length ≤ 1 := by
  induction calls generalizing s with
  | nil => exact h
  | cons c cs ih =>
    exact ih (registerStep lib s c) (registerStep_enrollmentsOf lib s c p e h)

/-- Counterexample to C22 as stated: a caller with role `participant` who names
another participant is answered 403 by the current handler whether or not a
record for the pair exists; it is neither told "Already registered" for the
existing pair nor given a new record for the missing one. -/
theorem register_idempotent_counterexample :
    findEnrollment bob workshop bobRegisteredStore.participantEvents
      = some (newEnrollment bob workshop) ∧
    registerEvent sampleLib calmEnv bobRegisteredStore (some ⟨"participant", alice⟩)
        (.scalar (.str bob)) (.scalar (.str workshop))
      = (bobRegisteredStore, ⟨403, .refused "You can only register yourself for events"⟩) ∧
    findEnrollment bob "64e0000000000000000000e2" bobRegisteredStore.participantEvents = none ∧
    registerEvent sampleLib calmEnv bobRegisteredStore (some ⟨"participant", alice⟩)
        (.scalar (.str bob)) (.scalar (.str "64e0000000000000000000e2"))
      = (bobRegisteredStore, ⟨403, .refused "You can only register yourself for events"⟩) :=
  ⟨by decide, by decide, by decide, by decide⟩

/-- C22 (registration, amended).  For request ids that cast and a lookup that
does not fail: the legacy handler answers 400 "Already registered" and leaves the
store unchanged when a record for the pair exists, and otherwise (creation not
failing) appends exactly one record for the pair with `attended` and
`feedbackGiven` false and returns it with 201; the current handler does the same
for every caller who passes its self-registration check.  In every store reached
from the empty one by registration requests to either handler there is at most
one record per pair. -/
theorem register_idempotent (lib : Lib) (env : Env) (s : Store) (participantId eventId : JsVal)
    (p e : Id) (hp : lib.castId participantId = some p) (he : lib.castId eventId = some e)
    (hfind : env.fails .enrollmentFind = false) :
    (∀ u : AuthUser, ¬ (u.role = "participant" ∧ participantId ≠ .scalar (.str u.id)) →
      registerEvent lib env s (some u) participantId eventId
        = legacyRegisterEvent lib env s participantId eventId) ∧
    (∀ r, findEnrollment p e s.participantEvents = some r →
      legacyRegisterEvent lib env s participantId eventId
        = (s, ⟨400, .message "Already registered"⟩)) ∧
    (findEnrollment p e s.participantEvents = none → env.fails .enrollmentCreate = false →
      legacyRegisterEvent lib env s participantId eventId
        = ({ s with participantEvents := s.participantEvents ++ [newEnrollment p e] },
            ⟨201, .registration (newEnrollment p e)⟩)) ∧
    (newEnrollment p e).participantId = p ∧ (newEnrollment p e).eventId = e ∧
    (newEnrollment p e).attended = false ∧ (newEnrollment p e).feedbackGiven = false ∧
    (∀ (events : List Event) (users : List User) (calls : List RegisterCall) (p1 e1 : Id),
      (enrollmentsOf p1 e1 (registerAll lib (emptyStore events users) calls)).length ≤ 1) := by
  refine ⟨fun u h => registerEvent_eq_legacy lib env s u participantId eventId h, ?_, ?_,
    rfl, rfl, rfl, rfl, ?_⟩
  · intro r hr
    simp [legacyRegisterEvent, hfind, hp, he, hr]
  · intro hn hc
    simp [legacyRegisterEvent, hfind, hp, he, hn, hc]
  · intro events users calls p1 e1
    exact registerAll_enrollmentsOf lib calls _ p1 e1 (by simp [enrollmentsOf, emptyStore])

/-- Witness for C22: an administrator registering the second participant again
is answered 400 with the store unchanged, and three registration requests for
the same pair leave exactly one record. -/
theorem register_idempotent_witness :
    sampleLib.castId (.scalar (.str bob)) = some bob ∧
    sampleLib.castId (.scalar (.str workshop)) = some workshop ∧
    calmEnv.fails .enrollmentFind = false ∧
    registerEvent sampleLib calmEnv bobRegisteredStore (some ⟨"admin", "64a0000000000000000000ad"⟩)
        (.scalar (.str bob)) (.scalar (.str workshop))
      = (bobRegisteredStore, ⟨400, .message "Already registered"⟩) ∧
    (enrollmentsOf bob workshop
      (registerAll sampleLib (emptyStore sampleEvents sampleUsers)
        [.current calmEnv (some ⟨"admin", "64a0000000000000000000ad"⟩) (.scalar (.str bob))
            (.scalar (.str workshop)),
         .legacy calmEnv (.scalar (.str bob)) (.scalar (.str workshop)),
         .current calmEnv (some ⟨"participant", bob⟩) (.scalar (.str bob))
            (.scalar (.str workshop))])).length = 1 :=
  ⟨by decide, by decide, by decide, by decide,
    Nat.le_antisymm
      ((register_idempotent sampleLib calmEnv bobRegisteredStore (.scalar (.str bob))
        (.scalar (.str workshop)) bob workshop (by decide) (by decide) (by decide)).2.2.2.2.2.2.2
        sampleEvents sampleUsers _ bob workshop)
      (by decide)⟩

/-! ## Flag monotonicity -/

theorem flagsKept_refl (r : ParticipantEvent) : flagsKept r r = true := by
  simp [flagsKept]

theorem flagsKept_trans {a b c : ParticipantEvent} (h1 : flagsKept a b = true)
    (h2 : flagsKept b c = true) : flagsKept a c = true := by
  simp only [flagsKept, Bool.and_eq_true, Bool.or_eq_true, Bool.not_eq_true', decide_eq_true_eq]
    at h1 h2 ⊢
  obtain ⟨⟨⟨⟨a1, a2⟩, a3⟩, a4⟩, a5⟩ := h1
  obtain ⟨⟨⟨⟨b1, b2⟩, b3⟩, b4⟩, b5⟩ := h2
  refine ⟨⟨⟨⟨b1.trans a1, b2.trans a2⟩, ?_⟩, ?_⟩, ?_⟩
  · rcases a3 with h | h
    · exact Or.inl h
    · rcases b3 with h3 | h3
      · rw [h] at h3; cases h3
      · exact Or.inr h3
  · rcases a4 with h | h
    · exact Or.inl h
    · rcases b4 with h3 | h3
      · rw [h] at h3; cases h3
      · exact Or.inr h3
  · rcases a5 with h | h
    · exact Or.inl h
    · rcases b5 with h3 | h3
      · rw [h] at h3; cases h3
      · exact Or.inr h3

theorem recordsKept_append (rs extra : List ParticipantEvent) :
    recordsKept rs (rs ++ extra) = true := by
  induction rs with
  | nil => rfl
  | cons r rs ih => simp [recordsKept, flagsKept_refl, ih]

theorem recordsKept_refl (rs : List ParticipantEvent) : recordsKept rs rs = true := by
  simpa using recordsKept_append rs []

theorem recordsKept_trans : ∀ {a b c : List ParticipantEvent},
    recordsKept a b = true → recordsKept b c = true → recordsKept a c = true
  | [], _, _, _, _ => rfl
  | _ :: _, [], _, h1, _ => by simp [recordsKept] at h1
  | _ :: _, _ :: _, [], _, h2 => by simp [recordsKept] at h2
  | x :: a, y :: b, z :: c, h1, h2 => by
    simp only [recordsKept, Bool.and_eq_true] at h1 h2 ⊢
    exact ⟨flagsKept_trans h1.1 h2.1, recordsKept_trans h1.2 h2.2⟩

theorem recordsKept_update (p e : Id) (u : ParticipantEvent → ParticipantEvent)
    (hu : ∀ r, flagsKept r (u r) = true) (rs : List ParticipantEvent) :
    recordsKept rs (updateEnrollment p e u rs) = true := by
  induction rs with
  | nil => rfl
  | cons r rs ih =>
    unfold updateEnrollment
    by_cases hm : r.matches p e = true
    · rw [if_pos hm]; simp [recordsKept, hu, recordsKept_refl]
    · rw [if_neg hm]; simp [recordsKept, flagsKept_refl, ih]

theorem flagsKept_markCertificate (d : Nat) (c : String) (r : ParticipantEvent) :
    flagsKept r (markCertificate d c r) = true := by
  simp [flagsKept, markCertificate]

theorem flagsKept_markFeedback (d : Nat) (r : ParticipantEvent) :
    flagsKept r (markFeedback d r) = true := by
  simp [flagsKept, markFeedback]

theorem registerEvent_recordsKept (lib : Lib) (env : Env) (s : Store) (user : Option AuthUser)
    (participantId eventId : JsVal) :
    recordsKept s.participantEvents
      (registerEvent lib env s user participantId eventId).1.participantEvents = true := by
  rcases registerEvent_effect lib env s user participantId eventId with h | ⟨p, e, _, h⟩
  · rw [h]; exact recordsKept_refl _
  · rw [h]; exact recordsKept_append _ _

theorem generateCertificate_recordsKept (lib : Lib) (env : Env) (s : Store)
    (participantId eventId participantName : JsVal) :
    recordsKept s.participantEvents
      (generateCertificate lib env s participantId eventId participantName).1.participantEvents
      = true := by
  obtain ⟨_, _, _, h, _⟩ := generateCertificate_effect lib env s participantId eventId
    participantName
  rcases h with h | ⟨p, e, d, c, _, _, h⟩
  · rw [h]; exact recordsKept_refl _
  · rw [h]; exact recordsKept_update p e _ (flagsKept_markCertificate d c) _

theorem generateCertificateCatch_recordsKept (lib : Lib) (env : Env) (s : Store)
    (participantId eventId participantName : JsVal) :
    recordsKept s.participantEvents
      (generateCertificateCatch lib env s participantId eventId participantName).1.participantEvents
      = true := by
  obtain ⟨_, _, _, _, h⟩ := generateCertificateCatch_effect lib env s participantId eventId
    participantName _ rfl
  rcases h with h | ⟨p, e, d, c, _, _, h⟩
  · rw [h]; exact recordsKept_refl _
  · rw [h]; exact recordsKept_update p e _ (flagsKept_markCertificate d c) _

theorem giveFeedback_recordsKept (lib : Lib) (env : Env) (s : Store) (req : FeedbackRequest) :
    recordsKept s.participantEvents (giveFeedback lib env s req).1.participantEvents = true := by
  rcases giveFeedback_inv lib env s req _ rfl with ⟨h, _⟩ | ⟨p, e, r, feedback, _, _, _, _, _, _, h⟩
  · rw [h]; exact recordsKept_refl _
  · rcases h with h | h
    · rw [h]; exact recordsKept_refl _
    · rw [h]
      exact recordsKept_trans
        (recordsKept_update p e _ (flagsKept_markFeedback env.now) s.participantEvents)
        (generateCertificate_recordsKept lib env
          ((s.addFeedback feedback).markFeedbackGiven p e env.now) req.participantId req.eventId
          req.name)

theorem step_recordsKept (lib : Lib) (s : Store) (c : Call) :
    recordsKept s.participantEvents (step lib s c).participantEvents = true := by
  cases c with
  | register env user participantId eventId =>
    exact registerEvent_recordsKept lib env s user participantId eventId
  | attend p e =>
    exact recordsKept_update p e _ (fun r => by simp [flagsKept]) s.participantEvents
  | feedback env req => exact giveFeedback_recordsKept lib env s req
  | issue env participantId eventId participantName =>
    exact generateCertificate_recordsKept lib env s participantId eventId participantName

theorem run_recordsKept (lib : Lib) (calls : List Call) (s : Store) :
    recordsKept s.participantEvents (run lib s calls).participantEvents = true := by
  induction calls generalizing s with
  | nil => exact recordsKept_refl _
  | cons c cs ih => exact recordsKept_trans (step_recordsKept lib s c) (ih (step lib s c))

/-- C23 (flag monotonicity).  After `registerEvent`, `giveFeedback`,
`generateCertificate`, the catch path of `generateCertificate` alone, and any
sequence of calls, every enrollment record the store held is still at its
position, belongs to the same pair, and has each of `attended`, `feedbackGiven`
and `certificateGenerated` true if it was true before. -/
theorem flags_monotone (lib : Lib) (s : Store) :
    (∀ env user participantId eventId,
      recordsKept s.participantEvents
        (registerEvent lib env s user participantId eventId).1.participantEvents = true) ∧
    (∀ env req,
      recordsKept s.participantEvents (giveFeedback lib env s req).1.participantEvents = true) ∧
    (∀ env participantId eventId participantName,
      recordsKept s.participantEvents
        (generateCertificate lib env s participantId eventId participantName).1.participantEvents
        = true) ∧
    (∀ env participantId eventId participantName,
      recordsKept s.participantEvents
        (generateCertificateCatch lib env s participantId eventId
          participantName).1.participantEvents = true) ∧
    (∀ calls, recordsKept s.participantEvents (run lib s calls).participantEvents = true) :=
  ⟨fun env => registerEvent_recordsKept lib env s,
    fun env => giveFeedback_recordsKept lib env s,
    fun env => generateCertificate_recordsKept lib env s,
    fun env => generateCertificateCatch_recordsKept lib env s,
    fun calls => run_recordsKept lib calls s⟩

/-! ## Certificate snapshot -/

theorem generateCertificateTry_snapshot (lib : Lib) (env : Env) (s : Store)
    (participantId eventId : JsVal) (out : Store × Except Failure CertificateSummary)
    (h : generateCertificateTry lib env s participantId eventId = out) :
    out.1.certificates = s.certificates ∨
    ∃ p e event participant buffer,
      lib.castId participantId = some p ∧ lib.castId eventId = some e ∧
      findEvent e s.events = some event ∧ findUser p s.users = some participant ∧
      out.1.certificates
        = s.certificates ++ [newCertificate lib env p e event participant buffer] := by
  unfold generateCertificateTry at h
  repeat' (split at h)
  all_goals (subst h; first | exact Or.inl rfl | skip)
  all_goals exact Or.inr ⟨_, _, _, _, _, by assumption, by assumption, by assumption,
    by assumption, rfl⟩

/-- C24 (snapshot).  An execution of `generateCertificate` stores at most one
certificate, and the one it stores is built from the Event and User records
found at that moment: `participantName` is the name of the User record (the
`participantName` argument, which carries the name typed into the form, is not
used), `eventTitle`, `venue`, `mode` and the two dates are the Event record's,
`eventDuration` is `event.duration || "1 Day"`, and `skills` is
`event.skills || []`.  When a certificate for the pair is already stored and the
lookups succeed, the call returns the stored `participantName`, `eventTitle` and
`skills`, whatever the Event and User records now hold. -/
theorem certificate_snapshot (lib : Lib) (env : Env) (s : Store)
    (participantId eventId participantName : JsVal) :
    ((generateCertificate lib env s participantId eventId participantName).1.certificates
        = s.certificates ∨
      ∃ p e event participant buffer,
        lib.castId participantId = some p ∧ lib.castId eventId = some e ∧
        findEvent e s.events = some event ∧ findUser p s.users = some participant ∧
        (generateCertificate lib env s participantId eventId participantName).1.certificates
          = s.certificates ++ [newCertificate lib env p e event participant buffer] ∧
        (newCertificate lib env p e event participant buffer).participantName
          = participant.name ∧
        (newCertificate lib env p e event participant buffer).eventTitle = event.title ∧
        (newCertificate lib env p e event participant buffer).venue = event.venue ∧
        (newCertificate lib env p e event participant buffer).mode = event.mode ∧
        (newCertificate lib env p e event participant buffer).startDate = event.startDate ∧
        (newCertificate lib env p e event participant buffer).endDate = event.endDate ∧
        (newCertificate lib env p e event participant buffer).eventDuration
          = orElse event.duration "1 Day" ∧
        (event.duration = none →
          (newCertificate lib env p e event participant buffer).eventDuration = "1 Day") ∧
        (newCertificate lib env p e event participant buffer).skills
          = some (event.skills.getD [])) ∧
    (∀ p e event participant existing,
      lib.castId participantId = some p → lib.castId eventId = some e →
      findEvent e s.events = some event → findUser p s.users = some participant →
      findCertificate p e s.certificates = some existing →
      env.fails .eventFind = false → env.fails .userFind = false →
      env.fails .certificateFind = false →
      ∃ summary,
        generateCertificate lib env s participantId eventId participantName = (s, .ok summary) ∧
        summary.participantName = .scalar (.str existing.participantName) ∧
        summary.eventTitle = existing.eventTitle ∧
        summary.skills = existing.skills.getD []) := by
  refine ⟨?_, ?_⟩
  · unfold generateCertificate
    have ht := generateCertificateTry_snapshot lib env s participantId eventId _ rfl
    generalize generateCertificateTry lib env s participantId eventId = t at ht
    obtain ⟨s1, r⟩ := t
    have hfields : ∀ (t : Store),
        (s1.certificates = s.certificates ∨
          ∃ p e event participant buffer,
            lib.castId participantId = some p ∧ lib.castId eventId = some e ∧
            findEvent e s.events = some event ∧ findUser p s.users = some participant ∧
            s1.certificates
              = s.certificates ++ [newCertificate lib env p e event participant buffer]) →
        t.certificates = s1.certificates →
        (t.certificates = s.certificates ∨
          ∃ p e event participant buffer,
            lib.castId participantId = some p ∧ lib.castId eventId = some e ∧
            findEvent e s.events = some event ∧ findUser p s.users = some participant ∧
            t.certificates
              = s.certificates ++ [newCertificate lib env p e event participant buffer] ∧
            (newCertificate lib env p e event participant buffer).participantName
              = participant.name ∧
            (newCertificate lib env p e event participant buffer).eventTitle = event.title ∧
            (newCertificate lib env p e event participant buffer).venue = event.venue ∧
            (newCertificate lib env p e event participant buffer).mode = event.mode ∧
            (newCertificate lib env p e event participant buffer).startDate = event.startDate ∧
            (newCertificate lib env p e event participant buffer).endDate = event.endDate ∧
            (newCertificate lib env p e event participant buffer).eventDuration
              = orElse event.duration "1 Day" ∧
            (event.duration = none →
              (newCertificate lib env p e event participant buffer).eventDuration = "1 Day") ∧
            (newCertificate lib env p e event participant buffer).skills
              = some (event.skills.getD [])) := by
      intro t h ht
      rcases h with h | ⟨p, e, event, participant, buffer, h1, h2, h3, h4, h5⟩
      · exact Or.inl (ht.trans h)
      · refine Or.inr ⟨p, e, event, participant, buffer, h1, h2, h3, h4, ht.trans h5,
          rfl, rfl, rfl, rfl, rfl, rfl, rfl, ?_, rfl⟩
        intro hd
        simp [newCertificate, orElse, hd]
    cases r with
    | ok summary => exact hfields s1 ht rfl
    | error f =>
      exact hfields _ ht
        (generateCertificateCatch_effect lib env s1 participantId eventId participantName _
          rfl).2.2.2.1
  · intro p e event participant existing hp he hev hu hc h1 h2 h3
    refine ⟨existingSummary existing, ?_, rfl, rfl, rfl⟩
    unfold generateCertificate generateCertificateTry
    simp [hp, he, hev, hu, hc, h1, h2, h3]

/-- Witness for C24: issuing for the sample pair over an event document without
`duration` and `skills`, under the form name "Alice A.", stores the name "Alice",
the duration "1 Day" and no skills; and after the event was retitled and the
participant renamed, a further call returns the stored name, title and skills. -/
theorem certificate_snapshot_witness :
    ((generateCertificate sampleLib calmEnv bareEventStore (.scalar (.str alice))
        (.scalar (.str workshop)) (.scalar (.str "Alice A."))).1.certificates.map
      (fun c => (c.participantName, c.eventTitle, c.eventDuration, c.skills)))
      = [("Alice", "Lean Workshop", "1 Day", some [])] ∧
    (findEvent workshop renamedStore.events).map (fun ev => ev.title)
      = some "Retitled Workshop" ∧
    (findUser alice renamedStore.users).map (fun u => u.name) = some "Alicia" ∧
    ∃ summary,
      generateCertificate sampleLib calmEnv renamedStore (.scalar (.str alice))
        (.scalar (.str workshop)) (.scalar (.str "Alice A.")) = (renamedStore, .ok summary) ∧
      summary.participantName = .scalar (.str "Alice") ∧
      summary.eventTitle = "Lean Workshop" ∧
      summary.skills = ["proofs"] :=
  ⟨by decide, by decide, by decide,
    (certificate_snapshot sampleLib calmEnv renamedStore (.scalar (.str alice))
      (.scalar (.str workshop)) (.scalar (.str "Alice A."))).2 alice workshop
      { workshopEvent with title := "Retitled Workshop", skills := some ["tactics"] }
      { aliceUser with name := "Alicia" } aliceCertificate
      (by decide) (by decide) (by decide) (by decide) (by rfl) (by decide) (by decide)
      (by decide)⟩

/-! ## Date-range text -/

/-- C25 (date-range text).  For every formatter `fmt` and every start and end
date, the date-range text is `fmt start` when the two formatted dates are the
same text, and `fmt start ++ " - " ++ fmt end` otherwise.  In particular a range
from a date to itself is the single date, and with the UTC long-date formatter
two instants of the same UTC day give the single date. -/
theorem date_range_text (fmt : Nat → String) (startDate endDate : Nat) :
    (fmt startDate = fmt endDate → dateRange fmt startDate endDate = fmt startDate) ∧
    (fmt startDate ≠ fmt endDate →
      dateRange fmt startDate endDate = fmt startDate ++ " - " ++ fmt endDate) ∧
    dateRange fmt startDate startDate = fmt startDate ∧
    (startDate / 86400000 = endDate / 86400000 →
      dateRange longDateUTC startDate endDate = longDateUTC startDate) := by
  refine ⟨fun h => ?_, fun h => ?_, ?_, fun h => ?_⟩
  · unfold dateRange; exact if_pos h
  · unfold dateRange; exact if_neg h
  · unfold dateRange; exact if_pos rfl
  · have hfmt : longDateUTC startDate = longDateUTC endDate := by
      unfold longDateUTC
      rw [h]
    unfold dateRange
    exact if_pos hfmt

/-- Witness for C25: with the UTC long-date formatter, two instants of
November 3, 2023 give the single date, and the dates of the sample event give
the two dates joined by " - ". -/
theorem date_range_text_witness :
    longDateUTC 1699000000000 = longDateUTC 1699010000000 ∧
    dateRange longDateUTC 1699000000000 1699010000000 = "November 3, 2023" ∧
    longDateUTC workshopEvent.startDate ≠ longDateUTC workshopEvent.endDate ∧
    dateRange longDateUTC workshopEvent.startDate workshopEvent.endDate
      = "November 3, 2023 - November 4, 2023" :=
  ⟨by decide,
    ((date_range_text longDateUTC 1699000000000 1699010000000).1 (by decide)).trans (by decide),
    by decide,
    ((date_range_text longDateUTC workshopEvent.startDate workshopEvent.endDate).2.1
      (by decide)).trans (by decide)⟩

/-! ## The legacy feedback handler -/

theorem legacyGiveFeedback_creates (lib : Lib) (env : Env) (s : Store)
    (submissions : List LegacyFeedback) (req : FeedbackRequest) (p e : Id)
    (h1 : lib.isValid req.participantId = true) (h2 : lib.isValid req.eventId = true)
    (h3 : lib.castId req.participantId = some p) (h4 : lib.castId req.eventId = some e)
    (h5 : env.fails .feedbackCreate = false) (h6 : env.fails .enrollmentMarkFeedback = false) :
    (legacyGiveFeedback lib env s submissions req).2
      = .created 201 (legacyFeedbackData p e req) ∧
    (legacyGiveFeedback lib env s submissions req).1.2
      = submissions ++ [legacyFeedbackData p e req] := by
  simp [legacyGiveFeedback, h1, h2, h3, h4, h5, h6]

/-- C26 (legacy feedback handler).  The legacy `giveFeedback` makes no
enrollment check: for the complete legacy request of the sample pair it answers
201 and creates a feedback document on the empty store (no enrollment record),
on the store where the pair is registered but has not attended, and again on the
store it has itself left with `feedbackGiven` set, after which two feedback
documents exist for the pair. -/
theorem legacy_feedback_unchecked :
    findEnrollment alice workshop (emptyStore sampleEvents sampleUsers).participantEvents = none ∧
    (legacyGiveFeedback sampleLib calmEnv (emptyStore sampleEvents sampleUsers) []
      legacyRequest).2.status = 201 ∧
    (legacySubmissionsOf alice workshop
      (legacyGiveFeedback sampleLib calmEnv (emptyStore sampleEvents sampleUsers) []
        legacyRequest).1.2).length = 1 ∧
    (findEnrollment alice workshop registeredStore.participantEvents).map
      (fun r => r.attended) = some false ∧
    (legacyGiveFeedback sampleLib calmEnv registeredStore [] legacyRequest).2.status = 201 ∧
    (findEnrollment alice workshop
      (legacyGiveFeedback sampleLib calmEnv registeredStore []
        legacyRequest).1.1.participantEvents).map
      (fun r => r.feedbackGiven) = some true ∧
    (legacyGiveFeedback sampleLib calmEnv
      (legacyGiveFeedback sampleLib calmEnv registeredStore [] legacyRequest).1.1
      (legacyGiveFeedback sampleLib calmEnv registeredStore [] legacyRequest).1.2
      legacyRequest).2.status = 201 ∧
    (legacySubmissionsOf alice workshop
      (legacyGiveFeedback sampleLib calmEnv
        (legacyGiveFeedback sampleLib calmEnv registeredStore [] legacyRequest).1.1
        (legacyGiveFeedback sampleLib calmEnv registeredStore [] legacyRequest).1.2
        legacyRequest).1.2).length = 2 :=
  ⟨by decide, by decide, by decide, by decide, by decide, by decide, by decide, by decide⟩

/-! ## Self-registration -/

/-- C27 (self-registration only).  For a caller whose role is `participant`:
when the `participantId` of the body is not the caller's own id, `registerEvent`
answers 403 "You can only register yourself for events" and leaves the store
unchanged; so whenever it changes the store or answers 201, the body's
`participantId` is the caller's id.  A caller with any other role is never
answered 403, and with ids that cast, no record for the pair and no failing
store call, gets the record created for whatever participant is named. -/
theorem self_registration_only (lib : Lib) (env : Env) (s : Store) (u : AuthUser)
    (participantId eventId : JsVal) (hrole : u.role = "participant") :
    (participantId ≠ .scalar (.str u.id) →
      registerEvent lib env s (some u) participantId eventId
        = (s, ⟨403, .refused "You can only register yourself for events"⟩)) ∧
    ((registerEvent lib env s (some u) participantId eventId).1 ≠ s →
      participantId = .scalar (.str u.id)) ∧
    ((registerEvent lib env s (some u) participantId eventId).2.status = 201 →
      participantId = .scalar (.str u.id)) ∧
    (∀ v : AuthUser, v.role ≠ "participant" →
      (registerEvent lib env s (some v) participantId eventId).2.status ≠ 403 ∧
      (∀ p e, lib.castId participantId = some p → lib.castId eventId = some e →
        findEnrollment p e s.participantEvents = none →
        env.fails .enrollmentFind = false → env.fails .enrollmentCreate = false →
        registerEvent lib env s (some v) participantId eventId
          = ({ s with participantEvents := s.participantEvents ++ [newEnrollment p e] },
              ⟨201, .registration (newEnrollment p e)⟩))) := by
  have h403 : participantId ≠ .scalar (.str u.id) →
      registerEvent lib env s (some u) participantId eventId
        = (s, ⟨403, .refused "You can only register yourself for events"⟩) := by
    intro hne
    unfold registerEvent
    simp only [if_pos (And.intro hrole hne)]
  refine ⟨h403, ?_, ?_, ?_⟩
  · intro hs
    by_contra hne
    exact hs (by rw [h403 hne])
  · intro hs
    by_contra hne
    rw [h403 hne] at hs
    simp at hs
  · intro v hv
    refine ⟨?_, ?_⟩
    · generalize h : registerEvent lib env s (some v) participantId eventId = out
      unfold registerEvent at h
      simp only [hv, false_and, if_false] at h
      repeat' (split at h)
      all_goals (subst h; simp)
    · intro p e hp he hn hf hc
      unfold registerEvent
      simp [hv, hp, he, hn, hf, hc]

/-- Witness for C27: the sample participant naming the second participant is
answered 403 with the store unchanged, registering herself gets 201, and an
administrator naming the second participant gets 201. -/
theorem self_registration_only_witness :
    registerEvent sampleLib calmEnv (emptyStore sampleEvents sampleUsers)
        (some ⟨"participant", alice⟩) (.scalar (.str bob)) (.scalar (.str workshop))
      = (emptyStore sampleEvents sampleUsers,
          ⟨403, .refused "You can only register yourself for events"⟩) ∧
    (registerEvent sampleLib calmEnv (emptyStore sampleEvents sampleUsers)
        (some ⟨"participant", alice⟩) (.scalar (.str alice))
        (.scalar (.str workshop))).2.status = 201 ∧
    (registerEvent sampleLib calmEnv (emptyStore sampleEvents sampleUsers)
        (some ⟨"admin", "64a0000000000000000000ad"⟩) (.scalar (.str bob))
        (.scalar (.str workshop))).2
      = ⟨201, .registration (newEnrollment bob workshop)⟩ :=
  ⟨(self_registration_only sampleLib calmEnv (emptyStore sampleEvents sampleUsers)
      ⟨"participant", alice⟩ (.scalar (.str bob)) (.scalar (.str workshop)) rfl).1 (by decide),
    by decide, by decide⟩

/-! ## The fallback path -/

theorem generateCertificateTry_failed (lib : Lib) (env : Env) (s : Store)
    (participantId eventId : JsVal) (out : Store × Except Failure CertificateSummary)
    (h : generateCertificateTry lib env s participantId eventId = out) :
    ∀ f, out.2 = .error f →
      (f ≠ .thrown .enrollmentMarkCertificate ∧ out.1 = s) ∨
      (f = .thrown .enrollmentMarkCertificate ∧
        ∃ p e event participant buffer,
          lib.castId participantId = some p ∧ lib.castId eventId = some e ∧
          findCertificate p e s.certificates = none ∧
          out.1 = { s with certificates :=
            s.certificates ++ [newCertificate lib env p e event participant buffer] }) := by
  unfold generateCertificateTry at h
  repeat' (split at h)
  all_goals (subst h; intro f hf; simp only [reduceCtorEq] at hf)
  all_goals (first
    | (cases hf; exact Or.inl ⟨by simp, rfl⟩)
    | (cases hf
       exact Or.inr ⟨rfl, _, _, _, _, _, by assumption, by assumption, by assumption, rfl⟩))

/-- Counterexample to C28 as stated: when the certificate is saved and the
update of the enrollment record then throws, the execution goes through the
catch block and returns the "Unknown Event" summary, yet a Certificate record
was created (under another id than the one returned). -/
theorem fallback_path_counterexample :
    feedbackGivenStore.certificates = [] ∧
    (generateCertificateTry sampleLib markFailEnv feedbackGivenStore (.scalar (.str alice))
        (.scalar (.str workshop))).2 = .error (.thrown .enrollmentMarkCertificate) ∧
    markFailEnv.fails .enrollmentMarkFallback = false ∧
    (generateCertificate sampleLib markFailEnv feedbackGivenStore (.scalar (.str alice))
        (.scalar (.str workshop)) (.scalar (.str "Alice A."))).2.toOption.map
        (fun c => (c.eventTitle, c.certificateId))
      = some ("Unknown Event", "CERT-1700000000001-Z8Y7X6W5V") ∧
    (generateCertificate sampleLib markFailEnv feedbackGivenStore (.scalar (.str alice))
        (.scalar (.str workshop)) (.scalar (.str "Alice A."))).1.certificates.map
        (fun c => c.certificateId)
      = ["CERT-1700000000000-K3J9X7Q2M"] :=
  ⟨by decide, by rfl, by decide, by decide, by decide⟩

/-- C28 (fallback path, amended).  Let the try block of `generateCertificate`
fail, leaving the store `s1`, and let the update of the catch block succeed.  The
try block has left the enrollment records as they were, and the certificates as
well unless the failure is the enrollment update after a successful save, in
which case one certificate was appended.  The catch block adds no certificate.
For ids that cast, the fallback object is returned; every returned summary is
the fallback object, with `eventTitle` "Unknown Event", the description
"Certificate of completion for Unknown Event", no skills and the synthesized id,
whether or not the Event record had been found, and the enrollment record of the
pair, if there is one, is marked `certificateGenerated` with that id. -/
theorem fallback_path (lib : Lib) (env : Env) (s : Store)
    (participantId eventId participantName : JsVal) (s1 : Store) (f : Failure)
    (htry : generateCertificateTry lib env s participantId eventId = (s1, .error f))
    (hmark : env.fails .enrollmentMarkFallback = false) :
    s1.participantEvents = s.participantEvents ∧
    ((f ≠ .thrown .enrollmentMarkCertificate ∧ s1 = s) ∨
      (f = .thrown .enrollmentMarkCertificate ∧
        ∃ p e event participant buffer,
          lib.castId participantId = some p ∧ lib.castId eventId = some e ∧
          findCertificate p e s.certificates = none ∧
          s1 = { s with certificates :=
            s.certificates ++ [newCertificate lib env p e event participant buffer] })) ∧
    (generateCertificate lib env s participantId eventId participantName).1.certificates
      = s1.certificates ∧
    (∀ p e, lib.castId participantId = some p → lib.castId eventId = some e →
      (generateCertificate lib env s participantId eventId participantName).2
        = .ok (fallbackCertificate env participantId eventId participantName)) ∧
    (∀ summary,
      (generateCertificate lib env s participantId eventId participantName).2 = .ok summary →
      summary = fallbackCertificate env participantId eventId participantName ∧
      summary.eventTitle = "Unknown Event" ∧
      summary.description = "Certificate of completion for Unknown Event" ∧
      summary.skills = [] ∧
      summary.certificateId = certificateIdOf env.fallbackNow env.fallbackRandom ∧
      ∃ p e, lib.castId participantId = some p ∧ lib.castId eventId = some e ∧
        (generateCertificate lib env s participantId eventId
            participantName).1.participantEvents
          = updateEnrollment p e (markCertificate env.fallbackNow summary.certificateId)
              s.participantEvents ∧
        ∀ r, findEnrollment p e s.participantEvents = some r →
          findEnrollment p e
              (generateCertificate lib env s participantId eventId
                participantName).1.participantEvents
            = some (markCertificate env.fallbackNow summary.certificateId r)) := by
  have hgen : generateCertificate lib env s participantId eventId participantName
      = generateCertificateCatch lib env s1 participantId eventId participantName := by
    unfold generateCertificate
    rw [htry]
  have hpe : s1.participantEvents = s.participantEvents :=
    (generateCertificateTry_effect lib env s participantId eventId _ htry).2 f rfl
  have hfail := generateCertificateTry_failed lib env s participantId eventId _ htry f rfl
  rw [hgen]
  refine ⟨hpe, hfail, ?_, ?_, ?_⟩
  · exact (generateCertificateCatch_effect lib env s1 participantId eventId participantName _
      rfl).2.2.2.1
  · intro p e hp he
    simp [generateCertificateCatch, hmark, hp, he]
  · intro summary hs
    have hsum : summary = fallbackCertificate env participantId eventId participantName ∧
        ∃ p e, lib.castId participantId = some p ∧ lib.castId eventId = some e ∧
          (generateCertificateCatch lib env s1 participantId eventId
              participantName).1.participantEvents
            = updateEnrollment p e
                (markCertificate env.fallbackNow (certificateIdOf env.fallbackNow env.fallbackRandom))
                s1.participantEvents := by
      generalize hc : generateCertificateCatch lib env s1 participantId eventId participantName
        = out at hs
      unfold generateCertificateCatch at hc
      repeat' (split at hc)
      all_goals (subst hc; simp only [reduceCtorEq] at hs)
      cases hs
      exact ⟨rfl, _, _, by assumption, by assumption, rfl⟩
    obtain ⟨rfl, p, e, hp, he, hupd⟩ := hsum
    refine ⟨rfl, rfl, rfl, rfl, rfl, p, e, hp, he, ?_, ?_⟩
    · rw [hupd, hpe]; rfl
    · intro r hr
      rw [hupd, hpe, findEnrollment_updateEnrollment (markCertificate_matches _ _ p e), hr]
      rfl

/-- Witness for C28: saving the certificate throws after the sample event was
found; the summary returned is the fallback object with "Unknown Event", no
certificate is stored and the record of the pair carries the synthesized id. -/
theorem fallback_path_witness :
    (findEvent workshop feedbackGivenStore.events).map (fun ev => ev.title)
      = some "Lean Workshop" ∧
    saveFailEnv.fails .enrollmentMarkFallback = false ∧
    (generateCertificate sampleLib saveFailEnv feedbackGivenStore (.scalar (.str alice))
        (.scalar (.str workshop)) (.scalar (.str "Alice A."))).1.certificates
      = feedbackGivenStore.certificates ∧
    (generateCertificate sampleLib saveFailEnv feedbackGivenStore (.scalar (.str alice))
        (.scalar (.str workshop)) (.scalar (.str "Alice A."))).2.toOption.map
        (fun c => (c.eventTitle, c.description, c.skills, c.certificateId))
      = some ("Unknown Event", "Certificate of completion for Unknown Event", [],
          "CERT-1700000000001-Z8Y7X6W5V") ∧
    (findEnrollment alice workshop
        (generateCertificate sampleLib saveFailEnv feedbackGivenStore (.scalar (.str alice))
          (.scalar (.str workshop)) (.scalar (.str "Alice A."))).1.participantEvents).map
        (fun r => (r.certificateGenerated, r.certificateId))
      = some (true, some "CERT-1700000000001-Z8Y7X6W5V") :=
  ⟨by decide, by decide,
    (fallback_path sampleLib saveFailEnv feedbackGivenStore (.scalar (.str alice))
      (.scalar (.str workshop)) (.scalar (.str "Alice A.")) feedbackGivenStore
      (.thrown .certificateSave) (by rfl) (by decide)).2.2.1,
    by decide, by decide⟩

/-! ## The verified field of the listing -/

theorem certificateEntry_verified (lib : Lib) (format includePreview : Option String)
    (cert : Certificate) :
    (certificateEntry lib format includePreview cert).verified = true ∧
    (certificateEntry lib format includePreview cert).verificationVerified = cert.verified := by
  simp [certificateEntry]

/-- C29 (the `verified` field of the listing).  Every entry built by
`getCertificates` has the top-level `verified` true and the nested
`verification.verified` equal to the stored value, so for a certificate stored
with `verification.verified` false or absent the two differ; and every entry of
every 200 reply of `getCertificates` is such an entry of a stored certificate. -/
theorem listing_verified_always_true (lib : Lib) (env : Env) (s : Store)
    (participantId : String) (includePreview format : Option String) :
    (∀ cert : Certificate,
      (certificateEntry lib format includePreview cert).verified = true ∧
      (certificateEntry lib format includePreview cert).verificationVerified = cert.verified ∧
      (cert.verified ≠ some true →
        (certificateEntry lib format includePreview cert).verificationVerified
          ≠ some (certificateEntry lib format includePreview cert).verified)) ∧
    (∀ list, getCertificates lib env s participantId includePreview format = .ok 200 list →
      ∀ x ∈ list.data,
        x.verified = true ∧
        ∃ cert ∈ s.certificates,
          x = certificateEntry lib format includePreview cert ∧
          x.verificationVerified = cert.verified) := by
  refine ⟨?_, ?_⟩
  · intro cert
    obtain ⟨h1, h2⟩ := certificateEntry_verified lib format includePreview cert
    refine ⟨h1, h2, ?_⟩
    intro hne
    rw [h1, h2]
    exact hne
  · intro list hlist x hx
    generalize hg : getCertificates lib env s participantId includePreview format = out at hlist
    unfold getCertificates at hg
    repeat' (split at hg)
    all_goals (subst hg; cases hlist)
    have hmem : x ∈ (findByParticipant _ s.certificates).map
        (certificateEntry lib format includePreview) :=
      (List.perm_insertionSort newestFirst _).mem_iff.1 hx
    obtain ⟨cert, hc, rfl⟩ := List.mem_map.1 hmem
    obtain ⟨h1, h2⟩ := certificateEntry_verified lib format includePreview cert
    exact ⟨h1, cert, (List.mem_filter.1 hc).1, rfl, h2⟩

/-- Witness for C29: the listing of the sample participant over a store whose
two certificates have `verification.verified` absent and false shows `verified`
true on both entries, and for the certificate stored with false the nested field
differs from the top-level one. -/
theorem listing_verified_always_true_witness :
    unverifiedStore.certificates.map (fun c => c.verified) = [some false, none] ∧
    (getCertificates sampleLib calmEnv unverifiedStore alice none none).data.map
        (fun list => list.data.map (fun x => (x.verified, x.verificationVerified)))
      = some [(true, none), (true, some false)] ∧
    (certificateEntry sampleLib none none
        { aliceCertificate with verified := some false }).verificationVerified
      ≠ some (certificateEntry sampleLib none none
        { aliceCertificate with verified := some false }).verified :=
  ⟨by decide, by decide,
    ((listing_verified_always_true sampleLib calmEnv unverifiedStore alice none none).1
      { aliceCertificate with verified := some false }).2.2 (by decide)⟩

/-! ## Rating range -/

theorem structuredRating_range (responses : JsVal)
    (hlen : (ratingResponses responses.values).length < 2 ^ 50) (n : Int)
    (h : structuredRating responses = some n) : 1 ≤ n ∧ n ≤ 5 := by
  unfold structuredRating at h
  split at h
  · rename_i hpos
    cases h
    have hb := doubleSum_bounds _ (ratingResponses_range responses.values) hlen
    have hlenq : (0 : ℚ) < (ratingResponses responses.values).length := by
      exact_mod_cast hpos
    obtain ⟨r1, r5⟩ := roundDouble_range
      (doubleSum (ratingResponses responses.values) / (ratingResponses responses.values).length)
      (by rw [le_div_iff₀ hlenq]; linarith [hb.1])
      (by rw [div_le_iff₀ hlenq]; linarith [hb.2])
    exact jsRound_range _ r1 r5
  · cases h

theorem giveFeedback_stored (lib : Lib) (env : Env) (s : Store) (req : FeedbackRequest) :
    (giveFeedback lib env s req).1.feedbacks = s.feedbacks ∨
    ∃ p e fb, feedbackData p e req = some fb ∧
      (giveFeedback lib env s req).1.feedbacks = s.feedbacks ++ [fb] := by
  rcases giveFeedback_inv lib env s req _ rfl with ⟨h, _⟩ | ⟨p, e, r, fb, _, _, _, _, _, hd, h⟩
  · rw [h]; exact Or.inl rfl
  · refine Or.inr ⟨p, e, fb, hd, ?_⟩
    rcases h with h | h
    · rw [h]; rfl
    · rw [h]
      exact (generateCertificate_effect lib env ((s.addFeedback fb).markFeedbackGiven p e env.now)
        req.participantId req.eventId req.name).1

/-- C30 (rating range).  Whatever `giveFeedback` does, the feedback collection is
unchanged or has gained the one document built from the request.  On the
structured path the `overallRating` of that document, when set, is an integer
between 1 and 5, for every `responses` value with fewer than `2 ^ 50` rating
answers (a JavaScript array holds fewer than `2 ^ 32` elements), non-integer
answers included; on the legacy path it is set to an integer between 1 and 5
whenever `q7`, `q8`, `q9`, `q10`, `q11` and `q13` are numbers between 1 and 5.
The arithmetic is that of binary64. -/
theorem rating_range (lib : Lib) (env : Env) (s : Store) (req : FeedbackRequest) :
    ((giveFeedback lib env s req).1.feedbacks = s.feedbacks ∨
      ∃ p e fb, feedbackData p e req = some fb ∧
        (giveFeedback lib env s req).1.feedbacks = s.feedbacks ++ [fb]) ∧
    ((ratingResponses req.responses.values).length < 2 ^ 50 →
      ∀ n, structuredRating req.responses = some n → 1 ≤ n ∧ n ≤ 5) ∧
    ((ratingResponses req.responses.values).length < 2 ^ 50 →
      ∀ p e fb, req.structured = true → feedbackData p e req = some fb →
        fb.overallRating = .absent ∨ ∃ n, fb.overallRating = .value n ∧ 1 ≤ n ∧ n ≤ 5) ∧
    (∀ (p e : Id) (fb : Feedback) (a b c d f g : ℚ), req.structured = false →
      req.q7 = .scalar (.num a) → req.q8 = .scalar (.num b) → req.q9 = .scalar (.num c) →
      req.q10 = .scalar (.num d) → req.q11 = .scalar (.num f) → req.q13 = .scalar (.num g) →
      (1 ≤ a ∧ a ≤ 5) → (1 ≤ b ∧ b ≤ 5) → (1 ≤ c ∧ c ≤ 5) → (1 ≤ d ∧ d ≤ 5) →
      (1 ≤ f ∧ f ≤ 5) → (1 ≤ g ∧ g ≤ 5) →
      feedbackData p e req = some fb →
      ∃ n, fb.overallRating = .value n ∧ 1 ≤ n ∧ n ≤ 5) := by
  refine ⟨giveFeedback_stored lib env s req,
    fun hlen => structuredRating_range req.responses hlen, ?_, ?_⟩
  · intro hlen p e fb hs hd
    unfold feedbackData at hd
    rw [if_pos hs] at hd
    cases hd
    cases hrate : structuredRating req.responses with
    | none => exact Or.inl rfl
    | some n => exact Or.inr ⟨n, rfl, structuredRating_range req.responses hlen n hrate⟩
  · intro p e fb a b c d f g hs h7 h8 h9 h10 h11 h13 ha hb hc hd hf hg hdata
    unfold feedbackData at hdata
    rw [if_neg (by simp [hs])] at hdata
    split_ifs at hdata
    cases hdata
    simp only [h7, h8, h9, h10, h11, h13]
    exact legacyRating_range a b c d f g ha hb hc hd hf hg

/-- Witness for C30: a structured request whose answers are 4.5 and 4 is stored
with rating 4, a single answer 4.5 gives 5, and the sample structured request,
with three rating answers, is stored by `giveFeedback` with a rating between 1
and 5. -/
theorem rating_range_witness :
    structuredRating (.obj [("q1", .scalar (.num (9 / 2))), ("q2", .scalar (.num 4))])
      = some 4 ∧
    structuredRating (.obj [("q1", .scalar (.num (9 / 2)))]) = some 5 ∧
    sampleRequest.structured = true ∧
    (ratingResponses sampleRequest.responses.values).length = 3 ∧
    (feedbackData alice workshop sampleRequest).map (fun fb => fb.overallRating)
      = some (.value 4) ∧
    ∀ n, structuredRating sampleRequest.responses = some n → 1 ≤ n ∧ n ≤ 5 :=
  ⟨by decide!, by decide!, by decide, by decide!, by decide!,
    (rating_range sampleLib calmEnv attendedStore sampleRequest).2.1 (by
      rw [show (ratingResponses sampleRequest.responses.values).length = 3 by decide!]
      norm_num)⟩

end EventsApp
